import Mathlib

/-!
Fruit scale and pricing system: EEPROM driver, application-data store and
HX711 load-cell driver.

A shallow embedding of `src/src/eeprom.c`, `src/src/app_data.c` and
`src/src/hx711.c`, and the properties of the persistent store and of the
load-cell driver proved on it. The conventions of the first two are listed
here, those of the load-cell driver at its definitions.

* The EEPROM cells are a map from addresses to byte values; the two
  file-local `g_lastError` slots (one in `eeprom.c`, one in `app_data.c`)
  are explicit fields of the state. Every function takes the state and
  returns its result paired with the state after the call.
* `uint8`, `uint16`, `uint32` and `unsigned long long` values are natural
  numbers, reduced modulo `2^8`, `2^16`, `2^32`, `2^64` wherever the C code
  converts or can overflow. In particular the end address
  `startAddress + length - 1` of a span check is a `uint16`.
* A `for` loop is a function by recursion on the number of iterations still
  to run, with the loop variable as an argument; an early `return` or
  `break` ends the recursion.
* A `float` is its 32-bit IEEE-754 pattern and a `double` its 64-bit
  pattern, the binary64 layout the stored record documents (the `union` in
  `EEPROM_writeFloat` / `EEPROM_writeDouble` is the identity on patterns);
  the C comparison `<` on them is `f32_lt` / `f64_lt`, false on a NaN.
* A pointer argument that the code tests against `NULL` is an `Option`.
  A `const char*` string is the list of its characters, the terminating
  zero left implicit; an output buffer is a map from index to byte.
-/

/-! ## Types of `eeprom.h` and `app_data.h` -/

/-- The enumeration `EEPROM_Error_t` of `eeprom.h`. -/
inductive EEPROM_Error_t where
  | EEPROM_NO_ERROR
  | EEPROM_ADDRESS_ERROR
  | EEPROM_WRITE_ERROR
  | EEPROM_BUSY_ERROR
  deriving DecidableEq, Repr

/-- The enumeration `AppData_Error_t` of `app_data.h`. -/
inductive AppData_Error_t where
  | APPDATA_NO_ERROR
  | APPDATA_INVALID_INDEX
  | APPDATA_NULL_POINTER
  | APPDATA_BUFFER_OVERFLOW
  | APPDATA_ADDRESS_OUT_OF_RANGE
  | APPDATA_STRING_TOO_LONG
  | APPDATA_INVALID_NAME
  | APPDATA_PASSWORD_TOO_SHORT
  | APPDATA_PASSWORD_INVALID_CHAR
  | APPDATA_VERIFICATION_FAILED
  | APPDATA_INVALID_PRICE
  | APPDATA_INVALID_INCOME
  | APPDATA_INVALID_SCALE
  | APPDATA_INVALID_OFFSET
  | APPDATA_NOT_INITIALIZED
  | APPDATA_NOT_CALIBRATED
  | APPDATA_CALIBRATION_FAILED
  | APPDATA_EEPROM_ERROR
  | APPDATA_READ_ERROR
  | APPDATA_WRITE_ERROR
  | APPDATA_TIMEOUT
  | APPDATA_BUSY
  | APPDATA_UNKNOWN_ERROR
  deriving DecidableEq, Repr

open EEPROM_Error_t AppData_Error_t

/-- The persistent cells and the two last-error slots. -/
structure Sys where
  /-- EEPROM cell contents by address (`eeprom_read_byte` / `eeprom_write_byte`). -/
  mem : Nat → Nat
  /-- The slot `g_lastError` of `eeprom.c`. -/
  eeErr : EEPROM_Error_t
  /-- The slot `g_lastError` of `app_data.c`. -/
  appErr : AppData_Error_t

/-- Point update of a byte map (an EEPROM cell or a buffer element). -/
def setByte (m : Nat → Nat) (a v : Nat) : Nat → Nat :=
  fun x => if x = a then v else m x

/-! ## `eeprom.h` constants -/

def EEPROM_SIZE : Nat := 1024
def EEPROM_END_ADDRESS : Nat := EEPROM_SIZE - 1

/-! ## `eeprom.c` -/

/-- Function `EEPROM_validateAddress`: `address <= EEPROM_END_ADDRESS`. -/
def EEPROM_validateAddress (address : Nat) : Bool :=
  decide (address ≤ EEPROM_END_ADDRESS)

/-- Function `EEPROM_getLastError`. -/
def EEPROM_getLastError (s : Sys) : EEPROM_Error_t := s.eeErr

/-- Function `EEPROM_writeByte(address, data)`; `data` is a `uint8`. -/
def EEPROM_writeByte (s : Sys) (address data : Nat) : EEPROM_Error_t × Sys :=
  if !EEPROM_validateAddress address then
    (EEPROM_ADDRESS_ERROR, { s with eeErr := EEPROM_ADDRESS_ERROR })
  else
    (EEPROM_NO_ERROR,
      { s with mem := setByte s.mem address (data % 256), eeErr := EEPROM_NO_ERROR })

/-- Function `EEPROM_readByte(address)`; the result is a `uint8`. A successful read
leaves the error slot as it was. -/
def EEPROM_readByte (s : Sys) (address : Nat) : Nat × Sys :=
  if !EEPROM_validateAddress address then
    (0xFF, { s with eeErr := EEPROM_ADDRESS_ERROR })
  else
    (s.mem address % 256, s)

/-- The loop `for(i = 0; i < length; i++)` of `EEPROM_writeBlock`; the first
argument counts the iterations still to run, `i` is the loop variable. -/
def EEPROM_writeBlock_loop (startAddress : Nat) (data : List Nat) :
    Nat → Nat → Sys → EEPROM_Error_t × Sys
  | 0, _, s => (EEPROM_NO_ERROR, s)
  | n + 1, i, s =>
    let r := EEPROM_writeByte s ((startAddress + i) % 65536) (data.getD i 0)
    if r.1 ≠ EEPROM_NO_ERROR then (r.1, r.2)
    else EEPROM_writeBlock_loop startAddress data n (i + 1) r.2

/-- Function `EEPROM_writeBlock(startAddress, data, length)`. The end address
`startAddress + length - 1` is a `uint16`. -/
def EEPROM_writeBlock (s : Sys) (startAddress : Nat) (data : Option (List Nat))
    (length : Nat) : EEPROM_Error_t × Sys :=
  match data with
  | none => (EEPROM_ADDRESS_ERROR, { s with eeErr := EEPROM_ADDRESS_ERROR })
  | some d =>
    if !EEPROM_validateAddress startAddress ||
        !EEPROM_validateAddress ((startAddress + length + 65536 - 1) % 65536) then
      (EEPROM_ADDRESS_ERROR, { s with eeErr := EEPROM_ADDRESS_ERROR })
    else
      EEPROM_writeBlock_loop startAddress d length 0 s

/-- Function `EEPROM_writeString(startAddress, str)`: `length = strlen(str) + 1` is a
`uint16`, the block written is the characters and the terminator. -/
def EEPROM_writeString (s : Sys) (startAddress : Nat) (str : Option (List Nat)) :
    EEPROM_Error_t × Sys :=
  match str with
  | none => (EEPROM_ADDRESS_ERROR, { s with eeErr := EEPROM_ADDRESS_ERROR })
  | some cs =>
    EEPROM_writeBlock s startAddress (some (cs ++ [0])) ((cs.length + 1) % 65536)

/-- The loop `for(i = 0; i < maxLength - 1; i++)` of `EEPROM_readString`,
with its `break`; returns the final `i`, the buffer and the state. -/
def EEPROM_readString_loop (startAddress : Nat) :
    Nat → Nat → (Nat → Nat) → Sys → Nat × (Nat → Nat) × Sys
  | 0, i, str, s => (i, str, s)
  | n + 1, i, str, s =>
    let r := EEPROM_readByte s ((startAddress + i) % 65536)
    let str1 := setByte str i r.1
    if r.1 = 0 then (i, str1, r.2)
    else EEPROM_readString_loop startAddress n (i + 1) str1 r.2

/-- Function `EEPROM_readString(startAddress, str, maxLength)`; returns the status,
the buffer after the call and the state. -/
def EEPROM_readString (s : Sys) (startAddress : Nat) (str : Option (Nat → Nat))
    (maxLength : Nat) : EEPROM_Error_t × Option (Nat → Nat) × Sys :=
  match str with
  | none => (EEPROM_ADDRESS_ERROR, none, { s with eeErr := EEPROM_ADDRESS_ERROR })
  | some buf =>
    if maxLength = 0 then
      (EEPROM_ADDRESS_ERROR, some buf, { s with eeErr := EEPROM_ADDRESS_ERROR })
    else if !EEPROM_validateAddress startAddress then
      (EEPROM_ADDRESS_ERROR, some buf, { s with eeErr := EEPROM_ADDRESS_ERROR })
    else
      let r := EEPROM_readString_loop startAddress (maxLength - 1) 0 buf s
      (EEPROM_NO_ERROR, some (setByte r.2.1 r.1 0), r.2.2)

/-- The little-endian write loop shared, statement for statement, by
`EEPROM_writeInteger`, `EEPROM_writeFloat` and `EEPROM_writeDouble`:
`byteData = (uint8)(value >> (i * 8))`, then `EEPROM_writeByte(address + i, byteData)`,
returning `g_lastError` when that fails. -/
def EEPROM_writeLE_loop (address value : Nat) : Nat → Nat → Sys → EEPROM_Error_t × Sys
  | 0, _, s => (EEPROM_NO_ERROR, s)
  | n + 1, i, s =>
    let byteData := (value >>> (i * 8)) % 256
    let r := EEPROM_writeByte s ((address + i) % 65536) byteData
    if r.1 ≠ EEPROM_NO_ERROR then (r.2.eeErr, r.2)
    else EEPROM_writeLE_loop address value n (i + 1) r.2

/-- The little-endian read loop shared by `EEPROM_readInteger`,
`EEPROM_readFloat` (accumulator of `w = 32` bits) and `EEPROM_readDouble`
(`w = 64`): `result |= (byteData << (i * 8))`. -/
def EEPROM_readLE_loop (address w : Nat) : Nat → Nat → Nat → Sys → Nat × Sys
  | 0, _, result, s => (result, s)
  | n + 1, i, result, s =>
    let r := EEPROM_readByte s ((address + i) % 65536)
    EEPROM_readLE_loop address w n (i + 1) ((result ||| ((r.1 <<< (i * 8)) % 2 ^ w)) % 2 ^ w) r.2

/-- Function `EEPROM_writeInteger(address, value, size)`; `value` is a `uint32`. -/
def EEPROM_writeInteger (s : Sys) (address value size : Nat) : EEPROM_Error_t × Sys :=
  if size ≠ 2 ∧ size ≠ 4 then
    (EEPROM_ADDRESS_ERROR, { s with eeErr := EEPROM_ADDRESS_ERROR })
  else if !EEPROM_validateAddress address ||
      !EEPROM_validateAddress ((address + size + 65536 - 1) % 65536) then
    (EEPROM_ADDRESS_ERROR, { s with eeErr := EEPROM_ADDRESS_ERROR })
  else
    EEPROM_writeLE_loop address (value % 2 ^ 32) size 0 s

/-- Function `EEPROM_readInteger(address, size)`. -/
def EEPROM_readInteger (s : Sys) (address size : Nat) : Nat × Sys :=
  if size ≠ 2 ∧ size ≠ 4 then
    (0, { s with eeErr := EEPROM_ADDRESS_ERROR })
  else if !EEPROM_validateAddress address ||
      !EEPROM_validateAddress ((address + size + 65536 - 1) % 65536) then
    (0, { s with eeErr := EEPROM_ADDRESS_ERROR })
  else
    EEPROM_readLE_loop address 32 size 0 0 s

/-- Function `EEPROM_writeFloat(address, value)`; `value` is the pattern of the `float`. -/
def EEPROM_writeFloat (s : Sys) (address value : Nat) : EEPROM_Error_t × Sys :=
  if !EEPROM_validateAddress address ||
      !EEPROM_validateAddress ((address + 3) % 65536) then
    (EEPROM_ADDRESS_ERROR, { s with eeErr := EEPROM_ADDRESS_ERROR })
  else
    EEPROM_writeLE_loop address (value % 2 ^ 32) 4 0 s

/-- Function `EEPROM_readFloat(address)`; the failure value `0.0f` is the pattern `0`. -/
def EEPROM_readFloat (s : Sys) (address : Nat) : Nat × Sys :=
  if !EEPROM_validateAddress address ||
      !EEPROM_validateAddress ((address + 3) % 65536) then
    (0, { s with eeErr := EEPROM_ADDRESS_ERROR })
  else
    EEPROM_readLE_loop address 32 4 0 0 s

/-- Function `EEPROM_writeDouble(address, value)`; `value` is the pattern of the `double`. -/
def EEPROM_writeDouble (s : Sys) (address value : Nat) : EEPROM_Error_t × Sys :=
  if !EEPROM_validateAddress address ||
      !EEPROM_validateAddress ((address + 7) % 65536) then
    (EEPROM_ADDRESS_ERROR, { s with eeErr := EEPROM_ADDRESS_ERROR })
  else
    EEPROM_writeLE_loop address (value % 2 ^ 64) 8 0 s

/-- Function `EEPROM_readDouble(address)`; the failure value `0.0` is the pattern `0`. -/
def EEPROM_readDouble (s : Sys) (address : Nat) : Nat × Sys :=
  if !EEPROM_validateAddress address ||
      !EEPROM_validateAddress ((address + 7) % 65536) then
    (0, { s with eeErr := EEPROM_ADDRESS_ERROR })
  else
    EEPROM_readLE_loop address 64 8 0 0 s

/-! ## IEEE-754 patterns and the C comparison on them -/

/-- A `float` pattern is a NaN: exponent field all ones, fraction non-zero. -/
def f32_isNaN (b : Nat) : Bool := (b / 2 ^ 23) % 256 == 255 && b % 2 ^ 23 != 0

/-- Magnitude of a `float` pattern in units of `2^-149`; the infinity lands
on `2^277`, above every finite magnitude. -/
def f32_mag (b : Nat) : Nat :=
  if (b / 2 ^ 23) % 256 = 0 then b % 2 ^ 23
  else (2 ^ 23 + b % 2 ^ 23) * 2 ^ ((b / 2 ^ 23) % 256 - 1)

/-- Signed value of a non-NaN `float` pattern in units of `2^-149`. -/
def f32_scaled (b : Nat) : Int :=
  if (b / 2 ^ 31) % 2 = 1 then -((f32_mag b : Nat) : Int) else ((f32_mag b : Nat) : Int)

/-- Value of a finite `float` pattern as a rational number. -/
def f32_toRat (b : Nat) : ℚ := (f32_scaled b : ℚ) / 2 ^ 149

/-- The C comparison `a < b` on `float`: false when either side is a NaN. -/
def f32_lt (a b : Nat) : Bool :=
  !f32_isNaN a && !f32_isNaN b && decide (f32_scaled a < f32_scaled b)

/-- A `double` pattern is a NaN. -/
def f64_isNaN (b : Nat) : Bool := (b / 2 ^ 52) % 2048 == 2047 && b % 2 ^ 52 != 0

/-- Magnitude of a `double` pattern in units of `2^-1074`; the infinity
lands on `2^2098`, above every finite magnitude. -/
def f64_mag (b : Nat) : Nat :=
  if (b / 2 ^ 52) % 2048 = 0 then b % 2 ^ 52
  else (2 ^ 52 + b % 2 ^ 52) * 2 ^ ((b / 2 ^ 52) % 2048 - 1)

/-- Signed value of a non-NaN `double` pattern in units of `2^-1074`. -/
def f64_scaled (b : Nat) : Int :=
  if (b / 2 ^ 63) % 2 = 1 then -((f64_mag b : Nat) : Int) else ((f64_mag b : Nat) : Int)

/-- The C comparison `a < b` on `double`: false when either side is a NaN. -/
def f64_lt (a b : Nat) : Bool :=
  !f64_isNaN a && !f64_isNaN b && decide (f64_scaled a < f64_scaled b)

/-- The C comparison `a >= b` on `double`: false when either side is a NaN. -/
def f64_ge (a b : Nat) : Bool :=
  !f64_isNaN a && !f64_isNaN b && decide (f64_scaled b ≤ f64_scaled a)

/-- Number of binary digits of `m`, counted with at most `fuel` halvings. -/
def bitLength : Nat → Nat → Nat
  | 0, _ => 0
  | fuel + 1, m => if m = 0 then 0 else bitLength fuel (m / 2) + 1

/-- Significand of a finite `double` pattern, the hidden bit included. -/
def f64_sig (b : Nat) : Nat :=
  if (b / 2 ^ 52) % 2048 = 0 then b % 2 ^ 52 else 2 ^ 52 + b % 2 ^ 52

/-- Effective exponent field of a finite `double` pattern (1 for subnormals):
the magnitude is `f64_sig b * 2 ^ (f64_ex b - 1)` in units of `2^-1074`. -/
def f64_ex (b : Nat) : Nat :=
  if (b / 2 ^ 52) % 2048 = 0 then 1 else (b / 2 ^ 52) % 2048

/-- Pattern of the `double` nearest to the magnitude `m * 2 ^ (e - 1)` (in
units of `2^-1074`), ties to even, the infinity on overflow. -/
def f64_roundAt (m e : Nat) : Nat :=
  if m = 0 then 0
  else if bitLength 2200 m ≤ 53 then
    let t := min (53 - bitLength 2200 m) (e - 1)
    min ((e - 1 - t) * 2 ^ 52 + m * 2 ^ t) (2047 * 2 ^ 52)
  else
    let k := bitLength 2200 m - 53
    let q := m / 2 ^ k
    let r := m % 2 ^ k
    let q1 := if 2 ^ k < 2 * r ∨ (2 * r = 2 ^ k ∧ q % 2 = 1) then q + 1 else q
    min ((e - 1 + k) * 2 ^ 52 + q1) (2047 * 2 ^ 52)

/-- IEEE-754 binary64 addition, round to nearest with ties to even: the C
`+` on `double`. The theorems on `AppData_addToTotalIncome` hold for every
adder and take it as a parameter; this one instantiates them. -/
def f64_add (a b : Nat) : Nat :=
  if f64_isNaN a || f64_isNaN b then 0x7FF8000000000000
  else if (a / 2 ^ 52) % 2048 = 2047 then
    if (b / 2 ^ 52) % 2048 = 2047 ∧ (a / 2 ^ 63) % 2 ≠ (b / 2 ^ 63) % 2
    then 0x7FF8000000000000 else a % 2 ^ 64
  else if (b / 2 ^ 52) % 2048 = 2047 then b % 2 ^ 64
  else
    let e := min (f64_ex a) (f64_ex b)
    let ma := f64_sig a * 2 ^ (f64_ex a - e)
    let mb := f64_sig b * 2 ^ (f64_ex b - e)
    if (a / 2 ^ 63) % 2 = (b / 2 ^ 63) % 2 then
      (a / 2 ^ 63) % 2 * 2 ^ 63 + f64_roundAt (ma + mb) e
    else if ma = mb then 0
    else if mb < ma then (a / 2 ^ 63) % 2 * 2 ^ 63 + f64_roundAt (ma - mb) e
    else (b / 2 ^ 63) % 2 * 2 ^ 63 + f64_roundAt (mb - ma) e

/-! ## `app_data.h` constants -/

def APPDATA_PASSWORD_ADDRESS : Nat := 0x0000
def APPDATA_ITEM1_ADDRESS : Nat := 0x0010
def APPDATA_ITEM2_ADDRESS : Nat := 0x0014
def APPDATA_ITEM3_ADDRESS : Nat := 0x0018
def APPDATA_ITEM4_ADDRESS : Nat := 0x001C
def APPDATA_ITEM5_ADDRESS : Nat := 0x0020
def APPDATA_TOTAL_INCOME_ADDRESS : Nat := 0x0024
def APPDATA_ITEM1_NAME_ADDRESS : Nat := 0x002C
def APPDATA_ITEM2_NAME_ADDRESS : Nat := 0x003C
def APPDATA_ITEM3_NAME_ADDRESS : Nat := 0x004C
def APPDATA_ITEM4_NAME_ADDRESS : Nat := 0x005C
def APPDATA_ITEM5_NAME_ADDRESS : Nat := 0x006C
def APPDATA_FIRST_TIME_FLAG_ADDRESS : Nat := 0x007C
def APPDATA_PASSWORD_SIZE : Nat := 16
def APPDATA_ITEM_NAME_SIZE : Nat := 16
def APPDATA_INITIALIZED_VALUE : Nat := 0xAA
def APPDATA_MAX_PASSWORD_LENGTH : Nat := 15
def APPDATA_NUM_ITEMS : Nat := 5
def APPDATA_MAX_ITEM_NAME_LENGTH : Nat := 15

/-- Constant `APPDATA_DEFAULT_PASSWORD`, the string "0000". -/
def APPDATA_DEFAULT_PASSWORD : List Nat := [48, 48, 48, 48]
/-- Constant `APPDATA_DEFAULT_ITEM1_PRICE`, `10.0f`. -/
def APPDATA_DEFAULT_ITEM1_PRICE : Nat := 0x41200000
/-- Constant `APPDATA_DEFAULT_ITEM2_PRICE`, `20.0f`. -/
def APPDATA_DEFAULT_ITEM2_PRICE : Nat := 0x41A00000
/-- Constant `APPDATA_DEFAULT_ITEM3_PRICE`, `35.0f`. -/
def APPDATA_DEFAULT_ITEM3_PRICE : Nat := 0x420C0000
/-- Constant `APPDATA_DEFAULT_ITEM4_PRICE`, `50.0f`. -/
def APPDATA_DEFAULT_ITEM4_PRICE : Nat := 0x42480000
/-- Constant `APPDATA_DEFAULT_ITEM5_PRICE`, `70.0f`. -/
def APPDATA_DEFAULT_ITEM5_PRICE : Nat := 0x428C0000
/-- Constant `APPDATA_DEFAULT_ITEM1_NAME`, "Apple". -/
def APPDATA_DEFAULT_ITEM1_NAME : List Nat := [65, 112, 112, 108, 101]
/-- Constant `APPDATA_DEFAULT_ITEM2_NAME`, "Orange". -/
def APPDATA_DEFAULT_ITEM2_NAME : List Nat := [79, 114, 97, 110, 103, 101]
/-- Constant `APPDATA_DEFAULT_ITEM3_NAME`, "Mango". -/
def APPDATA_DEFAULT_ITEM3_NAME : List Nat := [77, 97, 110, 103, 111]
/-- Constant `APPDATA_DEFAULT_ITEM4_NAME`, "Strawberry". -/
def APPDATA_DEFAULT_ITEM4_NAME : List Nat := [83, 116, 114, 97, 119, 98, 101, 114, 114, 121]
/-- Constant `APPDATA_DEFAULT_ITEM5_NAME`, "Banana". -/
def APPDATA_DEFAULT_ITEM5_NAME : List Nat := [66, 97, 110, 97, 110, 97]
/-- Constant `APPDATA_MAX_PRICE`, `999999.99f`: the `float` nearest to 999999.99 is
1000000.0 (see `APPDATA_MAX_PRICE_value`). -/
def APPDATA_MAX_PRICE : Nat := 0x49742400
/-- Constant `APPDATA_MIN_PRICE`, `0.0f`. -/
def APPDATA_MIN_PRICE : Nat := 0

/-! ## `app_data.c` -/

/-- The table `g_defaultItemsPrices`. -/
def g_defaultItemsPrices : List Nat :=
  [APPDATA_DEFAULT_ITEM1_PRICE, APPDATA_DEFAULT_ITEM2_PRICE, APPDATA_DEFAULT_ITEM3_PRICE,
   APPDATA_DEFAULT_ITEM4_PRICE, APPDATA_DEFAULT_ITEM5_PRICE]

/-- Function `AppData_getLastError`. -/
def AppData_getLastError (s : Sys) : AppData_Error_t := s.appErr

/-- Function `AppData_convertEepromError`. -/
def AppData_convertEepromError (s : Sys) (eepromError : EEPROM_Error_t) :
    AppData_Error_t × Sys :=
  if eepromError = EEPROM_NO_ERROR then
    (APPDATA_NO_ERROR, { s with appErr := APPDATA_NO_ERROR })
  else
    (APPDATA_EEPROM_ERROR, { s with appErr := APPDATA_EEPROM_ERROR })

/-- Function `AppData_getItemAddress`. -/
def AppData_getItemAddress (itemIndex : Nat) : Nat :=
  match itemIndex with
  | 1 => APPDATA_ITEM1_ADDRESS
  | 2 => APPDATA_ITEM2_ADDRESS
  | 3 => APPDATA_ITEM3_ADDRESS
  | 4 => APPDATA_ITEM4_ADDRESS
  | 5 => APPDATA_ITEM5_ADDRESS
  | _ => 0

/-- Function `AppData_getItemNameAddress`. -/
def AppData_getItemNameAddress (itemIndex : Nat) : Nat :=
  match itemIndex with
  | 1 => APPDATA_ITEM1_NAME_ADDRESS
  | 2 => APPDATA_ITEM2_NAME_ADDRESS
  | 3 => APPDATA_ITEM3_NAME_ADDRESS
  | 4 => APPDATA_ITEM4_NAME_ADDRESS
  | 5 => APPDATA_ITEM5_NAME_ADDRESS
  | _ => 0

/-- Function `AppData_loadPassword(password)`. -/
def AppData_loadPassword (s : Sys) (password : Option (Nat → Nat)) :
    AppData_Error_t × Option (Nat → Nat) × Sys :=
  match password with
  | none => (APPDATA_NULL_POINTER, none, { s with appErr := APPDATA_NULL_POINTER })
  | some buf =>
    let r := EEPROM_readString s APPDATA_PASSWORD_ADDRESS (some buf) APPDATA_PASSWORD_SIZE
    let c := AppData_convertEepromError r.2.2 r.1
    (c.1, r.2.1, c.2)

/-- Function `AppData_savePassword(password)`. -/
def AppData_savePassword (s : Sys) (password : Option (List Nat)) : AppData_Error_t × Sys :=
  match password with
  | none => (APPDATA_NULL_POINTER, { s with appErr := APPDATA_NULL_POINTER })
  | some p =>
    if p.length > APPDATA_MAX_PASSWORD_LENGTH then
      (APPDATA_STRING_TOO_LONG, { s with appErr := APPDATA_STRING_TOO_LONG })
    else
      let r := EEPROM_writeString s APPDATA_PASSWORD_ADDRESS (some p)
      AppData_convertEepromError r.2 r.1

/-- The test `strcmp(a, b) == 0` for a string `a` given by its characters
and a buffer `b` read from index `i` on. -/
def strcmp_eq0 : List Nat → (Nat → Nat) → Nat → Bool
  | [], b, i => b i == 0
  | c :: cs, b, i => b i == c && strcmp_eq0 cs b (i + 1)

/-- Function `AppData_verifyPassword(enteredPassword)`; `storedPassword` is the
content of the uninitialised local array on entry. -/
def AppData_verifyPassword (s : Sys) (enteredPassword : Option (List Nat))
    (storedPassword : Nat → Nat) : Nat × Sys :=
  match enteredPassword with
  | none => (0, s)
  | some q =>
    let r := AppData_loadPassword s (some storedPassword)
    if r.1 ≠ APPDATA_NO_ERROR then (0, r.2.2)
    else
      match r.2.1 with
      | some stored => ((if strcmp_eq0 q stored 0 then 1 else 0), r.2.2)
      | none => (0, r.2.2)

/-- Function `AppData_saveItemPrice(itemIndex, price)`; `itemIndex` is a `uint8`,
`price` the pattern of a `float`. -/
def AppData_saveItemPrice (s : Sys) (itemIndex price : Nat) : AppData_Error_t × Sys :=
  if itemIndex < 1 ∨ itemIndex > APPDATA_NUM_ITEMS then
    (APPDATA_INVALID_INDEX, { s with appErr := APPDATA_INVALID_INDEX })
  else if f32_lt price APPDATA_MIN_PRICE || f32_lt APPDATA_MAX_PRICE price then
    (APPDATA_INVALID_PRICE, { s with appErr := APPDATA_INVALID_PRICE })
  else
    let address := AppData_getItemAddress itemIndex
    if address = 0 then
      (APPDATA_INVALID_INDEX, { s with appErr := APPDATA_INVALID_INDEX })
    else
      let r := EEPROM_writeFloat s address price
      AppData_convertEepromError r.2 r.1

/-- Function `AppData_loadItemPrice(itemIndex)`. -/
def AppData_loadItemPrice (s : Sys) (itemIndex : Nat) : Nat × Sys :=
  if itemIndex < 1 ∨ itemIndex > APPDATA_NUM_ITEMS then
    (0, { s with appErr := APPDATA_INVALID_INDEX })
  else
    let address := AppData_getItemAddress itemIndex
    if address = 0 then
      (0, { s with appErr := APPDATA_INVALID_INDEX })
    else
      EEPROM_readFloat s address

/-- Function `AppData_saveTotalIncome(totalIncome)`; `0.0` is the pattern `0`. -/
def AppData_saveTotalIncome (s : Sys) (totalIncome : Nat) : AppData_Error_t × Sys :=
  if f64_lt totalIncome 0 then
    (APPDATA_INVALID_PRICE, { s with appErr := APPDATA_INVALID_PRICE })
  else
    let r := EEPROM_writeDouble s APPDATA_TOTAL_INCOME_ADDRESS totalIncome
    AppData_convertEepromError r.2 r.1

/-- Function `AppData_loadTotalIncome()`. -/
def AppData_loadTotalIncome (s : Sys) : Nat × Sys :=
  EEPROM_readDouble s APPDATA_TOTAL_INCOME_ADDRESS

/-- Function `AppData_addToTotalIncome(amount)`; `fadd` is the addition of `double`. -/
def AppData_addToTotalIncome (fadd : Nat → Nat → Nat) (s : Sys) (amount : Nat) :
    AppData_Error_t × Sys :=
  let r := AppData_loadTotalIncome s
  let currentIncome := r.1
  let newIncome := fadd currentIncome amount
  if f64_lt newIncome 0 then
    (APPDATA_INVALID_PRICE, { r.2 with appErr := APPDATA_INVALID_PRICE })
  else
    AppData_saveTotalIncome r.2 newIncome

/-- Function `AppData_saveItemName(itemIndex, itemName)`. -/
def AppData_saveItemName (s : Sys) (itemIndex : Nat) (itemName : Option (List Nat)) :
    AppData_Error_t × Sys :=
  if itemIndex < 1 ∨ itemIndex > APPDATA_NUM_ITEMS then
    (APPDATA_INVALID_INDEX, { s with appErr := APPDATA_INVALID_INDEX })
  else
    match itemName with
    | none => (APPDATA_NULL_POINTER, { s with appErr := APPDATA_NULL_POINTER })
    | some name =>
      if name.length > APPDATA_MAX_ITEM_NAME_LENGTH then
        (APPDATA_STRING_TOO_LONG, { s with appErr := APPDATA_STRING_TOO_LONG })
      else
        let address := AppData_getItemNameAddress itemIndex
        if address = 0 then
          (APPDATA_INVALID_INDEX, { s with appErr := APPDATA_INVALID_INDEX })
        else
          let r := EEPROM_writeString s address (some name)
          AppData_convertEepromError r.2 r.1

/-- Function `AppData_loadItemName(itemIndex, itemName)`. -/
def AppData_loadItemName (s : Sys) (itemIndex : Nat) (itemName : Option (Nat → Nat)) :
    AppData_Error_t × Option (Nat → Nat) × Sys :=
  if itemIndex < 1 ∨ itemIndex > APPDATA_NUM_ITEMS then
    (APPDATA_INVALID_INDEX, itemName, { s with appErr := APPDATA_INVALID_INDEX })
  else
    match itemName with
    | none => (APPDATA_NULL_POINTER, none, { s with appErr := APPDATA_NULL_POINTER })
    | some buf =>
      let address := AppData_getItemNameAddress itemIndex
      if address = 0 then
        (APPDATA_INVALID_INDEX, some buf, { s with appErr := APPDATA_INVALID_INDEX })
      else
        let r := EEPROM_readString s address (some buf) APPDATA_ITEM_NAME_SIZE
        let c := AppData_convertEepromError r.2.2 r.1
        (c.1, r.2.1, c.2)

/-- Function `AppData_isFirstTime()`. -/
def AppData_isFirstTime (s : Sys) : Nat × Sys :=
  let r := EEPROM_readByte s APPDATA_FIRST_TIME_FLAG_ADDRESS
  if r.1 ≠ APPDATA_INITIALIZED_VALUE then (1, r.2) else (0, r.2)

/-- Function `AppData_markAsInitialized()`. -/
def AppData_markAsInitialized (s : Sys) : AppData_Error_t × Sys :=
  let r := EEPROM_writeByte s APPDATA_FIRST_TIME_FLAG_ADDRESS APPDATA_INITIALIZED_VALUE
  AppData_convertEepromError r.2 r.1

/-- The loop `for(i = 0; i < APPDATA_NUM_ITEMS; i++)` of
`AppData_initializeDefaults`, calling `AppData_saveItemPrice(i, g_defaultItemsPrices[i])`;
the first argument counts the iterations still to run. -/
def AppData_initializeDefaults_loop : Nat → Nat → Sys → AppData_Error_t × Sys
  | 0, _, s => (APPDATA_NO_ERROR, s)
  | n + 1, i, s =>
    let r := AppData_saveItemPrice s i (g_defaultItemsPrices.getD i 0)
    if r.1 ≠ APPDATA_NO_ERROR then r
    else AppData_initializeDefaults_loop n (i + 1) r.2

/-- Function `AppData_initializeDefaults()`. -/
def AppData_initializeDefaults (s : Sys) : AppData_Error_t × Sys :=
  let r0 := AppData_savePassword s (some APPDATA_DEFAULT_PASSWORD)
  if r0.1 ≠ APPDATA_NO_ERROR then r0 else
  let r1 := AppData_initializeDefaults_loop APPDATA_NUM_ITEMS 0 r0.2
  if r1.1 ≠ APPDATA_NO_ERROR then r1 else
  let r2 := AppData_saveTotalIncome r1.2 0
  if r2.1 ≠ APPDATA_NO_ERROR then r2 else
  let r3 := AppData_saveItemName r2.2 1 (some APPDATA_DEFAULT_ITEM1_NAME)
  if r3.1 ≠ APPDATA_NO_ERROR then r3 else
  let r4 := AppData_saveItemName r3.2 2 (some APPDATA_DEFAULT_ITEM2_NAME)
  if r4.1 ≠ APPDATA_NO_ERROR then r4 else
  let r5 := AppData_saveItemName r4.2 3 (some APPDATA_DEFAULT_ITEM3_NAME)
  if r5.1 ≠ APPDATA_NO_ERROR then r5 else
  let r6 := AppData_saveItemName r5.2 4 (some APPDATA_DEFAULT_ITEM4_NAME)
  if r6.1 ≠ APPDATA_NO_ERROR then r6 else
  let r7 := AppData_saveItemName r6.2 5 (some APPDATA_DEFAULT_ITEM5_NAME)
  if r7.1 ≠ APPDATA_NO_ERROR then r7 else
  let r8 := AppData_markAsInitialized r7.2
  if r8.1 ≠ APPDATA_NO_ERROR then r8 else
  (APPDATA_NO_ERROR, r8.2)

/-- Function `AppData_init()`. -/
def AppData_init (s : Sys) : Sys :=
  let s1 : Sys := { s with appErr := APPDATA_NO_ERROR }
  let r := AppData_isFirstTime s1
  if r.1 ≠ 0 then (AppData_initializeDefaults r.2).2 else r.2

/-- The erased store: every cell holds `0xFF`, both error slots clear. -/
def erasedSys : Sys :=
  { mem := fun _ => 0xFF, eeErr := EEPROM_NO_ERROR, appErr := APPDATA_NO_ERROR }

/-! ## Statement helpers -/

/-- The bound contract of one typed write of width `w` at `address` from
state `s` with result `r`: past the end it fails with the address error,
records it and changes no cell; inside the store it succeeds. -/
def WriteBounds (s : Sys) (address w : Nat) (r : EEPROM_Error_t × Sys) : Prop :=
  (1024 < address + w →
    r.1 = EEPROM_ADDRESS_ERROR ∧ EEPROM_getLastError r.2 = EEPROM_ADDRESS_ERROR ∧
      r.2.mem = s.mem) ∧
  (address + w ≤ 1024 → r.1 = EEPROM_NO_ERROR)

/-- One call of the income interface: `AppData_saveTotalIncome(v)` or
`AppData_addToTotalIncome(d)`, the argument a `double` pattern. -/
inductive IncomeCall where
  | save (v : Nat)
  | add (d : Nat)

/-- The argument of a call. -/
def incomeCallArg : IncomeCall → Nat
  | IncomeCall.save v => v
  | IncomeCall.add d => d

/-- Runs one call: its status and the state after it. -/
def runIncomeCall (fadd : Nat → Nat → Nat) (s : Sys) : IncomeCall → AppData_Error_t × Sys
  | IncomeCall.save v => AppData_saveTotalIncome s v
  | IncomeCall.add d => AppData_addToTotalIncome fadd s d

/-- The state after a sequence of calls, run in order. -/
def runIncomeCalls (fadd : Nat → Nat → Nat) : List IncomeCall → Sys → Sys
  | [], s => s
  | c :: cs, s => runIncomeCalls fadd cs (runIncomeCall fadd s c).2

/-- The erased store after `AppData_saveTotalIncome(0.0)`: its total income is `0.0`. -/
def zeroIncomeSys : Sys := (AppData_saveTotalIncome erasedSys 0).2

/-! ## `eeprom.c`: block read -/

/-- The loop `for(i = 0; i < length; i++)` of `EEPROM_readBlock`, with body
`data[i] = EEPROM_readByte(startAddress + i)`; the first argument counts the
iterations still to run. -/
def EEPROM_readBlock_loop (startAddress : Nat) :
    Nat → Nat → (Nat → Nat) → Sys → (Nat → Nat) × Sys
  | 0, _, data, s => (data, s)
  | n + 1, i, data, s =>
    let r := EEPROM_readByte s ((startAddress + i) % 65536)
    EEPROM_readBlock_loop startAddress n (i + 1) (setByte data i r.1) r.2

/-- Function `EEPROM_readBlock(startAddress, data, length)`; returns the
status, the buffer after the call and the state. -/
def EEPROM_readBlock (s : Sys) (startAddress : Nat) (data : Option (Nat → Nat))
    (length : Nat) : EEPROM_Error_t × Option (Nat → Nat) × Sys :=
  match data with
  | none => (EEPROM_ADDRESS_ERROR, none, { s with eeErr := EEPROM_ADDRESS_ERROR })
  | some buf =>
    if !EEPROM_validateAddress startAddress ||
        !EEPROM_validateAddress ((startAddress + length + 65536 - 1) % 65536) then
      (EEPROM_ADDRESS_ERROR, some buf, { s with eeErr := EEPROM_ADDRESS_ERROR })
    else
      let r := EEPROM_readBlock_loop startAddress length 0 buf s
      (EEPROM_NO_ERROR, some r.1, r.2)

/-! ## `app_data.c`: calibration record -/

def APPDATA_HX711_SCALE_ADDRESS : Nat := 0x007D
def APPDATA_HX711_OFFSET_ADDRESS : Nat := 0x0085
def APPDATA_HX711_CALIBRATED_FLAG_ADDRESS : Nat := 0x0089
def APPDATA_HX711_OFFSET_SIZE : Nat := 4
def APPDATA_HX711_CALIBRATED_VALUE : Nat := 0x55

/-- Conversion of an `int32_t` argument to the `uint32` parameter of
`EEPROM_writeInteger`: reduction modulo `2^32`. -/
def int32_to_uint32 (x : Int) : Nat := (x % 2 ^ 32).toNat

/-- Conversion of the `uint32` result of `EEPROM_readInteger` to `int32_t`:
the two's-complement reading of the 32 bits. -/
def uint32_to_int32 (u : Nat) : Int :=
  if u % 2 ^ 32 < 2 ^ 31 then ((u % 2 ^ 32 : Nat) : Int)
  else ((u % 2 ^ 32 : Nat) : Int) - 2 ^ 32

/-- Function `AppData_markAsCalibrated()`. -/
def AppData_markAsCalibrated (s : Sys) : AppData_Error_t × Sys :=
  let r := EEPROM_writeByte s APPDATA_HX711_CALIBRATED_FLAG_ADDRESS APPDATA_HX711_CALIBRATED_VALUE
  AppData_convertEepromError r.2 r.1

/-- Function `AppData_saveCalibration(scale, offset)`; `scale` is the pattern
of a `double`, `offset` an `int32_t`. -/
def AppData_saveCalibration (s : Sys) (scale : Nat) (offset : Int) : AppData_Error_t × Sys :=
  let r1 := EEPROM_writeDouble s APPDATA_HX711_SCALE_ADDRESS scale
  if r1.1 ≠ EEPROM_NO_ERROR then AppData_convertEepromError r1.2 r1.1 else
  let r2 := EEPROM_writeInteger r1.2 APPDATA_HX711_OFFSET_ADDRESS (int32_to_uint32 offset)
    APPDATA_HX711_OFFSET_SIZE
  if r2.1 ≠ EEPROM_NO_ERROR then AppData_convertEepromError r2.2 r2.1 else
  AppData_markAsCalibrated r2.2

/-- Function `AppData_loadCalibration(scale, offset)`; the two arguments are
the cells the pointers refer to (`none` for `NULL`), returned as they are
after the call. -/
def AppData_loadCalibration (s : Sys) (scale : Option Nat) (offset : Option Int) :
    AppData_Error_t × Option Nat × Option Int × Sys :=
  match scale, offset with
  | some _, some _ =>
    let r1 := EEPROM_readDouble s APPDATA_HX711_SCALE_ADDRESS
    let r2 := EEPROM_readInteger r1.2 APPDATA_HX711_OFFSET_ADDRESS APPDATA_HX711_OFFSET_SIZE
    (APPDATA_NO_ERROR, some r1.1, some (uint32_to_int32 r2.1), r2.2)
  | _, _ => (APPDATA_NULL_POINTER, scale, offset, { s with appErr := APPDATA_NULL_POINTER })

/-- Function `AppData_isCalibrated()`. -/
def AppData_isCalibrated (s : Sys) : Nat × Sys :=
  let r := EEPROM_readByte s APPDATA_HX711_CALIBRATED_FLAG_ADDRESS
  if r.1 = APPDATA_HX711_CALIBRATED_VALUE then (1, r.2) else (0, r.2)

/-! ## Statement helpers for frames and strings -/

/-- The cells of `s'` differ from those of `s` only inside `[lo, hi)`. -/
def ChangesOnly (s s' : Sys) (lo hi : Nat) : Prop :=
  ∀ x, (x < lo ∨ hi ≤ x) → s'.mem x = s.mem x

/-- The cells of `s` and `t` agree on `[lo, hi)`. -/
def AgreeOn (s t : Sys) (lo hi : Nat) : Prop :=
  ∀ x, lo ≤ x → x < hi → s.mem x = t.mem x

/-- The string a read of at most `maxLength - 1` bytes from `startAddress`
should give: the stored bytes up to but excluding the first zero byte, cut
to at most `maxLength - 1` bytes. -/
def readString_expected (mem : Nat → Nat) (startAddress maxLength : Nat) : List Nat :=
  ((List.range (maxLength - 1)).map (fun j => mem (startAddress + j) % 256)).takeWhile
    (fun b => b != 0)

/-- The bytes the read loop of `EEPROM_readString` keeps when it starts at
loop index `i` with `n` iterations to run: the stored bytes from
`startAddress + i` on, up to but excluding the first zero byte, at most `n`
of them. -/
def readString_expectedFrom (mem : Nat → Nat) (startAddress i n : Nat) : List Nat :=
  ((List.range' i n).map (fun j => mem (startAddress + j) % 256)).takeWhile (fun b => b != 0)

/-! ## `eeprom.c`: erase -/

/-- The loop `for(i = 0; i < EEPROM_SIZE; i++)` of `EEPROM_erase`, with body
`if(EEPROM_writeByte(i, 0xFF) != EEPROM_NO_ERROR) return g_lastError;`; the
first argument counts the iterations still to run, `i` is a `uint16`. -/
def EEPROM_erase_loop : Nat → Nat → Sys → EEPROM_Error_t × Sys
  | 0, _, s => (EEPROM_NO_ERROR, s)
  | n + 1, i, s =>
    let r := EEPROM_writeByte s i 0xFF
    if r.1 ≠ EEPROM_NO_ERROR then (EEPROM_getLastError r.2, r.2)
    else EEPROM_erase_loop n ((i + 1) % 65536) r.2

/-- Function `EEPROM_erase()`. -/
def EEPROM_erase (s : Sys) : EEPROM_Error_t × Sys :=
  EEPROM_erase_loop EEPROM_SIZE 0 s

/-! ## `hx711.h` and `hx711.c`

The driver is the part of `src/src/hx711.c` after the `=======` line, the one
that `hx711.h` declares (`hx711_read` returns a `float32`, with the software
simulation).

* The type names `sint32`, `sint64`, `float32` and `float64` are those of
  `std_types.h`: the signed integers of that width, `float` and `double`.
* A `double` or `float64` value of the driver is a rational number and the
  arithmetic in `double` is exact: its rounding to 53 bits, NaN, the
  infinities and the signed zero are outside this part of the model.
* A `float32` value is a rational number with a significand of 24 bits. Every
  conversion to `float32` (the `return` of `sim_weight_to_raw`, the cast
  `(float32)` of `hx711_readaverage`, the conversion of `g_offset` in
  `hx711_getweight`) and the `float32` subtraction of `hx711_getweight` round
  to the nearest such number, a tie going to the even significand
  (`double_to_float32`). The driver converts no value of magnitude above
  `2^33`, so the overflow of `float32` to an infinity is left out. The `sint32`
  that `hx711_read` returns has 24 bits and is a `float32` as it stands.
* A `sint32` is an integer; the 32-bit subtraction of
  `hx711_calibrate2setscale` and the conversion of a `float32` to `sint32` are
  reduced to 32 bits.
* The DOUT line is the list of the levels that the successive samples
  `HX711_DOUT_READ()` will see, `true` for high. A function that needs more
  samples than the list holds has no result (`none`): this is the busy wait
  `while(!hx711_isready())` on a line that stays high, or a trace cut short.
* The SCK pulses, the data-direction setup, `cli()` / `sei()` and the delays
  write no variable of the driver and are left out.
-/

def HX711_GAINCHANNELA128 : Nat := 128
def HX711_GAINCHANNELA64 : Nat := 64
def HX711_GAINCHANNELB32 : Nat := 32
def HX711_SIMULATION_ENABLED_DEFAULT : Nat := 0

/-- The static variables of `hx711.c` and the DOUT line. -/
structure Hx where
  /-- Pulses after a read: 1 for gain 128, 3 for 64, 2 for 32 (`uint8`). -/
  g_gain : Nat
  /-- Tare offset (`sint32`). -/
  g_offset : Int
  /-- Scale factor, counts per kilogram (`double`). -/
  g_scale : ℚ
  /-- Gain value reported by `hx711_getgain` (`uint8`). -/
  g_gainValue : Nat
  g_simulationEnabled : Nat
  g_simPatternActive : Nat
  /-- Simulated time (`uint32`), advanced by each simulated read. -/
  g_simTicksMs : Nat
  /-- The levels the next samples of the DOUT pin will show. -/
  dout : List Bool

/-- The driver as the initialisers of its static variables leave it, on the
DOUT trace `dout`. -/
def hx711_startup (dout : List Bool) : Hx :=
  { g_gain := 1, g_offset := 0, g_scale := 1, g_gainValue := 128,
    g_simulationEnabled := HX711_SIMULATION_ENABLED_DEFAULT, g_simPatternActive := 0,
    g_simTicksMs := 0, dout := dout }

/-- The macro `HX711_DOUT_READ()`: the next sample of the line, 0 or 1, and the
samples left. -/
def HX711_DOUT_READ : List Bool → Option (Nat × List Bool)
  | [] => none
  | b :: rest => some ((if b then 1 else 0), rest)

/-- The loop `for(i = 0; i < 8; i++)` of `shiftIn_MSB`, with body
`value |= (HX711_DOUT_READ() << (7 - i))`; the first argument counts the
iterations still to run, `value` is a `uint8`. -/
def shiftIn_MSB_loop : Nat → Nat → Nat → List Bool → Option (Nat × List Bool)
  | 0, _, value, pin => some (value, pin)
  | n + 1, i, value, pin =>
    match HX711_DOUT_READ pin with
    | none => none
    | some (b, rest) => shiftIn_MSB_loop n (i + 1) ((value ||| (b <<< (7 - i))) % 256) rest

/-- Function `shiftIn_MSB()`. -/
def shiftIn_MSB (pin : List Bool) : Option (Nat × List Bool) :=
  shiftIn_MSB_loop 8 0 0 pin

/-- Function `hx711_isready()`: 1 when the sampled line is low. -/
def hx711_isready (pin : List Bool) : Option (Nat × List Bool) :=
  match HX711_DOUT_READ pin with
  | none => none
  | some (b, rest) => some ((if b = 0 then 1 else 0), rest)

/-- The loop `while(!hx711_isready())` of `hx711_read`; the first argument
bounds the iterations, each of which takes one sample. -/
def hx711_read_wait : Nat → List Bool → Option (List Bool)
  | 0, _ => none
  | n + 1, pin =>
    match hx711_isready pin with
    | none => none
    | some (r, rest) => if r = 0 then hx711_read_wait n rest else some rest

/-- The real-hardware branch of `hx711_read()`: wait for the line to go low,
shift in three bytes, extend the sign; the result is `(sint32)value`. -/
def hx711_read_hardware (pin : List Bool) : Option (Int × List Bool) :=
  match hx711_read_wait pin.length pin with
  | none => none
  | some p0 =>
    match shiftIn_MSB p0 with
    | none => none
    | some (d2, p1) =>
      match shiftIn_MSB p1 with
      | none => none
      | some (d1, p2) =>
        match shiftIn_MSB p2 with
        | none => none
        | some (d0, p3) =>
          let filler := if d2 &&& 0x80 ≠ 0 then 0xFF else 0x00
          let value := ((filler <<< 24) ||| (d2 <<< 16) ||| (d1 <<< 8) ||| d0) % 2 ^ 32
          some (uint32_to_int32 value, p3)

/-- Rounding of a rational number to the nearest integer, a tie going to the
even one. -/
def float32_roundHalfEven (q : ℚ) : Int :=
  if 2 * Int.fract q < 1 then ⌊q⌋
  else if 1 < 2 * Int.fract q then ⌊q⌋ + 1
  else if ⌊q⌋ % 2 = 0 then ⌊q⌋ else ⌊q⌋ + 1

/-- The exponent `e` of the `float32` numbers next to `x`: `2^e <= |x| < 2^(e+1)`
for a normal number, and `-126` below that, where the numbers are subnormal;
for `x = 0` the exponent does not matter. -/
def float32_exponent (x : ℚ) : Int := max (Int.log 2 |x|) (-126)

/-- The multiple of `2^(e - 23)` nearest to `x`, a tie going to the even
multiple: the `float32` numbers of exponent `e` are these multiples. -/
def float32_grid (e : Int) (x : ℚ) : ℚ :=
  (float32_roundHalfEven (x / 2 ^ (e - 23)) : ℚ) * 2 ^ (e - 23)

/-- Conversion of a `double` or of a `sint32` to `float32`, and the rounding of
the exact result of a `float32` operation: the nearest number with a
significand of 24 bits, a tie going to the even significand. -/
def double_to_float32 (x : ℚ) : ℚ := float32_grid (float32_exponent x) x

/-- Function `sim_weight_to_raw(kg)`: the clamped `double` is converted to
`float32` by the `return`. -/
def sim_weight_to_raw (h : Hx) (kg : ℚ) : ℚ :=
  let raw := (h.g_offset : ℚ) + h.g_scale * kg
  double_to_float32
    (if raw > 2147483647 then 2147483647
     else if raw < -2147483648 then -2147483648
     else raw)

/-- The `switch(slot)` of `hx711_read_simulated`, the same in its three
phases: the noise in kilograms. -/
def hx711_sim_noise (slot : Nat) : ℚ :=
  match slot with
  | 0 => -5 / 1000
  | 1 => -4 / 1000
  | 2 => -3 / 1000
  | 3 => -2 / 1000
  | 4 => -1 / 1000
  | 5 => 0
  | 6 => 1 / 1000
  | 7 => 2 / 1000
  | 8 => 3 / 1000
  | 9 => 4 / 1000
  | 10 => 5 / 1000
  | _ => 0

/-- Function `hx711_read_simulated()`. -/
def hx711_read_simulated (h : Hx) : ℚ × Hx :=
  let h1 : Hx :=
    if h.g_simPatternActive = 0 then { h with g_simPatternActive := 1, g_simTicksMs := 0 }
    else h
  let elapsed := h1.g_simTicksMs
  let slot := ((elapsed / 100) % 11) % 256
  let targetKg : ℚ :=
    if elapsed < 2000 then 1 + hx711_sim_noise slot
    else if elapsed < 5000 then 2 + hx711_sim_noise slot
    else 1 + hx711_sim_noise slot
  let h2 : Hx := { h1 with g_simTicksMs := (h1.g_simTicksMs + 100) % 2 ^ 32 }
  (sim_weight_to_raw h2 targetKg, h2)

/-- Function `hx711_init(gain, scale, offset)`. -/
def hx711_init (h : Hx) (gain : Nat) (scale : ℚ) (offset : Int) : Hx :=
  let h1 : Hx := { h with g_scale := if scale = 0 then 1 else scale, g_offset := offset }
  let h2 : Hx :=
    if gain = HX711_GAINCHANNELA128 then { h1 with g_gain := 1, g_gainValue := 128 }
    else if gain = HX711_GAINCHANNELA64 then { h1 with g_gain := 3, g_gainValue := 64 }
    else if gain = HX711_GAINCHANNELB32 then { h1 with g_gain := 2, g_gainValue := 32 }
    else { h1 with g_gain := 1, g_gainValue := 128 }
  { h2 with g_simPatternActive := 0, g_simTicksMs := 0 }

/-- Function `hx711_read()`: the simulated sample when the simulation is
enabled, else the `sint32` of the real-hardware branch as a `float32`. -/
def hx711_read (h : Hx) : Option (ℚ × Hx) :=
  if h.g_simulationEnabled ≠ 0 then some (hx711_read_simulated h)
  else
    match hx711_read_hardware h.dout with
    | none => none
    | some (v, rest) => some ((v : ℚ), { h with dout := rest })

/-- The loop `for(i = 0; i < times; i++)` of `hx711_readaverage`, with body
`sum += (float64)hx711_read()`; the first argument counts the iterations still
to run. -/
def hx711_readaverage_loop : Nat → ℚ → Hx → Option (ℚ × Hx)
  | 0, sum, h => some (sum, h)
  | n + 1, sum, h =>
    match hx711_read h with
    | none => none
    | some (r, h1) => hx711_readaverage_loop n (sum + r) h1

/-- Function `hx711_readaverage(times)`; `times` is a `uint8`. The quotient
`sum / (sint64)times` is a `double`, which `(float32)` converts. -/
def hx711_readaverage (h : Hx) (times : Nat) : Option (ℚ × Hx) :=
  let times := if times = 0 then 1 else times
  match hx711_readaverage_loop times 0 h with
  | none => none
  | some (sum, h1) => some (double_to_float32 (sum / (times : ℚ)), h1)

/-- Function `hx711_getweight()`. In `raw - g_offset` the `sint32` offset is
converted to `float32` and the subtraction is one of `float32`; its result is
converted to `double`, exactly, and divided by the scale. -/
def hx711_getweight (h : Hx) : Option (ℚ × Hx) :=
  match hx711_readaverage h 1 with
  | none => none
  | some (raw, h1) =>
    let weight : ℚ :=
      if h1.g_scale ≠ 0 then
        double_to_float32 (raw - double_to_float32 (h1.g_offset : ℚ)) / h1.g_scale
      else 0
    some ((if weight < 0 then 0 else weight), h1)

/-- Conversion of a `float32` to `sint32`: the fraction is discarded (rounding
toward zero) and the integer is reduced to 32 bits. -/
def float32_to_sint32 (x : ℚ) : Int :=
  uint32_to_int32 (int32_to_uint32 (if 0 ≤ x then ⌊x⌋ else -⌊-x⌋))

/-- Function `hx711_calibrate1setoffset()`. -/
def hx711_calibrate1setoffset (h : Hx) : Option Hx :=
  match hx711_readaverage h 10 with
  | none => none
  | some (avg, h1) => some { h1 with g_offset := float32_to_sint32 avg }

/-- Function `hx711_calibrate2setscale(knownWeight)`; `rawValue - g_offset` is a
`sint32` subtraction. -/
def hx711_calibrate2setscale (h : Hx) (knownWeight : ℚ) : Option Hx :=
  if knownWeight ≤ 0 then some h
  else
    match hx711_readaverage h 10 with
    | none => none
    | some (avg, h1) =>
      let rawValue := float32_to_sint32 avg
      let h2 : Hx :=
        { h1 with g_scale :=
            ((uint32_to_int32 (int32_to_uint32 (rawValue - h1.g_offset)) : Int) : ℚ)
              / knownWeight }
      if h2.g_scale = 0 then some { h2 with g_scale := 1 } else some h2

/-- Function `hx711_taretozero()`. -/
def hx711_taretozero (h : Hx) : Option Hx :=
  hx711_calibrate1setoffset h

/-- Function `hx711_setscale(scale)`. -/
def hx711_setscale (h : Hx) (scale : ℚ) : Hx :=
  if scale ≠ 0 then { h with g_scale := scale } else h

/-- Function `hx711_getscale()`. -/
def hx711_getscale (h : Hx) : ℚ := h.g_scale

/-- Function `hx711_setoffset(offset)`. -/
def hx711_setoffset (h : Hx) (offset : Int) : Hx :=
  { h with g_offset := offset }

/-- Function `hx711_getoffset()`. -/
def hx711_getoffset (h : Hx) : Int := h.g_offset

/-- Function `hx711_getgain()`. -/
def hx711_getgain (h : Hx) : Nat := h.g_gainValue

/-- Function `hx711_enableSimulation()`. -/
def hx711_enableSimulation (h : Hx) : Hx :=
  { h with g_simulationEnabled := 1, g_simPatternActive := 0, g_simTicksMs := 0 }

/-- Function `hx711_disableSimulation()`. -/
def hx711_disableSimulation (h : Hx) : Hx :=
  { h with g_simulationEnabled := 0, g_simPatternActive := 0, g_simTicksMs := 0 }

/-! ## Statement helpers for the driver -/

/-- The DOUT levels of one conversion of the 24-bit word `v`: one low sample,
on which the wait ends, then the bits 23 down to 0 of `v`. -/
def hx711_frame (v : Nat) : List Bool :=
  false :: (List.range 24).map (fun k => v.testBit (23 - k))

/-- The readings of `n` consecutive calls of `hx711_read`, in order, and the
state after the last of them. -/
def hx711_reads : Nat → Hx → Option (List ℚ × Hx)
  | 0, h => some ([], h)
  | n + 1, h =>
    match hx711_read h with
    | none => none
    | some (r, h1) =>
      match hx711_reads n h1 with
      | none => none
      | some (rs, h2) => some (r :: rs, h2)

/-- One call of the driver that can write the scale or the offset, or that
switches the simulation. -/
inductive Hx711Call where
  | init (gain : Nat) (scale : ℚ) (offset : Int)
  | setscale (scale : ℚ)
  | setoffset (offset : Int)
  | calibrate1setoffset
  | calibrate2setscale (knownWeight : ℚ)
  | taretozero
  | enableSimulation
  | disableSimulation

/-- Runs one call; `none` when a read of the call has no result. -/
def runHx711Call (h : Hx) : Hx711Call → Option Hx
  | Hx711Call.init gain scale offset => some (hx711_init h gain scale offset)
  | Hx711Call.setscale scale => some (hx711_setscale h scale)
  | Hx711Call.setoffset offset => some (hx711_setoffset h offset)
  | Hx711Call.calibrate1setoffset => hx711_calibrate1setoffset h
  | Hx711Call.calibrate2setscale knownWeight => hx711_calibrate2setscale h knownWeight
  | Hx711Call.taretozero => hx711_taretozero h
  | Hx711Call.enableSimulation => some (hx711_enableSimulation h)
  | Hx711Call.disableSimulation => some (hx711_disableSimulation h)

/-- Runs a sequence of calls in order. -/
def runHx711Calls : List Hx711Call → Hx → Option Hx
  | [], h => some h
  | c :: cs, h =>
    match runHx711Call h c with
    | none => none
    | some h1 => runHx711Calls cs h1

/-- The `sint32` values of `n` consecutive runs of the real-hardware branch on
a DOUT trace, in order, and the samples left. -/
def hx711_reads_hardware : Nat → List Bool → Option (List Int × List Bool)
  | 0, pin => some ([], pin)
  | n + 1, pin =>
    match hx711_read_hardware pin with
    | none => none
    | some (v, rest) =>
      match hx711_reads_hardware n rest with
      | none => none
      | some (vs, rest2) => some (v :: vs, rest2)

/-- The scale that the span step is to leave, in the words of the
specification: the quotient `(A - o) / w` of the exact difference between the
integer average `A` and the offset `o` by the known weight `w`, or `1.0` when
that quotient is zero. -/
def hx711_span_scale_spec (A o : Int) (w : ℚ) : ℚ :=
  if ((A : ℚ) - (o : ℚ)) / w = 0 then 1 else ((A : ℚ) - (o : ℚ)) / w

/-! ## `app_data.c`: clearing the error slot -/

/-- Function `AppData_clearError()`. -/
def AppData_clearError (s : Sys) : Sys :=
  { s with appErr := APPDATA_NO_ERROR }

/-! ## `hx711.c`: simulation pattern control -/

/-- Function `hx711_startSimulationPattern()`. -/
def hx711_startSimulationPattern (h : Hx) : Hx :=
  { h with g_simPatternActive := 0, g_simTicksMs := 0, g_simulationEnabled := 1 }

/-- Function `hx711_stopSimulationPattern()`. -/
def hx711_stopSimulationPattern (h : Hx) : Hx :=
  { h with g_simPatternActive := 0, g_simTicksMs := 0, g_simulationEnabled := 0 }

/-! ## Statement helpers for the samples and the simulation -/

/-- The number that a list of sampled levels spells, the first sample being
the most significant bit. -/
def hx711_bitsValue : List Bool → Nat
  | [] => 0
  | b :: bs => (if b then 1 else 0) * 2 ^ bs.length + hx711_bitsValue bs

theorem validateAddress_iff (a : Nat) : EEPROM_validateAddress a = true ↔ a ≤ 1023 := by
  simp [EEPROM_validateAddress, EEPROM_END_ADDRESS, EEPROM_SIZE]

theorem validateAddress_false_iff (a : Nat) : EEPROM_validateAddress a = false ↔ 1023 < a := by
  simp [EEPROM_validateAddress, EEPROM_END_ADDRESS, EEPROM_SIZE]

theorem writeByte_ok (s : Sys) (a d : Nat) (h : a ≤ 1023) :
    EEPROM_writeByte s a d =
      (EEPROM_NO_ERROR, { s with mem := setByte s.mem a (d % 256), eeErr := EEPROM_NO_ERROR }) := by
  simp [EEPROM_writeByte, (validateAddress_iff a).2 h]

theorem writeByte_bad (s : Sys) (a d : Nat) (h : 1023 < a) :
    EEPROM_writeByte s a d = (EEPROM_ADDRESS_ERROR, { s with eeErr := EEPROM_ADDRESS_ERROR }) := by
  simp [EEPROM_writeByte, (validateAddress_false_iff a).2 h]

theorem readByte_ok (s : Sys) (a : Nat) (h : a ≤ 1023) :
    EEPROM_readByte s a = (s.mem a % 256, s) := by
  simp [EEPROM_readByte, (validateAddress_iff a).2 h]

/-- A little-endian write loop whose cells are all in range succeeds and
changes exactly those cells. -/
theorem writeLE_loop_ok (address value : Nat) :
    ∀ (n i : Nat) (s : Sys), address + i + n ≤ 1024 →
      (EEPROM_writeLE_loop address value n i s).1 = EEPROM_NO_ERROR ∧
      (EEPROM_writeLE_loop address value n i s).2.appErr = s.appErr ∧
      ∀ x, (EEPROM_writeLE_loop address value n i s).2.mem x =
        if address + i ≤ x ∧ x < address + i + n then (value >>> ((x - address) * 8)) % 256
        else s.mem x := by
  intro n
  induction n with
  | zero =>
    intro i s _
    refine ⟨rfl, rfl, fun x => ?_⟩
    have : ¬ (address + i ≤ x ∧ x < address + i + 0) := by omega
    rw [if_neg this]
    rfl
  | succ n ih =>
    intro i s h
    have hmod : (address + i) % 65536 = address + i := Nat.mod_eq_of_lt (by omega)
    have hw := writeByte_ok s (address + i) ((value >>> (i * 8)) % 256) (by omega)
    obtain ⟨h1, h2, h3⟩ := ih (i + 1)
      { s with mem := setByte s.mem (address + i) ((value >>> (i * 8)) % 256 % 256),
               eeErr := EEPROM_NO_ERROR } (by omega)
    simp only [EEPROM_writeLE_loop, hmod, hw, ne_eq, not_true_eq_false, if_false]
    refine ⟨h1, h2, fun x => ?_⟩
    rw [h3 x]
    by_cases hx : x = address + i
    · subst hx
      have e1 : ¬ (address + (i + 1) ≤ address + i ∧ address + i < address + (i + 1) + n) := by omega
      have e2 : address + i ≤ address + i ∧ address + i < address + i + (n + 1) := by omega
      simp [e1, e2, setByte]
    · by_cases hr : address + (i + 1) ≤ x ∧ x < address + (i + 1) + n
      · have e2 : address + i ≤ x ∧ x < address + i + (n + 1) := by omega
        simp [hr, e2]
      · have e2 : ¬ (address + i ≤ x ∧ x < address + i + (n + 1)) := by omega
        simp [hr, e2, setByte, hx]

/-- The error slot of `eeprom.c` after a little-endian write loop that ran. -/
theorem writeLE_loop_eeErr (address value : Nat) :
    ∀ (n i : Nat) (s : Sys), address + i + n ≤ 1024 → 0 < n →
      (EEPROM_writeLE_loop address value n i s).2.eeErr = EEPROM_NO_ERROR := by
  intro n
  induction n with
  | zero => intro i s _ h; omega
  | succ n ih =>
    intro i s h _
    have hmod : (address + i) % 65536 = address + i := Nat.mod_eq_of_lt (by omega)
    have hw := writeByte_ok s (address + i) ((value >>> (i * 8)) % 256) (by omega)
    simp only [EEPROM_writeLE_loop, hmod, hw, ne_eq, not_true_eq_false, if_false]
    cases n with
    | zero => simp [EEPROM_writeLE_loop]
    | succ m => exact ih (i + 1) _ (by omega) (by omega)

/-- A little-endian read loop whose cells are all in range leaves the state as it was. -/
theorem readLE_loop_state (address w : Nat) :
    ∀ (n i acc : Nat) (s : Sys), address + i + n ≤ 1024 →
      (EEPROM_readLE_loop address w n i acc s).2 = s := by
  intro n
  induction n with
  | zero => intro i acc s _; rfl
  | succ n ih =>
    intro i acc s h
    have hmod : (address + i) % 65536 = address + i := Nat.mod_eq_of_lt (by omega)
    simp only [EEPROM_readLE_loop, hmod, readByte_ok s (address + i) (by omega)]
    exact ih (i + 1) _ s (by omega)

/-- The value a little-endian read loop returns depends only on the cells it reads. -/
theorem readLE_loop_congr (address w : Nat) :
    ∀ (n i acc : Nat) (s t : Sys), address + i + n ≤ 1024 →
      (∀ j, j < n → s.mem (address + i + j) = t.mem (address + i + j)) →
      (EEPROM_readLE_loop address w n i acc s).1 = (EEPROM_readLE_loop address w n i acc t).1 := by
  intro n
  induction n with
  | zero => intro i acc s t _ _; rfl
  | succ n ih =>
    intro i acc s t h hm
    have hmod : (address + i) % 65536 = address + i := Nat.mod_eq_of_lt (by omega)
    have h0 := hm 0 (by omega)
    simp only [Nat.add_zero] at h0
    simp only [EEPROM_readLE_loop, hmod, readByte_ok s (address + i) (by omega),
      readByte_ok t (address + i) (by omega), h0]
    apply ih (i + 1) _ s t (by omega)
    intro j hj
    have := hm (j + 1) (by omega)
    have e : address + (i + 1) + j = address + i + (j + 1) := by omega
    rw [e]; exact this

/-- One step of the accumulation `result |= (byteData << (i * 8))` on the bytes of `v`. -/
theorem readLE_step (v w i : Nat) (hw : 8 * (i + 1) ≤ w) :
    ((v % 2 ^ (8 * i)) ||| (((v / 2 ^ (8 * i) % 256) <<< (i * 8)) % 2 ^ w)) % 2 ^ w
      = v % 2 ^ (8 * (i + 1)) := by
  have hlt : v % 2 ^ (8 * i) < 2 ^ (8 * i) := Nat.mod_lt _ (Nat.two_pow_pos _)
  have e8 : (2 : Nat) ^ (8 * (i + 1)) = 2 ^ (8 * i) * 256 := by
    rw [show 8 * (i + 1) = 8 * i + 8 by ring, pow_add]; norm_num
  have hle : (2 : Nat) ^ (8 * (i + 1)) ≤ 2 ^ w := Nat.pow_le_pow_right (by decide) hw
  have hsum : v % 2 ^ (8 * i) + 2 ^ (8 * i) * (v / 2 ^ (8 * i) % 256) = v % 2 ^ (8 * (i + 1)) := by
    rw [e8, Nat.mod_mul]
  have hres : v % 2 ^ (8 * (i + 1)) < 2 ^ w :=
    lt_of_lt_of_le (Nat.mod_lt _ (Nat.two_pow_pos _)) hle
  have hshift : (v / 2 ^ (8 * i) % 256) <<< (i * 8) = 2 ^ (8 * i) * (v / 2 ^ (8 * i) % 256) := by
    rw [Nat.shiftLeft_eq, Nat.mul_comm i 8, Nat.mul_comm]
  have hb : 2 ^ (8 * i) * (v / 2 ^ (8 * i) % 256) < 2 ^ w := by
    have : 2 ^ (8 * i) * (v / 2 ^ (8 * i) % 256) ≤ v % 2 ^ (8 * (i + 1)) := by
      rw [← hsum]; exact Nat.le_add_left _ _
    exact lt_of_le_of_lt this hres
  rw [hshift, Nat.mod_eq_of_lt hb, Nat.lor_comm, ← Nat.mul_add_lt_is_or hlt, Nat.add_comm, hsum,
    Nat.mod_eq_of_lt hres]

/-- Reading back cells that hold the bytes of `v`, least significant first, rebuilds `v`. -/
theorem readLE_loop_bytes (address w v : Nat) :
    ∀ (n i : Nat) (s : Sys), address + i + n ≤ 1024 → 8 * (i + n) ≤ w →
      (∀ j, j < n → s.mem (address + i + j) % 256 = v / 2 ^ (8 * (i + j)) % 256) →
      (EEPROM_readLE_loop address w n i (v % 2 ^ (8 * i)) s).1 = v % 2 ^ (8 * (i + n)) := by
  intro n
  induction n with
  | zero => intro i s _ _ _; rfl
  | succ n ih =>
    intro i s h hw hm
    have hmod : (address + i) % 65536 = address + i := Nat.mod_eq_of_lt (by omega)
    have h0 := hm 0 (by omega)
    simp only [Nat.add_zero] at h0
    simp only [EEPROM_readLE_loop, hmod, readByte_ok s (address + i) (by omega), h0]
    rw [readLE_step v w i (by omega)]
    have e : i + (n + 1) = i + 1 + n := by omega
    rw [e]
    apply ih (i + 1) s (by omega) (by omega)
    intro j hj
    have := hm (j + 1) (by omega)
    have e1 : address + (i + 1) + j = address + i + (j + 1) := by omega
    have e2 : i + 1 + j = i + (j + 1) := by omega
    rw [e1, e2]; exact this

/-- Writing `n` bytes of `value` and reading them back gives the low `8 * n` bits of `value`. -/
theorem writeLE_readLE (s : Sys) (address value w n : Nat) (h : address + n ≤ 1024)
    (hw : 8 * n ≤ w) :
    (EEPROM_readLE_loop address w n 0 0 (EEPROM_writeLE_loop address value n 0 s).2).1
      = value % 2 ^ (8 * n) := by
  have hb := readLE_loop_bytes address w value n 0 (EEPROM_writeLE_loop address value n 0 s).2
    (by omega) (by omega) (by
      intro j hj
      obtain ⟨_, _, h3⟩ := writeLE_loop_ok address value n 0 s (by omega)
      rw [h3 (address + 0 + j)]
      have hc : address + 0 ≤ address + 0 + j ∧ address + 0 + j < address + 0 + n := by omega
      rw [if_pos hc, Nat.mod_mod, Nat.shiftRight_eq_div_pow]
      have e : (address + 0 + j - address) * 8 = 8 * (0 + j) := by omega
      rw [e])
  simpa [Nat.mod_one] using hb

theorem writeInteger_bad (s : Sys) (address value size : Nat) (hs : size = 2 ∨ size = 4)
    (h16 : address < 65536) (h : 1024 < address + size) :
    EEPROM_writeInteger s address value size =
      (EEPROM_ADDRESS_ERROR, { s with eeErr := EEPROM_ADDRESS_ERROR }) := by
  have hv : (!EEPROM_validateAddress address ||
      !EEPROM_validateAddress ((address + size + 65536 - 1) % 65536)) = true := by
    simp only [EEPROM_validateAddress, EEPROM_END_ADDRESS, EEPROM_SIZE, Bool.or_eq_true,
      Bool.not_eq_true', decide_eq_false_iff_not]
    omega
  have hsz : ¬ (size ≠ 2 ∧ size ≠ 4) := by omega
  simp only [EEPROM_writeInteger, if_neg hsz, hv]
  simp

theorem writeInteger_ok (s : Sys) (address value size : Nat) (hs : size = 2 ∨ size = 4)
    (h : address + size ≤ 1024) :
    EEPROM_writeInteger s address value size =
      EEPROM_writeLE_loop address (value % 2 ^ 32) size 0 s := by
  have hv : (!EEPROM_validateAddress address ||
      !EEPROM_validateAddress ((address + size + 65536 - 1) % 65536)) = false := by
    simp only [EEPROM_validateAddress, EEPROM_END_ADDRESS, EEPROM_SIZE, Bool.or_eq_false_iff,
      Bool.not_eq_false', decide_eq_true_eq]
    omega
  have hsz : ¬ (size ≠ 2 ∧ size ≠ 4) := by omega
  simp only [EEPROM_writeInteger, if_neg hsz, hv]
  simp

theorem readInteger_ok (s : Sys) (address size : Nat) (hs : size = 2 ∨ size = 4)
    (h : address + size ≤ 1024) :
    EEPROM_readInteger s address size = EEPROM_readLE_loop address 32 size 0 0 s := by
  have hv : (!EEPROM_validateAddress address ||
      !EEPROM_validateAddress ((address + size + 65536 - 1) % 65536)) = false := by
    simp only [EEPROM_validateAddress, EEPROM_END_ADDRESS, EEPROM_SIZE, Bool.or_eq_false_iff,
      Bool.not_eq_false', decide_eq_true_eq]
    omega
  have hsz : ¬ (size ≠ 2 ∧ size ≠ 4) := by omega
  simp only [EEPROM_readInteger, if_neg hsz, hv]
  simp

theorem writeFloat_bad (s : Sys) (address value : Nat) (h16 : address < 65536)
    (h : 1024 < address + 4) :
    EEPROM_writeFloat s address value =
      (EEPROM_ADDRESS_ERROR, { s with eeErr := EEPROM_ADDRESS_ERROR }) := by
  have hv : (!EEPROM_validateAddress address ||
      !EEPROM_validateAddress ((address + 3) % 65536)) = true := by
    simp only [EEPROM_validateAddress, EEPROM_END_ADDRESS, EEPROM_SIZE, Bool.or_eq_true,
      Bool.not_eq_true', decide_eq_false_iff_not]
    omega
  simp only [EEPROM_writeFloat, hv]
  simp

theorem writeFloat_ok (s : Sys) (address value : Nat) (h : address + 4 ≤ 1024) :
    EEPROM_writeFloat s address value = EEPROM_writeLE_loop address (value % 2 ^ 32) 4 0 s := by
  have hv : (!EEPROM_validateAddress address ||
      !EEPROM_validateAddress ((address + 3) % 65536)) = false := by
    simp only [EEPROM_validateAddress, EEPROM_END_ADDRESS, EEPROM_SIZE, Bool.or_eq_false_iff,
      Bool.not_eq_false', decide_eq_true_eq]
    omega
  simp only [EEPROM_writeFloat, hv]
  simp

theorem readFloat_ok (s : Sys) (address : Nat) (h : address + 4 ≤ 1024) :
    EEPROM_readFloat s address = EEPROM_readLE_loop address 32 4 0 0 s := by
  have hv : (!EEPROM_validateAddress address ||
      !EEPROM_validateAddress ((address + 3) % 65536)) = false := by
    simp only [EEPROM_validateAddress, EEPROM_END_ADDRESS, EEPROM_SIZE, Bool.or_eq_false_iff,
      Bool.not_eq_false', decide_eq_true_eq]
    omega
  simp only [EEPROM_readFloat, hv]
  simp

theorem writeDouble_bad (s : Sys) (address value : Nat) (h16 : address < 65536)
    (h : 1024 < address + 8) :
    EEPROM_writeDouble s address value =
      (EEPROM_ADDRESS_ERROR, { s with eeErr := EEPROM_ADDRESS_ERROR }) := by
  have hv : (!EEPROM_validateAddress address ||
      !EEPROM_validateAddress ((address + 7) % 65536)) = true := by
    simp only [EEPROM_validateAddress, EEPROM_END_ADDRESS, EEPROM_SIZE, Bool.or_eq_true,
      Bool.not_eq_true', decide_eq_false_iff_not]
    omega
  simp only [EEPROM_writeDouble, hv]
  simp

theorem writeDouble_ok (s : Sys) (address value : Nat) (h : address + 8 ≤ 1024) :
    EEPROM_writeDouble s address value = EEPROM_writeLE_loop address (value % 2 ^ 64) 8 0 s := by
  have hv : (!EEPROM_validateAddress address ||
      !EEPROM_validateAddress ((address + 7) % 65536)) = false := by
    simp only [EEPROM_validateAddress, EEPROM_END_ADDRESS, EEPROM_SIZE, Bool.or_eq_false_iff,
      Bool.not_eq_false', decide_eq_true_eq]
    omega
  simp only [EEPROM_writeDouble, hv]
  simp

theorem readDouble_ok (s : Sys) (address : Nat) (h : address + 8 ≤ 1024) :
    EEPROM_readDouble s address = EEPROM_readLE_loop address 64 8 0 0 s := by
  have hv : (!EEPROM_validateAddress address ||
      !EEPROM_validateAddress ((address + 7) % 65536)) = false := by
    simp only [EEPROM_validateAddress, EEPROM_END_ADDRESS, EEPROM_SIZE, Bool.or_eq_false_iff,
      Bool.not_eq_false', decide_eq_true_eq]
    omega
  simp only [EEPROM_readDouble, hv]
  simp

/-! ## C2: the span check of `EEPROM_writeBlock` -/

/-- C2 (fails on the code): `EEPROM_writeBlock(1000, data, 65000)` on the
erased store. The span [1000, 66000) is not inside [0, 1024), but the
16-bit end address `1000 + 65000 - 1` wraps to 463 and passes the check; the
loop then writes cells 1000..1023 and only fails at address 1024. The call
returns the address error after a partial write. -/
theorem C2_writeBlock_partial_write :
    (EEPROM_writeBlock erasedSys 1000 (some (List.replicate 65000 0)) 65000).1
        = EEPROM_ADDRESS_ERROR ∧
      (1000 + 65000 + 65536 - 1) % 65536 = 463 ∧
      erasedSys.mem 1000 = 0xFF ∧
      (EEPROM_writeBlock erasedSys 1000 (some (List.replicate 65000 0)) 65000).2.mem 1000 = 0 ∧
      (EEPROM_writeBlock erasedSys 1000 (some (List.replicate 65000 0)) 65000).2.mem 1023 = 0 := by
  refine ⟨by decide, by decide, by decide, by decide, by decide⟩

/-! ## C3: bounds of the typed writes -/

/-- C3: for every 16-bit address and every value, each single-value typed
write (`EEPROM_writeByte` of width 1, `EEPROM_writeInteger` of size 2 and 4,
`EEPROM_writeFloat` of width 4, `EEPROM_writeDouble` of width 8) returns
`EEPROM_ADDRESS_ERROR`, leaves `EEPROM_getLastError()` at that code and changes
no cell when `address + w > 1024`, and returns `EEPROM_NO_ERROR` when
`address + w <= 1024`. -/
theorem C3_typed_write_bounds (s : Sys) (address value : Nat) (h16 : address < 65536) :
    WriteBounds s address 1 (EEPROM_writeByte s address value) ∧
    WriteBounds s address 2 (EEPROM_writeInteger s address value 2) ∧
    WriteBounds s address 4 (EEPROM_writeInteger s address value 4) ∧
    WriteBounds s address 4 (EEPROM_writeFloat s address value) ∧
    WriteBounds s address 8 (EEPROM_writeDouble s address value) := by
  refine ⟨?_, ?_, ?_, ?_, ?_⟩ <;> refine ⟨fun h => ?_, fun h => ?_⟩
  · rw [writeByte_bad s address value (by omega)]
    exact ⟨rfl, rfl, rfl⟩
  · rw [writeByte_ok s address value (by omega)]
  · rw [writeInteger_bad s address value 2 (Or.inl rfl) h16 h]
    exact ⟨rfl, rfl, rfl⟩
  · rw [writeInteger_ok s address value 2 (Or.inl rfl) h]
    exact (writeLE_loop_ok address _ 2 0 s (by omega)).1
  · rw [writeInteger_bad s address value 4 (Or.inr rfl) h16 h]
    exact ⟨rfl, rfl, rfl⟩
  · rw [writeInteger_ok s address value 4 (Or.inr rfl) h]
    exact (writeLE_loop_ok address _ 4 0 s (by omega)).1
  · rw [writeFloat_bad s address value h16 h]
    exact ⟨rfl, rfl, rfl⟩
  · rw [writeFloat_ok s address value h]
    exact (writeLE_loop_ok address _ 4 0 s (by omega)).1
  · rw [writeDouble_bad s address value h16 h]
    exact ⟨rfl, rfl, rfl⟩
  · rw [writeDouble_ok s address value h]
    exact (writeLE_loop_ok address _ 8 0 s (by omega)).1

/-- C3 at address 1022 on the erased store: the byte and the 2-byte integer
fit, the 4-byte and 8-byte writes are rejected. -/
theorem C3_typed_write_bounds_witness :
    (1022 : Nat) < 65536 ∧
    (WriteBounds erasedSys 1022 1 (EEPROM_writeByte erasedSys 1022 0x1234) ∧
     WriteBounds erasedSys 1022 2 (EEPROM_writeInteger erasedSys 1022 0x1234 2) ∧
     WriteBounds erasedSys 1022 4 (EEPROM_writeInteger erasedSys 1022 0x1234 4) ∧
     WriteBounds erasedSys 1022 4 (EEPROM_writeFloat erasedSys 1022 0x1234) ∧
     WriteBounds erasedSys 1022 8 (EEPROM_writeDouble erasedSys 1022 0x1234)) :=
  ⟨by decide, C3_typed_write_bounds erasedSys 1022 0x1234 (by decide)⟩

/-! ## C4, C5: round trips of the typed values -/

/-- C4: for every address `a` and size `s` in {2, 4} with `a + s <= 1024` and
every value `v` that fits in `s` bytes, `EEPROM_writeInteger(a, v, s)` returns
`EEPROM_NO_ERROR` and `EEPROM_readInteger(a, s)` afterwards returns exactly `v`. -/
theorem C4_integer_round_trip (s : Sys) (a v size : Nat) (hs : size = 2 ∨ size = 4)
    (ha : a + size ≤ 1024) (hv : v < 2 ^ (8 * size)) :
    (EEPROM_writeInteger s a v size).1 = EEPROM_NO_ERROR ∧
    (EEPROM_readInteger (EEPROM_writeInteger s a v size).2 a size).1 = v := by
  have hv32 : v < 2 ^ 32 := by
    rcases hs with rfl | rfl
    · exact lt_of_lt_of_le hv (by norm_num)
    · exact hv
  rw [writeInteger_ok s a v size hs ha, readInteger_ok _ a size hs ha, Nat.mod_eq_of_lt hv32]
  refine ⟨(writeLE_loop_ok a v size 0 s (by omega)).1, ?_⟩
  rw [writeLE_readLE s a v 32 size ha (by rcases hs with rfl | rfl <;> omega)]
  exact Nat.mod_eq_of_lt hv

/-- C4 at address 1020 with the 32-bit value 0xDEADBEEF. -/
theorem C4_integer_round_trip_witness :
    (EEPROM_writeInteger erasedSys 1020 0xDEADBEEF 4).1 = EEPROM_NO_ERROR ∧
    (EEPROM_readInteger (EEPROM_writeInteger erasedSys 1020 0xDEADBEEF 4).2 1020 4).1
      = 0xDEADBEEF :=
  C4_integer_round_trip erasedSys 1020 0xDEADBEEF 4 (Or.inr rfl) (by decide) (by decide)

/-- C5: for every 32-bit pattern `f` and address `a` with `a + 4 <= 1024`,
`EEPROM_writeFloat(a, f)` succeeds, stores the four bytes of `f` least
significant first and `EEPROM_readFloat(a)` returns the same pattern; for
every 64-bit pattern `d` and address `a` with `a + 8 <= 1024`,
`EEPROM_writeDouble(a, d)` succeeds, stores the eight bytes of `d` least
significant first and `EEPROM_readDouble(a)` returns the same pattern. -/
theorem C5_float_double_round_trip (s : Sys) (a f d : Nat) (hf : f < 2 ^ 32) (hd : d < 2 ^ 64) :
    (a + 4 ≤ 1024 →
      (EEPROM_writeFloat s a f).1 = EEPROM_NO_ERROR ∧
      (∀ i, i < 4 → (EEPROM_writeFloat s a f).2.mem (a + i) = f / 2 ^ (8 * i) % 256) ∧
      (EEPROM_readFloat (EEPROM_writeFloat s a f).2 a).1 = f) ∧
    (a + 8 ≤ 1024 →
      (EEPROM_writeDouble s a d).1 = EEPROM_NO_ERROR ∧
      (∀ i, i < 8 → (EEPROM_writeDouble s a d).2.mem (a + i) = d / 2 ^ (8 * i) % 256) ∧
      (EEPROM_readDouble (EEPROM_writeDouble s a d).2 a).1 = d) := by
  constructor
  · intro ha
    rw [writeFloat_ok s a f ha, readFloat_ok _ a ha, Nat.mod_eq_of_lt hf]
    obtain ⟨h1, _, h3⟩ := writeLE_loop_ok a f 4 0 s (by omega)
    refine ⟨h1, fun i hi => ?_, ?_⟩
    · rw [h3 (a + i), if_pos (by omega), Nat.shiftRight_eq_div_pow]
      have e : (a + i - a) * 8 = 8 * i := by omega
      rw [e]
    · rw [writeLE_readLE s a f 32 4 ha (by omega)]
      exact Nat.mod_eq_of_lt hf
  · intro ha
    rw [writeDouble_ok s a d ha, readDouble_ok _ a ha, Nat.mod_eq_of_lt hd]
    obtain ⟨h1, _, h3⟩ := writeLE_loop_ok a d 8 0 s (by omega)
    refine ⟨h1, fun i hi => ?_, ?_⟩
    · rw [h3 (a + i), if_pos (by omega), Nat.shiftRight_eq_div_pow]
      have e : (a + i - a) * 8 = 8 * i := by omega
      rw [e]
    · rw [writeLE_readLE s a d 64 8 ha (by omega)]
      exact Nat.mod_eq_of_lt hd

/-- C5 at address 0x0100 with the patterns of `42.5f` and of `-1.5`. -/
theorem C5_float_double_round_trip_witness :
    ((0x0100 : Nat) + 4 ≤ 1024 ∧ (0x0100 : Nat) + 8 ≤ 1024) ∧
    (EEPROM_readFloat (EEPROM_writeFloat erasedSys 0x0100 0x422A0000).2 0x0100).1 = 0x422A0000 ∧
    (EEPROM_readDouble (EEPROM_writeDouble erasedSys 0x0100 0xBFF8000000000000).2 0x0100).1
      = 0xBFF8000000000000 :=
  ⟨by decide,
   ((C5_float_double_round_trip erasedSys 0x0100 0x422A0000 0xBFF8000000000000
      (by decide) (by decide)).1 (by decide)).2.2,
   ((C5_float_double_round_trip erasedSys 0x0100 0x422A0000 0xBFF8000000000000
      (by decide) (by decide)).2 (by decide)).2.2⟩

/-! ## Blocks and strings -/

/-- A block write loop whose cells are all in range succeeds and changes
exactly those cells. -/
theorem writeBlock_loop_ok (startAddress : Nat) (data : List Nat) :
    ∀ (n i : Nat) (s : Sys), startAddress + i + n ≤ 1024 →
      (EEPROM_writeBlock_loop startAddress data n i s).1 = EEPROM_NO_ERROR ∧
      (EEPROM_writeBlock_loop startAddress data n i s).2.appErr = s.appErr ∧
      ∀ x, (EEPROM_writeBlock_loop startAddress data n i s).2.mem x =
        if startAddress + i ≤ x ∧ x < startAddress + i + n
        then data.getD (x - startAddress) 0 % 256 else s.mem x := by
  intro n
  induction n with
  | zero =>
    intro i s _
    refine ⟨rfl, rfl, fun x => ?_⟩
    have : ¬ (startAddress + i ≤ x ∧ x < startAddress + i + 0) := by omega
    rw [if_neg this]
    rfl
  | succ n ih =>
    intro i s h
    have hmod : (startAddress + i) % 65536 = startAddress + i := Nat.mod_eq_of_lt (by omega)
    have hw := writeByte_ok s (startAddress + i) (data.getD i 0) (by omega)
    obtain ⟨h1, h2, h3⟩ := ih (i + 1)
      { s with mem := setByte s.mem (startAddress + i) (data.getD i 0 % 256),
               eeErr := EEPROM_NO_ERROR } (by omega)
    simp only [EEPROM_writeBlock_loop, hmod, hw, ne_eq, not_true_eq_false, if_false]
    refine ⟨h1, h2, fun x => ?_⟩
    rw [h3 x]
    by_cases hx : x = startAddress + i
    · subst hx
      have e1 : ¬ (startAddress + (i + 1) ≤ startAddress + i ∧
          startAddress + i < startAddress + (i + 1) + n) := by omega
      have e2 : startAddress + i ≤ startAddress + i ∧
          startAddress + i < startAddress + i + (n + 1) := by omega
      simp [e1, e2, setByte]
    · by_cases hr : startAddress + (i + 1) ≤ x ∧ x < startAddress + (i + 1) + n
      · have e2 : startAddress + i ≤ x ∧ x < startAddress + i + (n + 1) := by omega
        simp [hr, e2]
      · have e2 : ¬ (startAddress + i ≤ x ∧ x < startAddress + i + (n + 1)) := by omega
        simp [hr, e2, setByte, hx]

theorem writeBlock_ok (s : Sys) (startAddress : Nat) (d : List Nat) (length : Nat)
    (h0 : 0 < length) (h : startAddress + length ≤ 1024) :
    EEPROM_writeBlock s startAddress (some d) length =
      EEPROM_writeBlock_loop startAddress d length 0 s := by
  have hv : (!EEPROM_validateAddress startAddress ||
      !EEPROM_validateAddress ((startAddress + length + 65536 - 1) % 65536)) = false := by
    simp only [EEPROM_validateAddress, EEPROM_END_ADDRESS, EEPROM_SIZE, Bool.or_eq_false_iff,
      Bool.not_eq_false', decide_eq_true_eq]
    omega
  simp only [EEPROM_writeBlock, hv]
  simp

/-- A block write whose span ends past the store, with no 16-bit wrap of the
end address, is rejected before any cell is written. -/
theorem writeBlock_rejects (s : Sys) (startAddress : Nat) (d : List Nat) (length : Nat)
    (h : 1024 < startAddress + length) (hw : startAddress + length ≤ 65536) :
    EEPROM_writeBlock s startAddress (some d) length =
      (EEPROM_ADDRESS_ERROR, { s with eeErr := EEPROM_ADDRESS_ERROR }) := by
  have hv : (!EEPROM_validateAddress startAddress ||
      !EEPROM_validateAddress ((startAddress + length + 65536 - 1) % 65536)) = true := by
    simp only [EEPROM_validateAddress, EEPROM_END_ADDRESS, EEPROM_SIZE, Bool.or_eq_true,
      Bool.not_eq_true', decide_eq_false_iff_not]
    omega
  simp only [EEPROM_writeBlock, hv]
  simp

theorem getD_append_zero (cs : List Nat) : ∀ j, (cs ++ [0]).getD j 0 = cs.getD j 0 := by
  induction cs with
  | nil => intro j; cases j <;> simp
  | cons c cs ih =>
    intro j
    cases j with
    | zero => simp
    | succ m =>
      simp only [List.cons_append, List.getD_cons_succ]
      exact ih m

/-- A string that fits is written in full: status, the cells of the
characters and the terminator, and every other cell. -/
theorem writeString_ok (s : Sys) (a : Nat) (cs : List Nat) (h : a + cs.length + 1 ≤ 1024) :
    (EEPROM_writeString s a (some cs)).1 = EEPROM_NO_ERROR ∧
    (EEPROM_writeString s a (some cs)).2.appErr = s.appErr ∧
    ∀ x, (EEPROM_writeString s a (some cs)).2.mem x =
      if a ≤ x ∧ x < a + (cs.length + 1) then cs.getD (x - a) 0 % 256 else s.mem x := by
  have hlen : (cs.length + 1) % 65536 = cs.length + 1 := Nat.mod_eq_of_lt (by omega)
  simp only [EEPROM_writeString, hlen]
  rw [writeBlock_ok s a (cs ++ [0]) (cs.length + 1) (by omega) (by omega)]
  obtain ⟨h1, h2, h3⟩ := writeBlock_loop_ok a (cs ++ [0]) (cs.length + 1) 0 s (by omega)
  refine ⟨h1, h2, fun x => ?_⟩
  rw [h3 x, getD_append_zero]
  simp only [Nat.add_zero]

/-- The read loop of `EEPROM_readString` on cells that hold the characters
`cs` and then a zero. -/
theorem readString_loop_spec (start : Nat) (cs : List Nat) (s : Sys)
    (hmem : ∀ j, j ≤ cs.length → s.mem (start + j) % 256 = cs.getD j 0)
    (hnz : ∀ j, j < cs.length → cs.getD j 0 ≠ 0)
    (hr : start + cs.length + 1 ≤ 1024) :
    ∀ (n i : Nat) (buf : Nat → Nat), i ≤ cs.length → cs.length ≤ i + n →
      (EEPROM_readString_loop start n i buf s).1 = cs.length ∧
      (EEPROM_readString_loop start n i buf s).2.2 = s ∧
      (∀ k, k < i → (EEPROM_readString_loop start n i buf s).2.1 k = buf k) ∧
      (∀ k, i ≤ k → k < cs.length →
        (EEPROM_readString_loop start n i buf s).2.1 k = cs.getD k 0) := by
  intro n
  induction n with
  | zero =>
    intro i buf h1 h2
    have : i = cs.length := by omega
    subst this
    refine ⟨rfl, rfl, fun k _ => rfl, fun k hk1 hk2 => ?_⟩
    omega
  | succ n ih =>
    intro i buf h1 h2
    have hmod : (start + i) % 65536 = start + i := Nat.mod_eq_of_lt (by omega)
    have hrd := readByte_ok s (start + i) (by omega)
    simp only [EEPROM_readString_loop, hmod, hrd, hmem i h1]
    by_cases hi : i = cs.length
    · have hz : cs.getD i 0 = 0 := by
        subst hi
        simp [List.getD_eq_default]
      rw [if_pos hz]
      refine ⟨hi, rfl, fun k hk => ?_, fun k hk1 hk2 => ?_⟩
      · simp [setByte]; omega
      · omega
    · have hlt : i < cs.length := by omega
      rw [if_neg (hnz i hlt)]
      obtain ⟨g1, g2, g3, g4⟩ := ih (i + 1) (setByte buf i (cs.getD i 0)) (by omega) (by omega)
      refine ⟨g1, g2, fun k hk => ?_, fun k hk1 hk2 => ?_⟩
      · rw [g3 k (by omega)]
        simp [setByte]; omega
      · by_cases hk : k = i
        · subst hk
          rw [g3 k (by omega)]
          simp [setByte]
        · exact g4 k (by omega) hk2

/-- Function `EEPROM_readString` on cells that hold the characters `cs` and then a
zero, with room for them: the buffer receives `cs` and a zero. -/
theorem readString_ok (start : Nat) (cs : List Nat) (s : Sys) (buf : Nat → Nat) (maxLength : Nat)
    (hmem : ∀ j, j ≤ cs.length → s.mem (start + j) % 256 = cs.getD j 0)
    (hnz : ∀ j, j < cs.length → cs.getD j 0 ≠ 0)
    (hr : start + cs.length + 1 ≤ 1024) (hmax : cs.length < maxLength) :
    ∃ out, EEPROM_readString s start (some buf) maxLength = (EEPROM_NO_ERROR, some out, s) ∧
      (∀ k, k < cs.length → out k = cs.getD k 0) ∧ out cs.length = 0 := by
  obtain ⟨g1, g2, _, g4⟩ := readString_loop_spec start cs s hmem hnz hr (maxLength - 1) 0 buf
    (by omega) (by omega)
  have hv : EEPROM_validateAddress start = true := (validateAddress_iff start).2 (by omega)
  have hm : ¬ maxLength = 0 := by omega
  refine ⟨setByte (EEPROM_readString_loop start (maxLength - 1) 0 buf s).2.1
    (EEPROM_readString_loop start (maxLength - 1) 0 buf s).1 0, ?_, ?_, ?_⟩
  · simp only [EEPROM_readString, if_neg hm, hv, g2]
    simp
  · intro k hk
    rw [g1]
    simp only [setByte]
    rw [if_neg (by omega)]
    exact g4 k (by omega) hk
  · rw [g1]
    simp [setByte]

theorem map_range_eq_append_zero (out : Nat → Nat) (cs : List Nat)
    (h1 : ∀ k, k < cs.length → out k = cs.getD k 0) (h2 : out cs.length = 0) :
    (List.range (cs.length + 1)).map out = cs ++ [0] := by
  apply List.ext_getElem
  · simp
  · intro n hn1 hn2
    simp only [List.getElem_map, List.getElem_range]
    by_cases hn : n < cs.length
    · rw [h1 n hn, List.getElem_append_left hn, List.getD_eq_getElem _ _ hn]
    · have : n = cs.length := by
        simp at hn1
        omega
      subst this
      rw [h2]
      simp

/-- The comparison `strcmp(q, out) == 0` against a buffer that holds the
non-zero characters `p` and then a zero is equality of `q` and `p`. -/
theorem strcmp_eq0_iff (p : List Nat) (out : Nat → Nat)
    (hp : ∀ k, k < p.length → out k = p.getD k 0 ∧ p.getD k 0 ≠ 0) (hz : out p.length = 0) :
    ∀ (q : List Nat) (i : Nat), (∀ c ∈ q, c ≠ 0) → i ≤ p.length →
      (strcmp_eq0 q out i = true ↔ q = p.drop i) := by
  intro q
  induction q with
  | nil =>
    intro i _ hi
    simp only [strcmp_eq0, beq_iff_eq]
    constructor
    · intro h
      by_cases hlt : i < p.length
      · exact absurd h (by rw [(hp i hlt).1]; exact (hp i hlt).2)
      · symm; exact List.drop_eq_nil_of_le (by omega)
    · intro h
      have : p.length ≤ i := List.drop_eq_nil_iff.mp h.symm
      have : i = p.length := by omega
      rw [this]; exact hz
  | cons c cs ih =>
    intro i hq hi
    have hc : c ≠ 0 := hq c (by simp)
    have hcs : ∀ x ∈ cs, x ≠ 0 := fun x hx => hq x (by simp [hx])
    simp only [strcmp_eq0, Bool.and_eq_true, beq_iff_eq]
    by_cases hlt : i < p.length
    · rw [ih (i + 1) hcs (by omega), (hp i hlt).1, List.getD_eq_getElem _ _ hlt,
        List.drop_eq_getElem_cons hlt]
      constructor
      · rintro ⟨h1, h2⟩
        rw [h1, h2]
      · intro h
        injection h with h1 h2
        exact ⟨h1.symm, h2⟩
    · have : i = p.length := by omega
      subst this
      rw [hz, List.drop_length]
      constructor
      · rintro ⟨h1, _⟩
        exact absurd h1.symm hc
      · intro h
        exact absurd h (by simp)

theorem getD_lt_256 (text : List Nat) (h : ∀ c ∈ text, c ≠ 0 ∧ c < 256) (j : Nat) :
    text.getD j 0 < 256 := by
  by_cases hj : j < text.length
  · rw [List.getD_eq_getElem _ _ hj]
    exact (h _ (List.getElem_mem hj)).2
  · rw [List.getD_eq_default _ _ (by omega)]
    decide

theorem getD_ne_zero (text : List Nat) (h : ∀ c ∈ text, c ≠ 0 ∧ c < 256) (j : Nat)
    (hj : j < text.length) : text.getD j 0 ≠ 0 := by
  rw [List.getD_eq_getElem _ _ hj]
  exact (h _ (List.getElem_mem hj)).1

/-- The cells of a string after `EEPROM_writeString`, as `EEPROM_readString` sees them. -/
theorem writeString_cells (s : Sys) (a : Nat) (text : List Nat)
    (htext : ∀ c ∈ text, c ≠ 0 ∧ c < 256) (ha : a + text.length + 1 ≤ 1024) :
    ∀ j, j ≤ text.length →
      (EEPROM_writeString s a (some text)).2.mem (a + j) % 256 = text.getD j 0 := by
  intro j hj
  rw [(writeString_ok s a text ha).2.2 (a + j), if_pos (by omega), Nat.mod_mod,
    Nat.add_sub_cancel_left]
  exact Nat.mod_eq_of_lt (getD_lt_256 text htext j)

/-! ## C6: string round trip -/

/-- C6: for every string `text` of non-zero bytes, every address `a` with
`a + length(text) + 1 <= 1024` and every `maxLength > length(text)`,
`EEPROM_writeString(a, text)` returns `EEPROM_NO_ERROR`, and then
`EEPROM_readString(a, buf, maxLength)` returns `EEPROM_NO_ERROR` with the first
`length(text) + 1` bytes of `buf` holding exactly `text` followed by a zero
terminator. -/
theorem C6_string_round_trip (s : Sys) (a : Nat) (text : List Nat) (buf : Nat → Nat)
    (maxLength : Nat) (htext : ∀ c ∈ text, c ≠ 0 ∧ c < 256)
    (ha : a + text.length + 1 ≤ 1024) (hmax : text.length < maxLength) :
    (EEPROM_writeString s a (some text)).1 = EEPROM_NO_ERROR ∧
    (EEPROM_readString (EEPROM_writeString s a (some text)).2 a (some buf) maxLength).1
      = EEPROM_NO_ERROR ∧
    (EEPROM_readString (EEPROM_writeString s a (some text)).2 a (some buf) maxLength).2.1.map
      (fun out => (List.range (text.length + 1)).map out) = some (text ++ [0]) := by
  refine ⟨(writeString_ok s a text ha).1, ?_⟩
  obtain ⟨out, h1, h2, h3⟩ := readString_ok a text (EEPROM_writeString s a (some text)).2 buf
    maxLength (writeString_cells s a text htext ha) (getD_ne_zero text htext) ha hmax
  rw [h1]
  exact ⟨rfl, by simp only [Option.map_some', map_range_eq_append_zero out text h2 h3]⟩

/-- C6 for the string "Mango" at address 1018, the last place it fits, read
with room for 16 bytes. -/
theorem C6_string_round_trip_witness :
    (1018 + APPDATA_DEFAULT_ITEM3_NAME.length + 1 ≤ 1024 ∧
      APPDATA_DEFAULT_ITEM3_NAME.length < 16) ∧
    (EEPROM_writeString erasedSys 1018 (some APPDATA_DEFAULT_ITEM3_NAME)).1 = EEPROM_NO_ERROR ∧
    (EEPROM_readString (EEPROM_writeString erasedSys 1018 (some APPDATA_DEFAULT_ITEM3_NAME)).2
      1018 (some (fun _ => 0x5A)) 16).1 = EEPROM_NO_ERROR ∧
    (EEPROM_readString (EEPROM_writeString erasedSys 1018 (some APPDATA_DEFAULT_ITEM3_NAME)).2
      1018 (some (fun _ => 0x5A)) 16).2.1.map
        (fun out => (List.range (APPDATA_DEFAULT_ITEM3_NAME.length + 1)).map out)
      = some (APPDATA_DEFAULT_ITEM3_NAME ++ [0]) :=
  ⟨by decide,
   C6_string_round_trip erasedSys 1018 APPDATA_DEFAULT_ITEM3_NAME (fun _ => 0x5A) 16
     (by decide) (by decide) (by decide)⟩

/-! ## C8: password check -/

theorem convertEepromError_ok (s : Sys) :
    AppData_convertEepromError s EEPROM_NO_ERROR =
      (APPDATA_NO_ERROR, { s with appErr := APPDATA_NO_ERROR }) := by
  simp [AppData_convertEepromError]

theorem savePassword_ok (s : Sys) (p : List Nat) (hp : p.length ≤ 15) :
    (AppData_savePassword s (some p)).1 = APPDATA_NO_ERROR ∧
    (AppData_savePassword s (some p)).2.mem = (EEPROM_writeString s 0 (some p)).2.mem := by
  have hlen : ¬ p.length > APPDATA_MAX_PASSWORD_LENGTH := by
    simp only [APPDATA_MAX_PASSWORD_LENGTH]; omega
  have hw := (writeString_ok s 0 p (by omega)).1
  have e : AppData_savePassword s (some p) =
      AppData_convertEepromError (EEPROM_writeString s 0 (some p)).2
        (EEPROM_writeString s 0 (some p)).1 := by
    simp only [AppData_savePassword, if_neg hlen]
    rfl
  rw [e, hw, convertEepromError_ok]
  constructor <;> simp only

/-- C8: for every password `p` of at most 15 non-zero bytes and every store
state, `AppData_savePassword(p)` returns `APPDATA_NO_ERROR`, and afterwards,
for every string `q`, `AppData_verifyPassword(q)` returns 1 if and only if
`q` equals `p` byte for byte. -/
theorem C8_password_exact (s : Sys) (p q : List Nat) (storedPassword : Nat → Nat)
    (hp : p.length ≤ 15) (hpc : ∀ c ∈ p, c ≠ 0 ∧ c < 256) (hq : ∀ c ∈ q, c ≠ 0) :
    (AppData_savePassword s (some p)).1 = APPDATA_NO_ERROR ∧
    ((AppData_verifyPassword (AppData_savePassword s (some p)).2 (some q) storedPassword).1 = 1
      ↔ q = p) := by
  obtain ⟨h1, h2⟩ := savePassword_ok s p hp
  refine ⟨h1, ?_⟩
  have hcells : ∀ j, j ≤ p.length →
      (AppData_savePassword s (some p)).2.mem (0 + j) % 256 = p.getD j 0 := by
    intro j hj
    rw [h2]
    exact writeString_cells s 0 p hpc (by omega) j hj
  obtain ⟨out, g1, g2, g3⟩ := readString_ok 0 p (AppData_savePassword s (some p)).2
    storedPassword 16 hcells (getD_ne_zero p hpc) (by omega) (by omega)
  have hcmp := strcmp_eq0_iff p out (fun k hk => ⟨g2 k hk, getD_ne_zero p hpc k hk⟩) g3 q 0 hq
    (by omega)
  rw [List.drop_zero] at hcmp
  have hload : AppData_loadPassword (AppData_savePassword s (some p)).2 (some storedPassword)
      = (APPDATA_NO_ERROR, some out,
          { (AppData_savePassword s (some p)).2 with appErr := APPDATA_NO_ERROR }) := by
    unfold AppData_loadPassword
    simp only [APPDATA_PASSWORD_ADDRESS, APPDATA_PASSWORD_SIZE]
    rw [g1, convertEepromError_ok]
  unfold AppData_verifyPassword
  simp only [hload]
  rw [← hcmp]
  by_cases hc : strcmp_eq0 q out 0 = true <;> simp [hc]

/-- C8 for the saved password "1234": afterwards "0000" is accepted exactly
when it equals "1234", which it does not. -/
theorem C8_password_exact_witness :
    ([49, 50, 51, 52] : List Nat).length ≤ 15 ∧
    (AppData_savePassword erasedSys (some [49, 50, 51, 52])).1 = APPDATA_NO_ERROR ∧
    ((AppData_verifyPassword (AppData_savePassword erasedSys (some [49, 50, 51, 52])).2
        (some APPDATA_DEFAULT_PASSWORD) (fun _ => 0)).1 = 1
      ↔ APPDATA_DEFAULT_PASSWORD = [49, 50, 51, 52]) :=
  ⟨by decide,
   C8_password_exact erasedSys [49, 50, 51, 52] APPDATA_DEFAULT_PASSWORD (fun _ => 0)
     (by decide) (by decide) (by decide)⟩

/-! ## C7: price round trip -/

theorem f32_scaled_min : f32_scaled APPDATA_MIN_PRICE = 0 := by decide

/-- The value of a pattern with a clear sign bit, from its magnitude. -/
theorem f32_scaled_of_mag (b m : Nat) (hs : ¬ (b / 2 ^ 31) % 2 = 1) (hm : f32_mag b = m) :
    f32_scaled b = (m : Int) := by
  rw [f32_scaled, if_neg hs, hm]

theorem f32_scaled_max : f32_scaled APPDATA_MAX_PRICE = 1000000 * 2 ^ 149 := by
  rw [f32_scaled_of_mag APPDATA_MAX_PRICE (1000000 * 2 ^ 149) (by decide) (by decide)]
  norm_num

/-- The constant `999999.99f`: the `float` 1000000.0 is nearer to 999999.99
than its two neighbours 999999.9375 and 1000000.0625. -/
theorem APPDATA_MAX_PRICE_value :
    f32_toRat APPDATA_MAX_PRICE = 1000000 ∧
    f32_toRat (APPDATA_MAX_PRICE - 1) = 999999.9375 ∧
    f32_toRat (APPDATA_MAX_PRICE + 1) = 1000000.0625 := by
  have h0 := f32_scaled_max
  have h1 : f32_scaled (APPDATA_MAX_PRICE - 1) = 15999999 * 2 ^ 145 := by
    rw [f32_scaled_of_mag (APPDATA_MAX_PRICE - 1) (15999999 * 2 ^ 145) (by decide) (by decide)]
    norm_num
  have h2 : f32_scaled (APPDATA_MAX_PRICE + 1) = 16000001 * 2 ^ 145 := by
    rw [f32_scaled_of_mag (APPDATA_MAX_PRICE + 1) (16000001 * 2 ^ 145) (by decide) (by decide)]
    norm_num
  refine ⟨?_, ?_, ?_⟩
  · rw [f32_toRat, h0]; push_cast; norm_num
  · rw [f32_toRat, h1]; push_cast; norm_num
  · rw [f32_toRat, h2]; push_cast; norm_num

/-- A price in the documented range passes the range check of `AppData_saveItemPrice`. -/
theorem price_check_passes (p : Nat) (hlo : 0 ≤ f32_toRat p) (hhi : f32_toRat p ≤ 999999.99) :
    (f32_lt p APPDATA_MIN_PRICE || f32_lt APPDATA_MAX_PRICE p) = false := by
  have hpos : (0 : ℚ) < 2 ^ 149 := by positivity
  have h1 : (0 : ℚ) ≤ (f32_scaled p : ℚ) := by
    have := mul_nonneg hlo hpos.le
    rwa [f32_toRat, div_mul_cancel₀ _ hpos.ne'] at this
  have h2 : (f32_scaled p : ℚ) ≤ 1000000 * 2 ^ 149 := by
    have := mul_le_mul_of_nonneg_right hhi hpos.le
    rw [f32_toRat, div_mul_cancel₀ _ hpos.ne'] at this
    refine le_trans this ?_
    exact mul_le_mul_of_nonneg_right (by norm_num) hpos.le
  have h1z : (0 : Int) ≤ f32_scaled p := by exact_mod_cast h1
  have h2z : f32_scaled p ≤ 1000000 * 2 ^ 149 := by exact_mod_cast h2
  simp only [f32_lt, f32_scaled_min, f32_scaled_max, Bool.or_eq_false_iff, Bool.and_eq_false_iff,
    decide_eq_false_iff_not, not_lt]
  exact ⟨Or.inr h1z, Or.inr h2z⟩

theorem getItemAddress_eq (i : Nat) (h1 : 1 ≤ i) (h5 : i ≤ 5) :
    AppData_getItemAddress i = 16 + 4 * (i - 1) := by
  interval_cases i <;> rfl

/-- A valid save of a price: status and the cells after it. -/
theorem saveItemPrice_ok (s : Sys) (i p : Nat) (h1 : 1 ≤ i) (h5 : i ≤ 5)
    (hchk : (f32_lt p APPDATA_MIN_PRICE || f32_lt APPDATA_MAX_PRICE p) = false) :
    (AppData_saveItemPrice s i p).1 = APPDATA_NO_ERROR ∧
    (AppData_saveItemPrice s i p).2.mem =
      (EEPROM_writeLE_loop (16 + 4 * (i - 1)) (p % 2 ^ 32) 4 0 s).2.mem := by
  have hidx : ¬ (i < 1 ∨ i > APPDATA_NUM_ITEMS) := by
    simp only [APPDATA_NUM_ITEMS]; omega
  have haddr : ¬ (16 + 4 * (i - 1) = 0) := by omega
  have hw := (writeLE_loop_ok (16 + 4 * (i - 1)) (p % 2 ^ 32) 4 0 s (by omega)).1
  have e : AppData_saveItemPrice s i p =
      AppData_convertEepromError (EEPROM_writeLE_loop (16 + 4 * (i - 1)) (p % 2 ^ 32) 4 0 s).2
        (EEPROM_writeLE_loop (16 + 4 * (i - 1)) (p % 2 ^ 32) 4 0 s).1 := by
    simp only [AppData_saveItemPrice, if_neg hidx, hchk, getItemAddress_eq i h1 h5, if_neg haddr,
      writeFloat_ok s (16 + 4 * (i - 1)) p (by omega)]
    simp
  rw [e, hw, convertEepromError_ok]
  constructor <;> simp only

theorem loadItemPrice_ok (s : Sys) (i : Nat) (h1 : 1 ≤ i) (h5 : i ≤ 5) :
    AppData_loadItemPrice s i = EEPROM_readLE_loop (16 + 4 * (i - 1)) 32 4 0 0 s := by
  have hidx : ¬ (i < 1 ∨ i > APPDATA_NUM_ITEMS) := by
    simp only [APPDATA_NUM_ITEMS]; omega
  have haddr : ¬ (16 + 4 * (i - 1) = 0) := by omega
  simp only [AppData_loadItemPrice, if_neg hidx, getItemAddress_eq i h1 h5, if_neg haddr,
    readFloat_ok s (16 + 4 * (i - 1)) (by omega)]

/-- C7: for every index `i` in 1..5, every `float` price `p` with
`0.0 <= p <= 999999.99` and every store state, `AppData_saveItemPrice(i, p)`
returns `APPDATA_NO_ERROR`, `AppData_loadItemPrice(i)` afterwards returns
exactly `p`, and `AppData_loadItemPrice(j)` for every other `j` in 1..5
returns what it returned before the save. -/
theorem C7_price_round_trip (s : Sys) (i p : Nat) (h1 : 1 ≤ i) (h5 : i ≤ 5) (hp : p < 2 ^ 32)
    (hlo : 0 ≤ f32_toRat p) (hhi : f32_toRat p ≤ 999999.99) :
    (AppData_saveItemPrice s i p).1 = APPDATA_NO_ERROR ∧
    (AppData_loadItemPrice (AppData_saveItemPrice s i p).2 i).1 = p ∧
    ∀ j, 1 ≤ j → j ≤ 5 → j ≠ i →
      (AppData_loadItemPrice (AppData_saveItemPrice s i p).2 j).1
        = (AppData_loadItemPrice s j).1 := by
  obtain ⟨g1, g2⟩ := saveItemPrice_ok s i p h1 h5 (price_check_passes p hlo hhi)
  obtain ⟨_, _, g3⟩ := writeLE_loop_ok (16 + 4 * (i - 1)) (p % 2 ^ 32) 4 0 s (by omega)
  refine ⟨g1, ?_, fun j hj1 hj5 hji => ?_⟩
  · rw [loadItemPrice_ok _ i h1 h5,
      readLE_loop_congr (16 + 4 * (i - 1)) 32 4 0 0 (AppData_saveItemPrice s i p).2
        (EEPROM_writeLE_loop (16 + 4 * (i - 1)) (p % 2 ^ 32) 4 0 s).2 (by omega)
        (fun k _ => by rw [g2]),
      writeLE_readLE s (16 + 4 * (i - 1)) (p % 2 ^ 32) 32 4 (by omega) (by omega),
      Nat.mod_eq_of_lt hp]
    exact Nat.mod_eq_of_lt hp
  · rw [loadItemPrice_ok _ j hj1 hj5, loadItemPrice_ok s j hj1 hj5]
    apply readLE_loop_congr (16 + 4 * (j - 1)) 32 4 0 0 _ s (by omega)
    intro k hk
    rw [g2, g3, if_neg (by omega)]

/-- C7 for `AppData_saveItemPrice(3, 42.5f)` on the erased store: the price
of item 3 reads back, the prices of items 1 and 5 are as before. -/
theorem C7_price_round_trip_witness :
    ((1 : Nat) ≤ 3 ∧ (3 : Nat) ≤ 5 ∧ (0x422A0000 : Nat) < 2 ^ 32 ∧
      0 ≤ f32_toRat 0x422A0000 ∧ f32_toRat 0x422A0000 ≤ 999999.99) ∧
    (AppData_saveItemPrice erasedSys 3 0x422A0000).1 = APPDATA_NO_ERROR ∧
    (AppData_loadItemPrice (AppData_saveItemPrice erasedSys 3 0x422A0000).2 3).1 = 0x422A0000 ∧
    (AppData_loadItemPrice (AppData_saveItemPrice erasedSys 3 0x422A0000).2 1).1
      = (AppData_loadItemPrice erasedSys 1).1 ∧
    (AppData_loadItemPrice (AppData_saveItemPrice erasedSys 3 0x422A0000).2 5).1
      = (AppData_loadItemPrice erasedSys 5).1 :=
  have hv : f32_toRat 0x422A0000 = 42.5 := by
    have h0 : f32_scaled 0x422A0000 = 85 * 2 ^ 148 := by
      rw [f32_scaled_of_mag 0x422A0000 (85 * 2 ^ 148) (by decide) (by decide)]
      norm_num
    rw [f32_toRat, h0]; push_cast; norm_num
  have hlo : 0 ≤ f32_toRat 0x422A0000 := by rw [hv]; norm_num
  have hhi : f32_toRat 0x422A0000 ≤ 999999.99 := by rw [hv]; norm_num
  have h := C7_price_round_trip erasedSys 3 0x422A0000 (by decide) (by decide) (by decide) hlo hhi
  ⟨⟨by decide, by decide, by decide, hlo, hhi⟩, h.1, h.2.1,
   h.2.2 1 (by decide) (by decide) (by decide), h.2.2 5 (by decide) (by decide) (by decide)⟩

/-! ## C1: `AppData_init` on the erased store -/

/-- C1 (fails on the code): `AppData_init()` on the erased store. The
default-price loop of `AppData_initializeDefaults` starts at index 0, so its
first call `AppData_saveItemPrice(0, 10.0f)` returns `APPDATA_INVALID_INDEX` and
the defaulting stops after the password: the store still reads as first-time,
the price of item 1 is the erased pattern and not `10.0f`, the total income is
the erased pattern and not `0.0`, the name of item 1 is fifteen `0xFF` bytes
and not "Apple"; only the password "0000" is in place. -/
theorem C1_init_on_erased_store :
    (AppData_isFirstTime erasedSys).1 = 1 ∧
    (AppData_saveItemPrice erasedSys 0 APPDATA_DEFAULT_ITEM1_PRICE).1 = APPDATA_INVALID_INDEX ∧
    AppData_getLastError (AppData_init erasedSys) = APPDATA_INVALID_INDEX ∧
    (AppData_isFirstTime (AppData_init erasedSys)).1 = 1 ∧
    (AppData_verifyPassword (AppData_init erasedSys) (some APPDATA_DEFAULT_PASSWORD)
      (fun _ => 0)).1 = 1 ∧
    (AppData_loadItemPrice (AppData_init erasedSys) 1).1 = 0xFFFFFFFF ∧
    (AppData_loadItemPrice (AppData_init erasedSys) 1).1 ≠ APPDATA_DEFAULT_ITEM1_PRICE ∧
    (AppData_loadTotalIncome (AppData_init erasedSys)).1 = 0xFFFFFFFFFFFFFFFF ∧
    ((AppData_loadItemName (AppData_init erasedSys) 1 (some (fun _ => 0))).2.1.map
      (fun out => (List.range 6).map out)) = some [0xFF, 0xFF, 0xFF, 0xFF, 0xFF, 0xFF] := by
  refine ⟨by decide, by decide, by decide, by decide, by decide, by decide, by decide,
    by decide, by decide⟩

/-! ## C9, C10: the total income -/

theorem loadTotalIncome_ok (s : Sys) :
    AppData_loadTotalIncome s = EEPROM_readLE_loop 36 64 8 0 0 s := by
  simp only [AppData_loadTotalIncome, APPDATA_TOTAL_INCOME_ADDRESS]
  exact readDouble_ok s 36 (by omega)

theorem loadTotalIncome_state (s : Sys) : (AppData_loadTotalIncome s).2 = s := by
  rw [loadTotalIncome_ok]
  exact readLE_loop_state 36 64 8 0 0 s (by omega)

theorem loadTotalIncome_congr (s t : Sys) (h : s.mem = t.mem) :
    (AppData_loadTotalIncome s).1 = (AppData_loadTotalIncome t).1 := by
  rw [loadTotalIncome_ok, loadTotalIncome_ok]
  exact readLE_loop_congr 36 64 8 0 0 s t (by omega) (fun j _ => by rw [h])

theorem saveTotalIncome_bad (s : Sys) (v : Nat) (h : f64_lt v 0 = true) :
    AppData_saveTotalIncome s v =
      (APPDATA_INVALID_PRICE, { s with appErr := APPDATA_INVALID_PRICE }) := by
  simp only [AppData_saveTotalIncome, h, if_true]

theorem saveTotalIncome_ok (s : Sys) (v : Nat) (h : f64_lt v 0 = false) :
    (AppData_saveTotalIncome s v).1 = APPDATA_NO_ERROR ∧
    (AppData_loadTotalIncome (AppData_saveTotalIncome s v).2).1 = v % 2 ^ 64 := by
  have hw := (writeLE_loop_ok 36 (v % 2 ^ 64) 8 0 s (by omega)).1
  have e : AppData_saveTotalIncome s v =
      AppData_convertEepromError (EEPROM_writeLE_loop 36 (v % 2 ^ 64) 8 0 s).2
        (EEPROM_writeLE_loop 36 (v % 2 ^ 64) 8 0 s).1 := by
    simp only [AppData_saveTotalIncome, h, APPDATA_TOTAL_INCOME_ADDRESS,
      writeDouble_ok s 36 v (by omega)]
    simp
  rw [e, hw, convertEepromError_ok]
  refine ⟨by simp only, ?_⟩
  rw [loadTotalIncome_congr _ (EEPROM_writeLE_loop 36 (v % 2 ^ 64) 8 0 s).2 (by simp only),
    loadTotalIncome_ok, writeLE_readLE s 36 (v % 2 ^ 64) 64 8 (by omega) (by omega)]
  exact Nat.mod_eq_of_lt (Nat.mod_lt _ (by norm_num))

/-- A rejected `AppData_addToTotalIncome`: the status and the state. -/
theorem addToTotalIncome_bad (fadd : Nat → Nat → Nat) (s : Sys) (d : Nat)
    (h : f64_lt (fadd (AppData_loadTotalIncome s).1 d) 0 = true) :
    AppData_addToTotalIncome fadd s d =
      (APPDATA_INVALID_PRICE, { s with appErr := APPDATA_INVALID_PRICE }) := by
  simp only [AppData_addToTotalIncome, h, if_true, loadTotalIncome_state]

/-- An accepted `AppData_addToTotalIncome` is the save of the sum. -/
theorem addToTotalIncome_ok (fadd : Nat → Nat → Nat) (s : Sys) (d : Nat)
    (h : f64_lt (fadd (AppData_loadTotalIncome s).1 d) 0 = false) :
    AppData_addToTotalIncome fadd s d =
      AppData_saveTotalIncome s (fadd (AppData_loadTotalIncome s).1 d) := by
  simp only [AppData_addToTotalIncome, h, loadTotalIncome_state]
  simp

theorem f64_ge_not_lt (x : Nat) (h : f64_ge x 0 = true) : f64_lt x 0 = false := by
  simp only [f64_ge, Bool.and_eq_true, Bool.not_eq_true', decide_eq_true_eq] at h
  simp only [f64_lt, Bool.and_eq_false_iff, decide_eq_false_iff_not, not_lt]
  exact Or.inr h.2

/-- C9: for every adder of `double`, every store state with total income `c`
and every delta `d`: if `c + d < 0.0` then `AppData_addToTotalIncome(d)` returns
an error status and leaves every cell unchanged, so `AppData_loadTotalIncome()`
still returns `c`; otherwise it returns `APPDATA_NO_ERROR` and
`AppData_loadTotalIncome()` afterwards returns `c + d`; in particular a negative
`d` is accepted whenever `c + d >= 0.0`. The hypothesis `c >= 0` of the claim is
not needed. -/
theorem C9_add_to_total_income (fadd : Nat → Nat → Nat) (hfadd : ∀ x y, fadd x y < 2 ^ 64)
    (s : Sys) (d : Nat) :
    (f64_lt (fadd (AppData_loadTotalIncome s).1 d) 0 = true →
      (AppData_addToTotalIncome fadd s d).1 ≠ APPDATA_NO_ERROR ∧
      (AppData_addToTotalIncome fadd s d).2.mem = s.mem ∧
      (AppData_loadTotalIncome (AppData_addToTotalIncome fadd s d).2).1
        = (AppData_loadTotalIncome s).1) ∧
    (f64_lt (fadd (AppData_loadTotalIncome s).1 d) 0 = false →
      (AppData_addToTotalIncome fadd s d).1 = APPDATA_NO_ERROR ∧
      (AppData_loadTotalIncome (AppData_addToTotalIncome fadd s d).2).1
        = fadd (AppData_loadTotalIncome s).1 d) ∧
    (f64_lt d 0 = true → f64_ge (fadd (AppData_loadTotalIncome s).1 d) 0 = true →
      (AppData_addToTotalIncome fadd s d).1 = APPDATA_NO_ERROR) := by
  refine ⟨fun h => ?_, fun h => ?_, fun _ h => ?_⟩
  · rw [addToTotalIncome_bad fadd s d h]
    exact ⟨by simp, by simp only, loadTotalIncome_congr _ s (by simp only)⟩
  · rw [addToTotalIncome_ok fadd s d h]
    have := saveTotalIncome_ok s _ h
    rw [Nat.mod_eq_of_lt (hfadd _ _)] at this
    exact this
  · rw [addToTotalIncome_ok fadd s d (f64_ge_not_lt _ h)]
    exact (saveTotalIncome_ok s _ (f64_ge_not_lt _ h)).1

theorem f64_roundAt_le (m e : Nat) : f64_roundAt m e ≤ 2047 * 2 ^ 52 := by
  unfold f64_roundAt
  split_ifs <;> first | exact Nat.zero_le _ | exact Nat.min_le_right _ _

/-- The IEEE-754 adder returns 64-bit patterns. -/
theorem f64_add_lt (a b : Nat) : f64_add a b < 2 ^ 64 := by
  have ha : a % 2 ^ 64 < 2 ^ 64 := Nat.mod_lt _ (by norm_num)
  have hb : b % 2 ^ 64 < 2 ^ 64 := Nat.mod_lt _ (by norm_num)
  have hsa : (a / 2 ^ 63) % 2 < 2 := Nat.mod_lt _ (by norm_num)
  have hsb : (b / 2 ^ 63) % 2 < 2 := Nat.mod_lt _ (by norm_num)
  have hr := f64_roundAt_le
  simp only [f64_add]
  norm_num at ha hb hsa hsb hr ⊢
  split_ifs
  all_goals first
    | omega
    | (have h1 := hr (f64_sig a * 2 ^ (f64_ex a - min (f64_ex a) (f64_ex b)) +
          f64_sig b * 2 ^ (f64_ex b - min (f64_ex a) (f64_ex b))) (min (f64_ex a) (f64_ex b))
       omega)
    | (have h1 := hr (f64_sig a * 2 ^ (f64_ex a - min (f64_ex a) (f64_ex b)) -
          f64_sig b * 2 ^ (f64_ex b - min (f64_ex a) (f64_ex b))) (min (f64_ex a) (f64_ex b))
       omega)
    | (have h1 := hr (f64_sig b * 2 ^ (f64_ex b - min (f64_ex a) (f64_ex b)) -
          f64_sig a * 2 ^ (f64_ex a - min (f64_ex a) (f64_ex b))) (min (f64_ex a) (f64_ex b))
       omega)

theorem f64_mag_pos_iff (x : Nat) : 0 < f64_mag x ↔ x % 2 ^ 63 ≠ 0 := by
  unfold f64_mag
  split_ifs with h
  · norm_num at h ⊢
    omega
  · have hp : 0 < (2 ^ 52 + x % 2 ^ 52) * 2 ^ ((x / 2 ^ 52) % 2048 - 1) :=
      Nat.mul_pos (by positivity) (by positivity)
    refine ⟨fun _ => ?_, fun _ => hp⟩
    norm_num at h ⊢
    omega

/-- The test `x < 0.0` on a `double` pattern, read off its bits: not a NaN,
the sign bit set, and not a zero. -/
theorem f64_lt_zero (x : Nat) :
    f64_lt x 0 = (!f64_isNaN x && decide ((x / 2 ^ 63) % 2 = 1) && decide (x % 2 ^ 63 ≠ 0)) := by
  have h0 : f64_isNaN 0 = false := by decide
  have hs0 : f64_scaled 0 = 0 := by decide
  have hm := f64_mag_pos_iff x
  unfold f64_lt
  rw [h0, hs0]
  by_cases hn : f64_isNaN x = true
  · simp [hn]
  · simp only [Bool.not_eq_true] at hn
    simp only [hn, Bool.not_false, Bool.true_and, Bool.and_true]
    by_cases hs : (x / 2 ^ 63) % 2 = 1
    · have hx : f64_scaled x = -((f64_mag x : Nat) : Int) := by
        unfold f64_scaled; rw [if_pos hs]
      rw [hx]
      simp only [hs, decide_True, Bool.true_and]
      congr 1
      rw [← hm]
      simp only [Left.neg_neg_iff, Nat.cast_pos, eq_iff_iff]
    · have hx : f64_scaled x = ((f64_mag x : Nat) : Int) := by
        unfold f64_scaled; rw [if_neg hs]
      rw [hx]
      simp only [hs, decide_False, Bool.false_and, decide_eq_false_iff_not, not_lt]
      exact Int.natCast_nonneg _

/-- C9 with the IEEE-754 adder: the total is `30.0` (saved on the erased
store) and the delta is `-50.0`; the sum `-20.0` is negative, the call is
rejected and the total stays `30.0`. -/
theorem C9_add_to_total_income_witness :
    f64_lt (f64_add (AppData_loadTotalIncome
        (AppData_saveTotalIncome erasedSys 0x403E000000000000).2).1 0xC049000000000000) 0 = true ∧
    (AppData_addToTotalIncome f64_add
        (AppData_saveTotalIncome erasedSys 0x403E000000000000).2 0xC049000000000000).1
          ≠ APPDATA_NO_ERROR ∧
    (AppData_addToTotalIncome f64_add
        (AppData_saveTotalIncome erasedSys 0x403E000000000000).2 0xC049000000000000).2.mem
          = (AppData_saveTotalIncome erasedSys 0x403E000000000000).2.mem ∧
    (AppData_loadTotalIncome (AppData_addToTotalIncome f64_add
        (AppData_saveTotalIncome erasedSys 0x403E000000000000).2 0xC049000000000000).2).1
          = (AppData_loadTotalIncome (AppData_saveTotalIncome erasedSys 0x403E000000000000).2).1 :=
  have hload : (AppData_loadTotalIncome
      (AppData_saveTotalIncome erasedSys 0x403E000000000000).2).1 = 0x403E000000000000 :=
    (saveTotalIncome_ok erasedSys 0x403E000000000000 (by rw [f64_lt_zero]; decide)).2
  have hsum : f64_add 0x403E000000000000 0xC049000000000000 = 0xC034000000000000 := by decide
  have hneg : f64_lt (f64_add (AppData_loadTotalIncome
      (AppData_saveTotalIncome erasedSys 0x403E000000000000).2).1 0xC049000000000000) 0 = true := by
    rw [hload, hsum, f64_lt_zero]; decide
  ⟨hneg,
   (C9_add_to_total_income f64_add f64_add_lt
      (AppData_saveTotalIncome erasedSys 0x403E000000000000).2 0xC049000000000000).1 hneg⟩

/-! ## C10: the income invariant -/

/-- C10 (fails on the code): from a store whose total income is `0.0`,
`AppData_saveTotalIncome` of a NaN is accepted, since the guard
`totalIncome < 0.0` is false for a NaN; the total is then a NaN, which is not
`>= 0.0`. -/
theorem C10_nan_counterexample :
    f64_ge (AppData_loadTotalIncome zeroIncomeSys).1 0 = true ∧
    (runIncomeCall f64_add zeroIncomeSys (IncomeCall.save 0x7FF8000000000000)).1
      = APPDATA_NO_ERROR ∧
    (AppData_loadTotalIncome
      (runIncomeCalls f64_add [IncomeCall.save 0x7FF8000000000000] zeroIncomeSys)).1
        = 0x7FF8000000000000 ∧
    f64_ge (AppData_loadTotalIncome
      (runIncomeCalls f64_add [IncomeCall.save 0x7FF8000000000000] zeroIncomeSys)).1 0
        = false := by
  refine ⟨by decide, by decide, by decide, by decide⟩

/-- A call that returned an error changed no cell. -/
theorem runIncomeCall_error (fadd : Nat → Nat → Nat) (t : Sys) (c : IncomeCall)
    (h : (runIncomeCall fadd t c).1 ≠ APPDATA_NO_ERROR) :
    (runIncomeCall fadd t c).2.mem = t.mem := by
  cases c with
  | save v =>
    simp only [runIncomeCall] at h ⊢
    by_cases hv : f64_lt v 0 = true
    · rw [saveTotalIncome_bad t v hv]
    · simp only [Bool.not_eq_true] at hv
      exact absurd (saveTotalIncome_ok t v hv).1 h
  | add d =>
    simp only [runIncomeCall] at h ⊢
    by_cases hv : f64_lt (fadd (AppData_loadTotalIncome t).1 d) 0 = true
    · rw [addToTotalIncome_bad fadd t d hv]
    · simp only [Bool.not_eq_true] at hv
      rw [addToTotalIncome_ok fadd t d hv] at h
      exact absurd (saveTotalIncome_ok t _ hv).1 h

/-- One call keeps the total income from being `< 0.0`. -/
theorem runIncomeCall_inv (fadd : Nat → Nat → Nat) (hfadd : ∀ x y, fadd x y < 2 ^ 64)
    (t : Sys) (c : IncomeCall) (hc : incomeCallArg c < 2 ^ 64)
    (h : f64_lt (AppData_loadTotalIncome t).1 0 = false) :
    f64_lt (AppData_loadTotalIncome (runIncomeCall fadd t c).2).1 0 = false := by
  cases c with
  | save v =>
    simp only [runIncomeCall]
    simp only [incomeCallArg] at hc
    by_cases hv : f64_lt v 0 = true
    · rw [saveTotalIncome_bad t v hv, loadTotalIncome_congr _ t (by simp only)]
      exact h
    · simp only [Bool.not_eq_true] at hv
      rw [(saveTotalIncome_ok t v hv).2, Nat.mod_eq_of_lt hc]
      exact hv
  | add d =>
    simp only [runIncomeCall]
    by_cases hv : f64_lt (fadd (AppData_loadTotalIncome t).1 d) 0 = true
    · rw [addToTotalIncome_bad fadd t d hv, loadTotalIncome_congr _ t (by simp only)]
      exact h
    · simp only [Bool.not_eq_true] at hv
      rw [addToTotalIncome_ok fadd t d hv, (saveTotalIncome_ok t _ hv).2,
        Nat.mod_eq_of_lt (hfadd _ _)]
      exact hv

theorem runIncomeCalls_inv (fadd : Nat → Nat → Nat) (hfadd : ∀ x y, fadd x y < 2 ^ 64)
    (calls : List IncomeCall) :
    ∀ s, (∀ c ∈ calls, incomeCallArg c < 2 ^ 64) →
      f64_lt (AppData_loadTotalIncome s).1 0 = false →
      f64_lt (AppData_loadTotalIncome (runIncomeCalls fadd calls s)).1 0 = false := by
  induction calls with
  | nil => intro s _ h; exact h
  | cons c cs ih =>
    intro s hc h
    simp only [runIncomeCalls]
    exact ih _ (fun x hx => hc x (List.mem_cons_of_mem c hx))
      (runIncomeCall_inv fadd hfadd s c (hc c (List.mem_cons_self c cs)) h)

/-- C10, amended: for every adder of `double`, starting from any store whose
total income is not `< 0.0`, after every finite sequence of
`AppData_saveTotalIncome(v)` and `AppData_addToTotalIncome(d)` calls with
arbitrary arguments, `AppData_loadTotalIncome()` is not `< 0.0` (it is `>= 0.0`
or a NaN), and every call of the sequence that returned an error left every
cell, hence the stored total, unchanged. -/
theorem C10_income_never_negative (fadd : Nat → Nat → Nat) (hfadd : ∀ x y, fadd x y < 2 ^ 64)
    (s : Sys) (h0 : f64_lt (AppData_loadTotalIncome s).1 0 = false)
    (calls : List IncomeCall) (hcalls : ∀ c ∈ calls, incomeCallArg c < 2 ^ 64) :
    f64_lt (AppData_loadTotalIncome (runIncomeCalls fadd calls s)).1 0 = false ∧
    ∀ pre c post, calls = pre ++ c :: post →
      (runIncomeCall fadd (runIncomeCalls fadd pre s) c).1 ≠ APPDATA_NO_ERROR →
      (runIncomeCall fadd (runIncomeCalls fadd pre s) c).2.mem
          = (runIncomeCalls fadd pre s).mem ∧
      (AppData_loadTotalIncome (runIncomeCall fadd (runIncomeCalls fadd pre s) c).2).1
          = (AppData_loadTotalIncome (runIncomeCalls fadd pre s)).1 := by
  refine ⟨runIncomeCalls_inv fadd hfadd calls s hcalls h0, fun pre c post _ herr => ?_⟩
  have hm := runIncomeCall_error fadd (runIncomeCalls fadd pre s) c herr
  exact ⟨hm, loadTotalIncome_congr _ _ hm⟩

/-- C10, amended, with the IEEE-754 adder from the total `0.0`: add `30.0`,
add `-50.0` (rejected), save `-1.0` (rejected), save a NaN (accepted). -/
theorem C10_income_never_negative_witness :
    f64_lt (AppData_loadTotalIncome zeroIncomeSys).1 0 = false ∧
    f64_lt (AppData_loadTotalIncome (runIncomeCalls f64_add
      [IncomeCall.add 0x403E000000000000, IncomeCall.add 0xC049000000000000,
       IncomeCall.save 0xBFF0000000000000, IncomeCall.save 0x7FF8000000000000]
      zeroIncomeSys)).1 0 = false :=
  ⟨by decide,
   (C10_income_never_negative f64_add f64_add_lt zeroIncomeSys (by decide)
      [IncomeCall.add 0x403E000000000000, IncomeCall.add 0xC049000000000000,
       IncomeCall.save 0xBFF0000000000000, IncomeCall.save 0x7FF8000000000000]
      (by decide)).1⟩

/-! ## C11: item index out of range -/

/-- C11: for every index that is 0 or at least 6 and every other argument
(null pointers included), `AppData_saveItemPrice`, `AppData_saveItemName` and
`AppData_loadItemName` return `APPDATA_INVALID_INDEX`, `AppData_loadItemPrice`
returns `0.0` and leaves `AppData_getLastError()` at `APPDATA_INVALID_INDEX`, and
in all four cases every cell is unchanged. -/
theorem C11_invalid_index (s : Sys) (i : Nat) (hi : i = 0 ∨ 6 ≤ i) (price : Nat)
    (name : Option (List Nat)) (buf : Option (Nat → Nat)) :
    ((AppData_saveItemPrice s i price).1 = APPDATA_INVALID_INDEX ∧
      (AppData_saveItemPrice s i price).2.mem = s.mem) ∧
    ((AppData_saveItemName s i name).1 = APPDATA_INVALID_INDEX ∧
      (AppData_saveItemName s i name).2.mem = s.mem) ∧
    ((AppData_loadItemName s i buf).1 = APPDATA_INVALID_INDEX ∧
      (AppData_loadItemName s i buf).2.2.mem = s.mem) ∧
    ((AppData_loadItemPrice s i).1 = 0 ∧
      AppData_getLastError (AppData_loadItemPrice s i).2 = APPDATA_INVALID_INDEX ∧
      (AppData_loadItemPrice s i).2.mem = s.mem) := by
  have hidx : i < 1 ∨ i > APPDATA_NUM_ITEMS := by
    simp only [APPDATA_NUM_ITEMS]; omega
  refine ⟨?_, ?_, ?_, ?_⟩
  · simp only [AppData_saveItemPrice, if_pos hidx, and_self]
  · simp only [AppData_saveItemName, if_pos hidx, and_self]
  · simp only [AppData_loadItemName, if_pos hidx, and_self]
  · simp only [AppData_loadItemPrice, if_pos hidx, AppData_getLastError, and_self]

/-- C11 for the index 6 on the erased store, with the price `1.0f`. -/
theorem C11_invalid_index_witness :
    ((6 : Nat) = 0 ∨ 6 ≤ 6) ∧
    (AppData_saveItemPrice erasedSys 6 0x3F800000).1 = APPDATA_INVALID_INDEX ∧
    (AppData_loadItemPrice erasedSys 6).1 = 0 ∧
    AppData_getLastError (AppData_loadItemPrice erasedSys 6).2 = APPDATA_INVALID_INDEX :=
  have h := C11_invalid_index erasedSys 6 (Or.inr (Nat.le_refl 6)) 0x3F800000 none none
  ⟨Or.inr (Nat.le_refl 6), h.1.1, h.2.2.2.1, h.2.2.2.2.1⟩

/-! ## C16: reads out of range -/

theorem readByte_bad (s : Sys) (a : Nat) (h : 1023 < a) :
    EEPROM_readByte s a = (0xFF, { s with eeErr := EEPROM_ADDRESS_ERROR }) := by
  simp [EEPROM_readByte, (validateAddress_false_iff a).2 h]

theorem readInteger_bad (s : Sys) (address size : Nat) (hs : size = 2 ∨ size = 4)
    (h : 1024 < address + size) :
    EEPROM_readInteger s address size = (0, { s with eeErr := EEPROM_ADDRESS_ERROR }) := by
  have hv : (!EEPROM_validateAddress address ||
      !EEPROM_validateAddress ((address + size + 65536 - 1) % 65536)) = true := by
    simp only [EEPROM_validateAddress, EEPROM_END_ADDRESS, EEPROM_SIZE, Bool.or_eq_true,
      Bool.not_eq_true', decide_eq_false_iff_not]
    omega
  have hsz : ¬ (size ≠ 2 ∧ size ≠ 4) := by omega
  simp only [EEPROM_readInteger, if_neg hsz, hv]
  simp

theorem readFloat_bad (s : Sys) (address : Nat) (h : 1024 < address + 4) :
    EEPROM_readFloat s address = (0, { s with eeErr := EEPROM_ADDRESS_ERROR }) := by
  have hv : (!EEPROM_validateAddress address ||
      !EEPROM_validateAddress ((address + 3) % 65536)) = true := by
    simp only [EEPROM_validateAddress, EEPROM_END_ADDRESS, EEPROM_SIZE, Bool.or_eq_true,
      Bool.not_eq_true', decide_eq_false_iff_not]
    omega
  simp only [EEPROM_readFloat, hv]
  simp

theorem readDouble_bad (s : Sys) (address : Nat) (h : 1024 < address + 8) :
    EEPROM_readDouble s address = (0, { s with eeErr := EEPROM_ADDRESS_ERROR }) := by
  have hv : (!EEPROM_validateAddress address ||
      !EEPROM_validateAddress ((address + 7) % 65536)) = true := by
    simp only [EEPROM_validateAddress, EEPROM_END_ADDRESS, EEPROM_SIZE, Bool.or_eq_true,
      Bool.not_eq_true', decide_eq_false_iff_not]
    omega
  simp only [EEPROM_readDouble, hv]
  simp

/-- The contract of one read that is out of range, with result `r` from
state `s`: the failure value, the address error in the slot of `eeprom.c`,
no cell changed. -/
theorem failedRead_intro (s : Sys) (v : Nat) :
    ((v, ({ s with eeErr := EEPROM_ADDRESS_ERROR } : Sys)) : Nat × Sys).1 = v ∧
    EEPROM_getLastError ((v, ({ s with eeErr := EEPROM_ADDRESS_ERROR } : Sys)) : Nat × Sys).2
      = EEPROM_ADDRESS_ERROR ∧
    ((v, ({ s with eeErr := EEPROM_ADDRESS_ERROR } : Sys)) : Nat × Sys).2.mem = s.mem :=
  ⟨rfl, rfl, rfl⟩

/-- C16: for every address `>= 1024`, `EEPROM_readByte` returns `0xFF`; for
every address with `address + w > 1024`, `EEPROM_readInteger` (`w` the size, 2
or 4) returns 0, `EEPROM_readFloat` (`w = 4`) and `EEPROM_readDouble` (`w = 8`)
return `0.0`; in each case `EEPROM_getLastError()` afterwards is
`EEPROM_ADDRESS_ERROR` and no cell changes. For an address below 1024,
`EEPROM_readByte` returns the stored byte and changes nothing. -/
theorem C16_out_of_range_reads (s : Sys) (address : Nat) :
    (1024 ≤ address →
      (EEPROM_readByte s address).1 = 0xFF ∧
      EEPROM_getLastError (EEPROM_readByte s address).2 = EEPROM_ADDRESS_ERROR ∧
      (EEPROM_readByte s address).2.mem = s.mem) ∧
    (∀ size, size = 2 ∨ size = 4 → 1024 < address + size →
      (EEPROM_readInteger s address size).1 = 0 ∧
      EEPROM_getLastError (EEPROM_readInteger s address size).2 = EEPROM_ADDRESS_ERROR ∧
      (EEPROM_readInteger s address size).2.mem = s.mem) ∧
    (1024 < address + 4 →
      (EEPROM_readFloat s address).1 = 0 ∧
      EEPROM_getLastError (EEPROM_readFloat s address).2 = EEPROM_ADDRESS_ERROR ∧
      (EEPROM_readFloat s address).2.mem = s.mem) ∧
    (1024 < address + 8 →
      (EEPROM_readDouble s address).1 = 0 ∧
      EEPROM_getLastError (EEPROM_readDouble s address).2 = EEPROM_ADDRESS_ERROR ∧
      (EEPROM_readDouble s address).2.mem = s.mem) ∧
    (address < 1024 →
      (EEPROM_readByte s address).1 = s.mem address % 256 ∧
      (EEPROM_readByte s address).2 = s) := by
  refine ⟨fun h => ?_, fun size hs h => ?_, fun h => ?_, fun h => ?_, fun h => ?_⟩
  · rw [readByte_bad s address (by omega)]
    exact failedRead_intro s 0xFF
  · rw [readInteger_bad s address size hs h]
    exact failedRead_intro s 0
  · rw [readFloat_bad s address h]
    exact failedRead_intro s 0
  · rw [readDouble_bad s address h]
    exact failedRead_intro s 0
  · rw [readByte_ok s address (by omega)]
    exact ⟨rfl, rfl⟩

/-- C16 on the erased store: address 1024 for the byte, 1021 for the 4-byte
and 8-byte reads (spans crossing the end), 1023 for the last stored byte. -/
theorem C16_out_of_range_reads_witness :
    (EEPROM_readByte erasedSys 1024).1 = 0xFF ∧
    EEPROM_getLastError (EEPROM_readByte erasedSys 1024).2 = EEPROM_ADDRESS_ERROR ∧
    (EEPROM_readInteger erasedSys 1021 4).1 = 0 ∧
    (EEPROM_readFloat erasedSys 1021).1 = 0 ∧
    (EEPROM_readDouble erasedSys 1021).1 = 0 ∧
    (EEPROM_readByte erasedSys 1023).1 = erasedSys.mem 1023 % 256 :=
  ⟨((C16_out_of_range_reads erasedSys 1024).1 (by decide)).1,
   ((C16_out_of_range_reads erasedSys 1024).1 (by decide)).2.1,
   ((C16_out_of_range_reads erasedSys 1021).2.1 4 (Or.inr rfl) (by decide)).1,
   ((C16_out_of_range_reads erasedSys 1021).2.2.1 (by decide)).1,
   ((C16_out_of_range_reads erasedSys 1021).2.2.2.1 (by decide)).1,
   ((C16_out_of_range_reads erasedSys 1023).2.2.2.2 (by decide)).1⟩

/-! ## C19, C20: layout and size check of the integers -/

/-- C19: for every address `a`, size `s` in {2, 4} with `a + s <= 1024` and
every 32-bit value `v`, after `EEPROM_writeInteger(a, v, s)` the cell at
`a + i` holds `(v >> 8i) mod 256` for each `i < s`, and every cell outside
`[a, a + s)` is unchanged. -/
theorem C19_integer_layout (s : Sys) (a v size : Nat) (hs : size = 2 ∨ size = 4)
    (ha : a + size ≤ 1024) (hv : v < 2 ^ 32) :
    (∀ i, i < size → (EEPROM_writeInteger s a v size).2.mem (a + i) = (v >>> (8 * i)) % 256) ∧
    (∀ x, (x < a ∨ a + size ≤ x) → (EEPROM_writeInteger s a v size).2.mem x = s.mem x) := by
  rw [writeInteger_ok s a v size hs ha, Nat.mod_eq_of_lt hv]
  obtain ⟨_, _, h3⟩ := writeLE_loop_ok a v size 0 s (by omega)
  refine ⟨fun i hi => ?_, fun x hx => ?_⟩
  · rw [h3 (a + i), if_pos (by omega)]
    have e : (a + i - a) * 8 = 8 * i := by omega
    rw [e]
  · rw [h3 x, if_neg (by omega)]

/-- C19 for the value 0x12345678 written on 2 bytes at the last address that
fits: the cells hold 0x78 and 0x56, the cell before is unchanged. -/
theorem C19_integer_layout_witness :
    ((1022 : Nat) + 2 ≤ 1024 ∧ (0x12345678 : Nat) < 2 ^ 32) ∧
    (EEPROM_writeInteger erasedSys 1022 0x12345678 2).2.mem (1022 + 0)
      = (0x12345678 >>> (8 * 0)) % 256 ∧
    (EEPROM_writeInteger erasedSys 1022 0x12345678 2).2.mem (1022 + 1)
      = (0x12345678 >>> (8 * 1)) % 256 ∧
    (EEPROM_writeInteger erasedSys 1022 0x12345678 2).2.mem 1021 = erasedSys.mem 1021 :=
  have h := C19_integer_layout erasedSys 1022 0x12345678 2 (Or.inl rfl) (by decide) (by decide)
  ⟨by decide, h.1 0 (by decide), h.1 1 (by decide), h.2 1021 (Or.inl (by decide))⟩

/-- C20: for every address, every value and every size other than 2 and 4,
`EEPROM_writeInteger` returns `EEPROM_ADDRESS_ERROR` and changes no cell, and
`EEPROM_readInteger` returns 0 with `EEPROM_getLastError()` afterwards equal to
`EEPROM_ADDRESS_ERROR`. -/
theorem C20_invalid_size (s : Sys) (address value size : Nat) (hs : size ≠ 2 ∧ size ≠ 4) :
    (EEPROM_writeInteger s address value size).1 = EEPROM_ADDRESS_ERROR ∧
    (EEPROM_writeInteger s address value size).2.mem = s.mem ∧
    (EEPROM_readInteger s address size).1 = 0 ∧
    EEPROM_getLastError (EEPROM_readInteger s address size).2 = EEPROM_ADDRESS_ERROR ∧
    (EEPROM_readInteger s address size).2.mem = s.mem := by
  simp only [EEPROM_writeInteger, EEPROM_readInteger, if_pos hs, EEPROM_getLastError, and_self]

/-- C20 for the size 3 at address 0 on the erased store. -/
theorem C20_invalid_size_witness :
    ((3 : Nat) ≠ 2 ∧ (3 : Nat) ≠ 4) ∧
    (EEPROM_writeInteger erasedSys 0 0x12345678 3).1 = EEPROM_ADDRESS_ERROR ∧
    (EEPROM_writeInteger erasedSys 0 0x12345678 3).2.mem = erasedSys.mem ∧
    (EEPROM_readInteger erasedSys 0 3).1 = 0 ∧
    EEPROM_getLastError (EEPROM_readInteger erasedSys 0 3).2 = EEPROM_ADDRESS_ERROR ∧
    (EEPROM_readInteger erasedSys 0 3).2.mem = erasedSys.mem :=
  ⟨by decide, C20_invalid_size erasedSys 0 0x12345678 3 (by decide)⟩

/-! ## C12: the price range check -/

theorem f32_lt_irrefl (p : Nat) : f32_lt p p = false := by
  simp [f32_lt]

/-- C12 (fails on the code): `AppData_saveItemPrice(1, 1000000.0f)` on the
erased store. The price 1000000.0 is above the documented maximum 999999.99,
but the constant `999999.99f` of the range check is the `float` 1000000.0
itself, so `price > APPDATA_MAX_PRICE` is false: the call returns
`APPDATA_NO_ERROR` and stores the price. -/
theorem C12_max_price_accepted :
    (999999.99 : ℚ) < f32_toRat 0x49742400 ∧
    f32_isNaN 0x49742400 = false ∧
    (AppData_saveItemPrice erasedSys 1 0x49742400).1 = APPDATA_NO_ERROR ∧
    erasedSys.mem 0x10 = 0xFF ∧
    (AppData_saveItemPrice erasedSys 1 0x49742400).2.mem 0x10 = 0x00 ∧
    (AppData_loadItemPrice (AppData_saveItemPrice erasedSys 1 0x49742400).2 1).1
      = 0x49742400 := by
  have hchk : (f32_lt 0x49742400 APPDATA_MIN_PRICE || f32_lt APPDATA_MAX_PRICE 0x49742400)
      = false := by
    have h1 : f32_lt APPDATA_MAX_PRICE 0x49742400 = false := f32_lt_irrefl APPDATA_MAX_PRICE
    have h2 : f32_lt 0x49742400 APPDATA_MIN_PRICE = false := by
      have hs : f32_scaled 0x49742400 = 1000000 * 2 ^ 149 := f32_scaled_max
      simp only [f32_lt, f32_scaled_min, hs, Bool.and_eq_false_iff, decide_eq_false_iff_not,
        not_lt]
      exact Or.inr (by positivity)
    rw [h1, h2]; rfl
  obtain ⟨g1, g2⟩ := saveItemPrice_ok erasedSys 1 0x49742400 (by decide) (by decide) hchk
  obtain ⟨_, _, g3⟩ := writeLE_loop_ok (16 + 4 * (1 - 1)) (0x49742400 % 2 ^ 32) 4 0 erasedSys
    (by decide)
  refine ⟨?_, by decide, g1, by decide, ?_, ?_⟩
  · have := APPDATA_MAX_PRICE_value.1
    simp only [APPDATA_MAX_PRICE] at this
    rw [this]; norm_num
  · rw [g2, g3]; decide
  · rw [loadItemPrice_ok _ 1 (by decide) (by decide),
      readLE_loop_congr (16 + 4 * (1 - 1)) 32 4 0 0 (AppData_saveItemPrice erasedSys 1 0x49742400).2
        (EEPROM_writeLE_loop (16 + 4 * (1 - 1)) (0x49742400 % 2 ^ 32) 4 0 erasedSys).2 (by decide)
        (fun k _ => by rw [g2]),
      writeLE_readLE erasedSys (16 + 4 * (1 - 1)) (0x49742400 % 2 ^ 32) 32 4 (by decide)
        (by decide)]
    norm_num

/-- What the range check of `AppData_saveItemPrice` does reject: every price
that is not a NaN and is below 0.0 or above 1000000.0, the `float` value of
the constant `999999.99f`; nothing is stored. -/
theorem saveItemPrice_rejects (s : Sys) (i p : Nat) (h1 : 1 ≤ i) (h5 : i ≤ 5)
    (hnan : f32_isNaN p = false) (hout : f32_toRat p < 0 ∨ 1000000 < f32_toRat p) :
    (AppData_saveItemPrice s i p).1 = APPDATA_INVALID_PRICE ∧
    (AppData_saveItemPrice s i p).2.mem = s.mem := by
  have hidx : ¬ (i < 1 ∨ i > APPDATA_NUM_ITEMS) := by
    simp only [APPDATA_NUM_ITEMS]; omega
  have hpos : (0 : ℚ) < 2 ^ 149 := by positivity
  have hmin : f32_isNaN APPDATA_MIN_PRICE = false := by decide
  have hmax : f32_isNaN APPDATA_MAX_PRICE = false := by decide
  have hchk : (f32_lt p APPDATA_MIN_PRICE || f32_lt APPDATA_MAX_PRICE p) = true := by
    simp only [f32_lt, hnan, hmin, hmax, f32_scaled_min, f32_scaled_max, Bool.not_false,
      Bool.true_and, Bool.or_eq_true, decide_eq_true_eq]
    rcases hout with h | h
    · left
      have : (f32_scaled p : ℚ) < 0 := by
        have := mul_lt_mul_of_pos_right h hpos
        rwa [f32_toRat, div_mul_cancel₀ _ hpos.ne', zero_mul] at this
      exact_mod_cast this
    · right
      have : (1000000 * 2 ^ 149 : ℚ) < (f32_scaled p : ℚ) := by
        have := mul_lt_mul_of_pos_right h hpos
        rwa [f32_toRat, div_mul_cancel₀ _ hpos.ne'] at this
      exact_mod_cast this
  simp only [AppData_saveItemPrice, if_neg hidx, hchk, if_true, and_self]

/-! ## C13: `AppData_init` twice -/

theorem savePassword_eq (s : Sys) (p : List Nat) (hp : p.length ≤ 15) :
    AppData_savePassword s (some p) =
      (APPDATA_NO_ERROR,
        { (EEPROM_writeString s 0 (some p)).2 with appErr := APPDATA_NO_ERROR }) := by
  have hlen : ¬ p.length > APPDATA_MAX_PASSWORD_LENGTH := by
    simp only [APPDATA_MAX_PASSWORD_LENGTH]; omega
  have hw := (writeString_ok s 0 p (by omega)).1
  have e : AppData_savePassword s (some p) =
      AppData_convertEepromError (EEPROM_writeString s 0 (some p)).2
        (EEPROM_writeString s 0 (some p)).1 := by
    simp only [AppData_savePassword, if_neg hlen]
    rfl
  rw [e, hw, convertEepromError_ok]

/-- The default-price loop stops at its first call, `AppData_saveItemPrice(0, .)`. -/
theorem initializeDefaults_loop_eq (t : Sys) :
    AppData_initializeDefaults_loop APPDATA_NUM_ITEMS 0 t =
      (APPDATA_INVALID_INDEX, { t with appErr := APPDATA_INVALID_INDEX }) := by
  simp only [APPDATA_NUM_ITEMS, AppData_initializeDefaults_loop, AppData_saveItemPrice]
  simp

/-- The whole of `AppData_initializeDefaults`: the password is written, the
first price is refused, nothing else is done. -/
theorem initializeDefaults_eq (s : Sys) :
    AppData_initializeDefaults s =
      (APPDATA_INVALID_INDEX,
        { (EEPROM_writeString s 0 (some APPDATA_DEFAULT_PASSWORD)).2 with
          appErr := APPDATA_INVALID_INDEX }) := by
  unfold AppData_initializeDefaults
  simp only [savePassword_eq s APPDATA_DEFAULT_PASSWORD (by decide), initializeDefaults_loop_eq]
  simp

theorem isFirstTime_eq (s : Sys) :
    AppData_isFirstTime s = (if s.mem 0x7C % 256 ≠ 0xAA then 1 else 0, s) := by
  simp only [AppData_isFirstTime, APPDATA_FIRST_TIME_FLAG_ADDRESS, APPDATA_INITIALIZED_VALUE,
    readByte_ok s 0x7C (by decide)]
  split_ifs <;> rfl

/-- On a store whose first-time flag is set, `AppData_init` only clears the
error slot of `app_data.c`. -/
theorem init_initialized (s : Sys) (h : s.mem 0x7C % 256 = 0xAA) :
    AppData_init s = { s with appErr := APPDATA_NO_ERROR } := by
  have hf : ¬ (({ s with appErr := APPDATA_NO_ERROR } : Sys).mem 0x7C % 256 ≠ 0xAA) := by
    simpa using h
  unfold AppData_init
  simp only [isFirstTime_eq, if_neg hf]
  simp

/-- On a store whose first-time flag is not set, `AppData_init` writes the
default password and stops at the refused first price. -/
theorem init_first_time (s : Sys) (h : s.mem 0x7C % 256 ≠ 0xAA) :
    (AppData_init s).mem = (EEPROM_writeString s 0 (some APPDATA_DEFAULT_PASSWORD)).2.mem ∧
    (AppData_init s).appErr = APPDATA_INVALID_INDEX := by
  have hf : ({ s with appErr := APPDATA_NO_ERROR } : Sys).mem 0x7C % 256 ≠ 0xAA := by
    simpa using h
  have hw : (EEPROM_writeString { s with appErr := APPDATA_NO_ERROR } 0
      (some APPDATA_DEFAULT_PASSWORD)).2.mem
      = (EEPROM_writeString s 0 (some APPDATA_DEFAULT_PASSWORD)).2.mem := by
    funext x
    rw [(writeString_ok _ 0 APPDATA_DEFAULT_PASSWORD (by decide)).2.2 x,
      (writeString_ok s 0 APPDATA_DEFAULT_PASSWORD (by decide)).2.2 x]
  unfold AppData_init
  simp only [isFirstTime_eq, if_pos hf, initializeDefaults_eq]
  exact ⟨by simpa using hw, by simp⟩

/-- C13: for every store state, running `AppData_init()` twice leaves exactly
the same cells as running it once; and for every store whose byte at 0x007C
equals 0xAA, `AppData_init()` changes no cell. -/
theorem C13_init_idempotent (s : Sys) :
    (AppData_init (AppData_init s)).mem = (AppData_init s).mem ∧
    (s.mem 0x7C % 256 = 0xAA → (AppData_init s).mem = s.mem) := by
  refine ⟨?_, fun h => by rw [init_initialized s h]⟩
  by_cases h : s.mem 0x7C % 256 = 0xAA
  · rw [init_initialized s h, init_initialized _ (by simpa using h)]
  · obtain ⟨g1, _⟩ := init_first_time s h
    have hflag : (AppData_init s).mem 0x7C % 256 ≠ 0xAA := by
      rw [g1, (writeString_ok s 0 APPDATA_DEFAULT_PASSWORD (by decide)).2.2 0x7C,
        if_neg (by decide)]
      exact h
    obtain ⟨g2, _⟩ := init_first_time (AppData_init s) hflag
    rw [g2, g1]
    funext x
    rw [(writeString_ok _ 0 APPDATA_DEFAULT_PASSWORD (by decide)).2.2 x,
      (writeString_ok s 0 APPDATA_DEFAULT_PASSWORD (by decide)).2.2 x]
    split_ifs
    · rfl
    · rw [g1, (writeString_ok s 0 APPDATA_DEFAULT_PASSWORD (by decide)).2.2 x, if_neg ‹_›]

/-- C13 on the erased store after `AppData_markAsInitialized()`, whose byte at
0x007C is 0xAA: `AppData_init()` changes no cell; and on the erased store
itself a second `AppData_init()` changes nothing more. -/
theorem C13_init_idempotent_witness :
    (AppData_markAsInitialized erasedSys).2.mem 0x7C % 256 = 0xAA ∧
    (AppData_init (AppData_markAsInitialized erasedSys).2).mem
      = (AppData_markAsInitialized erasedSys).2.mem ∧
    (AppData_init (AppData_init erasedSys)).mem = (AppData_init erasedSys).mem :=
  ⟨by decide,
   (C13_init_idempotent (AppData_markAsInitialized erasedSys).2).2 (by decide),
   (C13_init_idempotent erasedSys).1⟩

/-! ## C14: calibration record -/

/-- Reading `n` cells that hold the bytes of `v`, least significant first. -/
theorem readLE_of_cells (s : Sys) (address w n v : Nat) (h : address + n ≤ 1024)
    (hw : 8 * n ≤ w)
    (hc : ∀ j, j < n → s.mem (address + j) % 256 = v / 2 ^ (8 * j) % 256) :
    (EEPROM_readLE_loop address w n 0 0 s).1 = v % 2 ^ (8 * n) := by
  have hb := readLE_loop_bytes address w v n 0 s (by omega) (by omega) (by
    intro j hj
    have := hc j hj
    simpa using this)
  simpa [Nat.mod_one] using hb

theorem int32_round_trip (x : Int) (hlo : -2 ^ 31 ≤ x) (hhi : x < 2 ^ 31) :
    uint32_to_int32 (int32_to_uint32 x) = x := by
  have hu : ((int32_to_uint32 x : Nat) : Int) = x % 2 ^ 32 := by
    unfold int32_to_uint32
    exact Int.toNat_of_nonneg (Int.emod_nonneg _ (by norm_num))
  have hlt : int32_to_uint32 x < 2 ^ 32 := by
    have : ((int32_to_uint32 x : Nat) : Int) < 2 ^ 32 := by
      rw [hu]; exact Int.emod_lt_of_pos _ (by norm_num)
    exact_mod_cast this
  unfold uint32_to_int32
  rw [Nat.mod_eq_of_lt hlt]
  split_ifs with h
  · have h' : ((int32_to_uint32 x : Nat) : Int) < 2 ^ 31 := by exact_mod_cast h
    rw [hu] at h' ⊢
    norm_num at hlo hhi h' ⊢
    omega
  · have h' : (2 : Int) ^ 31 ≤ ((int32_to_uint32 x : Nat) : Int) := by
      have : 2 ^ 31 ≤ int32_to_uint32 x := Nat.le_of_not_lt h
      exact_mod_cast this
    rw [hu] at h' ⊢
    norm_num at hlo hhi h' ⊢
    omega

theorem int32_to_uint32_lt (x : Int) : int32_to_uint32 x < 2 ^ 32 := by
  have hu : ((int32_to_uint32 x : Nat) : Int) = x % 2 ^ 32 := by
    unfold int32_to_uint32
    exact Int.toNat_of_nonneg (Int.emod_nonneg _ (by norm_num))
  have : ((int32_to_uint32 x : Nat) : Int) < 2 ^ 32 := by
    rw [hu]; exact Int.emod_lt_of_pos _ (by norm_num)
  exact_mod_cast this

/-- The cells after `AppData_saveCalibration`, and its status. -/
theorem saveCalibration_ok (s : Sys) (scale : Nat) (offset : Int) :
    (AppData_saveCalibration s scale offset).1 = APPDATA_NO_ERROR ∧
    ∀ x, (AppData_saveCalibration s scale offset).2.mem x =
      if x = 0x89 then 0x55
      else if 0x85 ≤ x ∧ x < 0x89 then (int32_to_uint32 offset >>> ((x - 0x85) * 8)) % 256
      else if 0x7D ≤ x ∧ x < 0x85 then ((scale % 2 ^ 64) >>> ((x - 0x7D) * 8)) % 256
      else s.mem x := by
  obtain ⟨a1, _, a3⟩ := writeLE_loop_ok 0x7D (scale % 2 ^ 64) 8 0 s (by decide)
  obtain ⟨b1, _, b3⟩ := writeLE_loop_ok 0x85 (int32_to_uint32 offset % 2 ^ 32) 4 0
    (EEPROM_writeLE_loop 0x7D (scale % 2 ^ 64) 8 0 s).2 (by decide)
  have e : AppData_saveCalibration s scale offset =
      AppData_markAsCalibrated (EEPROM_writeLE_loop 0x85 (int32_to_uint32 offset % 2 ^ 32) 4 0
        (EEPROM_writeLE_loop 0x7D (scale % 2 ^ 64) 8 0 s).2).2 := by
    simp only [AppData_saveCalibration, APPDATA_HX711_SCALE_ADDRESS,
      APPDATA_HX711_OFFSET_ADDRESS, APPDATA_HX711_OFFSET_SIZE,
      writeDouble_ok s 0x7D scale (by decide), a1,
      writeInteger_ok _ 0x85 (int32_to_uint32 offset) 4 (Or.inr rfl) (by decide), b1]
    simp
  rw [e]
  simp only [AppData_markAsCalibrated, APPDATA_HX711_CALIBRATED_FLAG_ADDRESS,
    APPDATA_HX711_CALIBRATED_VALUE, writeByte_ok _ 0x89 0x55 (by decide), convertEepromError_ok]
  refine ⟨trivial, fun x => ?_⟩
  simp only [setByte]
  by_cases h1 : x = 0x89
  · simp [h1]
  · rw [if_neg h1, if_neg h1, b3 x, a3 x, Nat.mod_eq_of_lt (int32_to_uint32_lt offset)]

theorem isCalibrated_eq (t : Sys) :
    AppData_isCalibrated t = (if t.mem 0x89 % 256 = 0x55 then 1 else 0, t) := by
  simp only [AppData_isCalibrated, APPDATA_HX711_CALIBRATED_FLAG_ADDRESS,
    APPDATA_HX711_CALIBRATED_VALUE, readByte_ok t 0x89 (by decide)]
  split_ifs <;> rfl

/-- The values `AppData_loadCalibration` returns, from the cells. -/
theorem loadCalibration_eq (t : Sys) (p : Nat) (q : Int) :
    AppData_loadCalibration t (some p) (some q) =
      (APPDATA_NO_ERROR, some (EEPROM_readLE_loop 0x7D 64 8 0 0 t).1,
        some (uint32_to_int32 (EEPROM_readLE_loop 0x85 32 4 0 0 t).1), t) := by
  have h1 : (EEPROM_readLE_loop 0x7D 64 8 0 0 t).2 = t :=
    readLE_loop_state 0x7D 64 8 0 0 t (by decide)
  have h2 : (EEPROM_readLE_loop 0x85 32 4 0 0 t).2 = t :=
    readLE_loop_state 0x85 32 4 0 0 t (by decide)
  simp only [AppData_loadCalibration, APPDATA_HX711_SCALE_ADDRESS, APPDATA_HX711_OFFSET_ADDRESS,
    APPDATA_HX711_OFFSET_SIZE, readDouble_ok t 0x7D (by decide), h1,
    readInteger_ok t 0x85 4 (Or.inr rfl) (by decide), h2]

/-- C14: for every 64-bit scale pattern, every signed 32-bit offset and every
store state, `AppData_saveCalibration(scale, offset)` returns
`APPDATA_NO_ERROR`; afterwards `AppData_loadCalibration` returns
`APPDATA_NO_ERROR` and yields the same scale pattern and the same signed
offset, and `AppData_isCalibrated()` returns 1. On every store,
`AppData_isCalibrated()` returns 1 exactly when the byte at 0x0089 equals 0x55. -/
theorem C14_calibration_round_trip (s : Sys) (scale : Nat) (offset : Int) (p : Nat) (q : Int)
    (hs : scale < 2 ^ 64) (hlo : -2 ^ 31 ≤ offset) (hhi : offset < 2 ^ 31) :
    (AppData_saveCalibration s scale offset).1 = APPDATA_NO_ERROR ∧
    (AppData_loadCalibration (AppData_saveCalibration s scale offset).2 (some p) (some q)).1
      = APPDATA_NO_ERROR ∧
    (AppData_loadCalibration (AppData_saveCalibration s scale offset).2 (some p) (some q)).2.1
      = some scale ∧
    (AppData_loadCalibration (AppData_saveCalibration s scale offset).2 (some p) (some q)).2.2.1
      = some offset ∧
    (AppData_isCalibrated (AppData_saveCalibration s scale offset).2).1 = 1 ∧
    (∀ t : Sys, (AppData_isCalibrated t).1 = 1 ↔ t.mem 0x89 % 256 = 0x55) := by
  obtain ⟨g1, g2⟩ := saveCalibration_ok s scale offset
  have hscale : (EEPROM_readLE_loop 0x7D 64 8 0 0 (AppData_saveCalibration s scale offset).2).1
      = scale := by
    rw [readLE_of_cells _ 0x7D 64 8 scale (by decide) (by decide) (by
      intro j hj
      rw [g2 (0x7D + j), if_neg (by omega), if_neg (by omega), if_pos (by omega), Nat.mod_mod,
        Nat.shiftRight_eq_div_pow, Nat.mod_eq_of_lt hs]
      have e : (0x7D + j - 0x7D) * 8 = 8 * j := by omega
      rw [e])]
    exact Nat.mod_eq_of_lt hs
  have hoff : (EEPROM_readLE_loop 0x85 32 4 0 0 (AppData_saveCalibration s scale offset).2).1
      = int32_to_uint32 offset := by
    rw [readLE_of_cells _ 0x85 32 4 (int32_to_uint32 offset) (by decide) (by decide) (by
      intro j hj
      rw [g2 (0x85 + j), if_neg (by omega), if_pos (by omega), Nat.mod_mod,
        Nat.shiftRight_eq_div_pow]
      have e : (0x85 + j - 0x85) * 8 = 8 * j := by omega
      rw [e])]
    exact Nat.mod_eq_of_lt (int32_to_uint32_lt offset)
  refine ⟨g1, ?_, ?_, ?_, ?_, fun t => ?_⟩
  · rw [loadCalibration_eq]
  · rw [loadCalibration_eq, hscale]
  · rw [loadCalibration_eq, hoff, int32_round_trip offset hlo hhi]
  · rw [isCalibrated_eq, g2 0x89]
    simp
  · rw [isCalibrated_eq]
    by_cases h : t.mem 0x89 % 256 = 0x55 <;> simp [h]

/-- C14 for the scale `10000.0` and the offset `-8000000` on the erased store. -/
theorem C14_calibration_round_trip_witness :
    ((0x40C3880000000000 : Nat) < 2 ^ 64 ∧ (-2 ^ 31 : Int) ≤ -8000000 ∧
      (-8000000 : Int) < 2 ^ 31) ∧
    (AppData_saveCalibration erasedSys 0x40C3880000000000 (-8000000)).1 = APPDATA_NO_ERROR ∧
    (AppData_loadCalibration (AppData_saveCalibration erasedSys 0x40C3880000000000 (-8000000)).2
      (some 0) (some 0)).2.1 = some 0x40C3880000000000 ∧
    (AppData_loadCalibration (AppData_saveCalibration erasedSys 0x40C3880000000000 (-8000000)).2
      (some 0) (some 0)).2.2.1 = some (-8000000) ∧
    (AppData_isCalibrated (AppData_saveCalibration erasedSys 0x40C3880000000000 (-8000000)).2).1
      = 1 :=
  have h := C14_calibration_round_trip erasedSys 0x40C3880000000000 (-8000000) 0 0
    (by norm_num) (by norm_num) (by norm_num)
  ⟨⟨by norm_num, by norm_num, by norm_num⟩, h.1, h.2.2.1, h.2.2.2.1, h.2.2.2.2.1⟩

/-! ## C17, C18: `EEPROM_readString` and `EEPROM_readBlock` at the end of the store -/

theorem readString_expected_eq (mem : Nat → Nat) (start maxLength : Nat) :
    readString_expected mem start maxLength
      = readString_expectedFrom mem start 0 (maxLength - 1) := by
  simp only [readString_expected, readString_expectedFrom, List.range_eq_range']

theorem readString_expectedFrom_succ (mem : Nat → Nat) (start i n : Nat) :
    readString_expectedFrom mem start i (n + 1)
      = if mem (start + i) % 256 = 0 then []
        else mem (start + i) % 256 :: readString_expectedFrom mem start (i + 1) n := by
  simp only [readString_expectedFrom, List.range'_succ, List.map_cons, List.takeWhile_cons]
  by_cases h : mem (start + i) % 256 = 0 <;> simp [h]

/-- The read loop of `EEPROM_readString` on cells that are all in range. -/
theorem readString_loop_general (start : Nat) (s : Sys) :
    ∀ (n i : Nat) (buf : Nat → Nat), start + i + n ≤ 1024 →
      (EEPROM_readString_loop start n i buf s).1
        = i + (readString_expectedFrom s.mem start i n).length ∧
      (EEPROM_readString_loop start n i buf s).2.2 = s ∧
      (∀ k, k < i → (EEPROM_readString_loop start n i buf s).2.1 k = buf k) ∧
      (∀ k, k < (readString_expectedFrom s.mem start i n).length →
        (EEPROM_readString_loop start n i buf s).2.1 (i + k)
          = (readString_expectedFrom s.mem start i n).getD k 0) := by
  intro n
  induction n with
  | zero =>
    intro i buf _
    refine ⟨by simp [EEPROM_readString_loop, readString_expectedFrom], rfl, fun k _ => rfl, ?_⟩
    intro k hk
    simp [readString_expectedFrom] at hk
  | succ n ih =>
    intro i buf h
    have hmod : (start + i) % 65536 = start + i := Nat.mod_eq_of_lt (by omega)
    have hrd := readByte_ok s (start + i) (by omega)
    simp only [EEPROM_readString_loop, hmod, hrd, readString_expectedFrom_succ]
    by_cases hz : s.mem (start + i) % 256 = 0
    · simp only [hz, if_true, List.length_nil, Nat.add_zero]
      refine ⟨trivial, trivial, fun k hk => ?_, fun k hk => ?_⟩
      · simp only [setByte]; rw [if_neg (by omega)]
      · exact absurd hk (Nat.not_lt_zero k)
    · simp only [hz, if_false, List.length_cons]
      obtain ⟨g1, g2, g3, g4⟩ := ih (i + 1) (setByte buf i (s.mem (start + i) % 256)) (by omega)
      refine ⟨by rw [g1]; omega, g2, fun k hk => ?_, fun k hk => ?_⟩
      · rw [g3 k (by omega)]
        simp only [setByte]; rw [if_neg (by omega)]
      · cases k with
        | zero =>
          have := g3 i (by omega)
          simpa [setByte] using this
        | succ m =>
          have := g4 m (by omega)
          have e : i + (m + 1) = i + 1 + m := by omega
          rw [e, this, List.getD_cons_succ]

/-- What `takeWhile` on non-zero keeps: a first segment of non-zero entries
that ends at the end of the list or before a zero. -/
theorem takeWhile_ne_zero_spec (l : List Nat) :
    (l.takeWhile (fun b => b != 0)).length ≤ l.length ∧
    (∀ j, j < (l.takeWhile (fun b => b != 0)).length →
      (l.takeWhile (fun b => b != 0)).getD j 0 = l.getD j 0 ∧ l.getD j 0 ≠ 0) ∧
    ((l.takeWhile (fun b => b != 0)).length < l.length →
      l.getD (l.takeWhile (fun b => b != 0)).length 0 = 0) := by
  induction l with
  | nil => simp
  | cons b l ih =>
    by_cases hb : b = 0
    · simp [List.takeWhile_cons, hb]
    · obtain ⟨h1, h2, h3⟩ := ih
      have e : (b :: l).takeWhile (fun b => b != 0) = b :: l.takeWhile (fun b => b != 0) := by
        simp [List.takeWhile_cons, hb]
      rw [e]
      refine ⟨by simpa using h1, fun j hj => ?_, fun hlt => ?_⟩
      · cases j with
        | zero => simpa using hb
        | succ m =>
          simp only [List.length_cons, Nat.add_lt_add_iff_right] at hj
          simpa using h2 m hj
      · simp only [List.length_cons, Nat.add_lt_add_iff_right] at hlt
        simpa using h3 hlt

theorem getD_map_range (f : Nat → Nat) (n j : Nat) (hj : j < n) :
    ((List.range n).map f).getD j 0 = f j := by
  rw [List.getD_eq_getElem _ _ (by simpa using hj)]
  simp

theorem readByte_eeErr (s : Sys) (a : Nat) :
    (EEPROM_readByte s a).2.mem = s.mem ∧
    (EEPROM_readByte s a).2.eeErr = (if a ≤ 1023 then s.eeErr else EEPROM_ADDRESS_ERROR) := by
  by_cases h : a ≤ 1023
  · rw [readByte_ok s a h, if_pos h]
    exact ⟨rfl, rfl⟩
  · rw [readByte_bad s a (by omega), if_neg h]
    exact ⟨rfl, rfl⟩

/-- Once the address error is in the slot of `eeprom.c`, the read loop of
`EEPROM_readString` leaves it there. -/
theorem readString_loop_sticky (start : Nat) :
    ∀ (n i : Nat) (buf : Nat → Nat) (s : Sys), s.eeErr = EEPROM_ADDRESS_ERROR →
      (EEPROM_readString_loop start n i buf s).2.2.eeErr = EEPROM_ADDRESS_ERROR := by
  intro n
  induction n with
  | zero => intro i buf s h; exact h
  | succ n ih =>
    intro i buf s h
    have he : (EEPROM_readByte s ((start + i) % 65536)).2.eeErr = EEPROM_ADDRESS_ERROR := by
      rw [(readByte_eeErr s _).2]
      split_ifs
      · exact h
      · rfl
    simp only [EEPROM_readString_loop]
    split_ifs
    · exact he
    · exact ih (i + 1) _ _ he

/-- A read loop of `EEPROM_readString` that meets no zero byte before the end
of the store and has iterations left there reads address 1024 and records the
address error. -/
theorem readString_loop_crosses (start : Nat) :
    ∀ (n i : Nat) (buf : Nat → Nat) (s : Sys), start + i ≤ 1024 →
      (∀ a, start + i ≤ a → a < 1024 → s.mem a % 256 ≠ 0) → 1024 < start + i + n →
      (EEPROM_readString_loop start n i buf s).2.2.eeErr = EEPROM_ADDRESS_ERROR := by
  intro n
  induction n with
  | zero => intro i buf s h1 _ h3; omega
  | succ n ih =>
    intro i buf s h1 h2 h3
    have hmod : (start + i) % 65536 = start + i := Nat.mod_eq_of_lt (by omega)
    simp only [EEPROM_readString_loop, hmod]
    by_cases hend : start + i = 1024
    · rw [readByte_bad s (start + i) (by omega)]
      have hne : ¬ ((0xFF, ({ s with eeErr := EEPROM_ADDRESS_ERROR } : Sys)) : Nat × Sys).1 = 0 := by
        simp
      rw [if_neg hne]
      exact readString_loop_sticky start n (i + 1) _ _ rfl
    · rw [readByte_ok s (start + i) (by omega)]
      rw [if_neg (h2 (start + i) (Nat.le_refl _) (by omega))]
      exact ih (i + 1) _ s (by omega) (fun a ha hb => h2 a (by omega) hb) (by omega)

theorem readBlock_rejects (s : Sys) (startAddress : Nat) (buf : Nat → Nat) (length : Nat)
    (h : 1024 < startAddress + length) (hw : startAddress + length ≤ 65536) :
    EEPROM_readBlock s startAddress (some buf) length =
      (EEPROM_ADDRESS_ERROR, some buf, { s with eeErr := EEPROM_ADDRESS_ERROR }) := by
  have hv : (!EEPROM_validateAddress startAddress ||
      !EEPROM_validateAddress ((startAddress + length + 65536 - 1) % 65536)) = true := by
    simp only [EEPROM_validateAddress, EEPROM_END_ADDRESS, EEPROM_SIZE, Bool.or_eq_true,
      Bool.not_eq_true', decide_eq_false_iff_not]
    omega
  simp only [EEPROM_readBlock, hv]
  simp

/-- The span check of `EEPROM_readBlock` with a wrapped end address:
`EEPROM_readBlock(1000, data, 65000)` passes it and returns `EEPROM_NO_ERROR`. -/
theorem readBlock_wrapped_span :
    (EEPROM_readBlock erasedSys 1000 (some (fun _ => 0)) 65000).1 = EEPROM_NO_ERROR := by
  decide

/-- C17 (fails on the code): `EEPROM_readString(1020, buf, 16)` on the erased
store. No byte in [1020, 1024) is zero and 1020 + 16 - 1 > 1024, so the loop
reads addresses 1024..1034; each such read gives `0xFF` and records the
address error, but the call returns `EEPROM_NO_ERROR`. -/
theorem C17_readString_past_end :
    (1024 : Nat) < 1020 + 16 - 1 ∧
    (erasedSys.mem 1020 % 256 ≠ 0 ∧ erasedSys.mem 1021 % 256 ≠ 0 ∧
      erasedSys.mem 1022 % 256 ≠ 0 ∧ erasedSys.mem 1023 % 256 ≠ 0) ∧
    (EEPROM_readString erasedSys 1020 (some (fun _ => 0)) 16).1 = EEPROM_NO_ERROR ∧
    EEPROM_getLastError (EEPROM_readString erasedSys 1020 (some (fun _ => 0)) 16).2.2
      = EEPROM_ADDRESS_ERROR ∧
    (EEPROM_readString erasedSys 1020 (some (fun _ => 0)) 16).2.1.map
      (fun out => (List.range 16).map out)
        = some [0xFF, 0xFF, 0xFF, 0xFF, 0xFF, 0xFF, 0xFF, 0xFF, 0xFF, 0xFF, 0xFF, 0xFF, 0xFF,
            0xFF, 0xFF, 0] := by
  refine ⟨by decide, by decide, by decide, by decide, by decide⟩

/-- C17, amended: a span of `EEPROM_readBlock` that ends past the store, with
no 16-bit wrap of its end address, is refused with `EEPROM_ADDRESS_ERROR`.
`EEPROM_readString` checks its start address only: from 1024 on it returns
`EEPROM_ADDRESS_ERROR`; below 1024, with `maxLength >= 1`, it returns
`EEPROM_NO_ERROR`, and when it then reads past the end of the store (no zero
byte in `[startAddress, 1024)` and `startAddress + maxLength - 1 > 1024`),
`EEPROM_getLastError()` afterwards is `EEPROM_ADDRESS_ERROR`. -/
theorem C17_reads_across_end (s : Sys) (startAddress : Nat) (buf : Nat → Nat) :
    (∀ length, 1024 < startAddress + length → startAddress + length ≤ 65536 →
      (EEPROM_readBlock s startAddress (some buf) length).1 = EEPROM_ADDRESS_ERROR) ∧
    (∀ maxLength, 1024 ≤ startAddress →
      (EEPROM_readString s startAddress (some buf) maxLength).1 = EEPROM_ADDRESS_ERROR) ∧
    (∀ maxLength, startAddress < 1024 → 1 ≤ maxLength →
      (EEPROM_readString s startAddress (some buf) maxLength).1 = EEPROM_NO_ERROR) ∧
    (∀ maxLength, startAddress < 1024 →
      (∀ a, startAddress ≤ a → a < 1024 → s.mem a % 256 ≠ 0) →
      1024 < startAddress + (maxLength - 1) →
      EEPROM_getLastError (EEPROM_readString s startAddress (some buf) maxLength).2.2
        = EEPROM_ADDRESS_ERROR) := by
  refine ⟨fun length h hw => ?_, fun maxLength h => ?_, fun maxLength h hm => ?_,
    fun maxLength h hnz hx => ?_⟩
  · rw [readBlock_rejects s startAddress buf length h hw]
  · have hv : EEPROM_validateAddress startAddress = false :=
      (validateAddress_false_iff startAddress).2 (by omega)
    by_cases h0 : maxLength = 0 <;> simp [EEPROM_readString, hv, h0]
  · have hv : EEPROM_validateAddress startAddress = true :=
      (validateAddress_iff startAddress).2 (by omega)
    have h0 : ¬ maxLength = 0 := by omega
    simp only [EEPROM_readString, hv, if_neg h0]
    simp
  · have hv : EEPROM_validateAddress startAddress = true :=
      (validateAddress_iff startAddress).2 (by omega)
    have h0 : ¬ maxLength = 0 := by omega
    have hc := readString_loop_crosses startAddress (maxLength - 1) 0 buf s (by omega)
      (fun a ha hb => hnz a (by omega) hb) (by omega)
    simp only [EEPROM_readString, hv, if_neg h0, EEPROM_getLastError]
    simpa using hc

/-- C17, amended, on the erased store: the block of 8 bytes at 1020 is
refused, the string read at 1024 is refused, the string read at 1020 of up to
15 bytes is served and leaves the address error in the slot. -/
theorem C17_reads_across_end_witness :
    ((1024 : Nat) < 1020 + 8 ∧ (1020 : Nat) + 8 ≤ 65536 ∧ (1024 : Nat) < 1020 + (16 - 1)) ∧
    (EEPROM_readBlock erasedSys 1020 (some (fun _ => 0)) 8).1 = EEPROM_ADDRESS_ERROR ∧
    (EEPROM_readString erasedSys 1024 (some (fun _ => 0)) 16).1 = EEPROM_ADDRESS_ERROR ∧
    (EEPROM_readString erasedSys 1020 (some (fun _ => 0)) 16).1 = EEPROM_NO_ERROR ∧
    EEPROM_getLastError (EEPROM_readString erasedSys 1020 (some (fun _ => 0)) 16).2.2
      = EEPROM_ADDRESS_ERROR :=
  ⟨by decide,
   (C17_reads_across_end erasedSys 1020 (fun _ => 0)).1 8 (by decide) (by decide),
   (C17_reads_across_end erasedSys 1024 (fun _ => 0)).2.1 16 (by decide),
   (C17_reads_across_end erasedSys 1020 (fun _ => 0)).2.2.1 16 (by decide) (by decide),
   (C17_reads_across_end erasedSys 1020 (fun _ => 0)).2.2.2 16 (by decide)
     (fun _ _ _ => (by decide : (0xFF : Nat) % 256 ≠ 0)) (by decide)⟩

/-- C18 (fails on the code): `EEPROM_readString(1024, buf, 1)`. Here
`maxLength >= 1` and `startAddress + maxLength - 1 <= 1024`, and the call would
read no byte at all, but the start address 1024 is refused:
the call returns `EEPROM_ADDRESS_ERROR`. -/
theorem C18_readString_start_1024 :
    ((1 : Nat) ≤ 1 ∧ (1024 : Nat) + 1 - 1 ≤ 1024) ∧
    (EEPROM_readString erasedSys 1024 (some (fun _ => 0)) 1).1 = EEPROM_ADDRESS_ERROR := by
  refine ⟨by decide, by decide⟩

/-- C18, amended: for every store state, every `startAddress < 1024` and every
`maxLength >= 1` with `startAddress + maxLength - 1 <= 1024`,
`EEPROM_readString` returns `EEPROM_NO_ERROR`, changes nothing in the store, and
the buffer receives the stored bytes at `startAddress`, `startAddress + 1`, ...
up to but excluding the first zero byte, cut to at most `maxLength - 1` bytes,
followed by a zero terminator: the kept bytes are stored bytes, none is zero,
there are at most `maxLength - 1` of them, and when there are fewer the next
stored byte is zero. With `maxLength = 0` the call returns
`EEPROM_ADDRESS_ERROR`. -/
theorem C18_readString_truncates (s : Sys) (startAddress maxLength : Nat) (buf : Nat → Nat)
    (hstart : startAddress < 1024) (hmax : 1 ≤ maxLength)
    (hspan : startAddress + maxLength - 1 ≤ 1024) :
    (EEPROM_readString s startAddress (some buf) maxLength).1 = EEPROM_NO_ERROR ∧
    (EEPROM_readString s startAddress (some buf) maxLength).2.2 = s ∧
    (EEPROM_readString s startAddress (some buf) maxLength).2.1.map
      (fun out =>
        (List.range ((readString_expected s.mem startAddress maxLength).length + 1)).map out)
      = some (readString_expected s.mem startAddress maxLength ++ [0]) ∧
    (readString_expected s.mem startAddress maxLength).length ≤ maxLength - 1 ∧
    (∀ j, j < (readString_expected s.mem startAddress maxLength).length →
      (readString_expected s.mem startAddress maxLength).getD j 0
          = s.mem (startAddress + j) % 256 ∧
        s.mem (startAddress + j) % 256 ≠ 0) ∧
    ((readString_expected s.mem startAddress maxLength).length < maxLength - 1 →
      s.mem (startAddress + (readString_expected s.mem startAddress maxLength).length) % 256
        = 0) ∧
    (∀ b : Option (Nat → Nat),
      (EEPROM_readString s startAddress b 0).1 = EEPROM_ADDRESS_ERROR) := by
  have hv : EEPROM_validateAddress startAddress = true :=
    (validateAddress_iff startAddress).2 (by omega)
  have h0 : ¬ maxLength = 0 := by omega
  obtain ⟨g1, g2, _, g4⟩ := readString_loop_general startAddress s (maxLength - 1) 0 buf
    (by omega)
  rw [← readString_expected_eq] at g1 g4
  have ht := takeWhile_ne_zero_spec
    ((List.range (maxLength - 1)).map (fun j => s.mem (startAddress + j) % 256))
  have hlen : ((List.range (maxLength - 1)).map
      (fun j => s.mem (startAddress + j) % 256)).length = maxLength - 1 := by simp
  have hE : ((List.range (maxLength - 1)).map
      (fun j => s.mem (startAddress + j) % 256)).takeWhile (fun b => b != 0)
        = readString_expected s.mem startAddress maxLength := rfl
  rw [hE, hlen] at ht
  obtain ⟨t1, t2, t3⟩ := ht
  refine ⟨?_, ?_, ?_, t1, fun j hj => ?_, fun hlt => ?_, fun b => ?_⟩
  · simp only [EEPROM_readString, hv, if_neg h0]
    simp
  · simp only [EEPROM_readString, hv, if_neg h0]
    simpa using g2
  · simp only [EEPROM_readString, hv, if_neg h0, Bool.not_true, Bool.false_eq_true, if_false,
      Option.map_some', g1, Nat.zero_add]
    congr 1
    apply map_range_eq_append_zero
    · intro k hk
      simp only [setByte]
      rw [if_neg (by omega)]
      have := g4 k hk
      rwa [Nat.zero_add] at this
    · simp [setByte]
  · have hj' : j < maxLength - 1 := lt_of_lt_of_le hj t1
    have := t2 j hj
    rw [getD_map_range _ _ _ hj'] at this
    exact this
  · have := t3 hlt
    rwa [getD_map_range _ _ _ hlt] at this
  · cases b with
    | none => rfl
    | some b => simp [EEPROM_readString]

/-- C18, amended, on the erased store after writing "Mango" at address 0x40:
a read with `maxLength = 4` is cut to "Man" and a zero, a read with
`maxLength = 16` gives "Mango" and a zero. -/
theorem C18_readString_truncates_witness :
    ((0x40 : Nat) < 1024 ∧ (1 : Nat) ≤ 4 ∧ (0x40 : Nat) + 4 - 1 ≤ 1024) ∧
    readString_expected (EEPROM_writeString erasedSys 0x40 (some APPDATA_DEFAULT_ITEM3_NAME)).2.mem
      0x40 4 = [77, 97, 110] ∧
    readString_expected (EEPROM_writeString erasedSys 0x40 (some APPDATA_DEFAULT_ITEM3_NAME)).2.mem
      0x40 16 = APPDATA_DEFAULT_ITEM3_NAME ∧
    (EEPROM_readString (EEPROM_writeString erasedSys 0x40 (some APPDATA_DEFAULT_ITEM3_NAME)).2
      0x40 (some (fun _ => 0x5A)) 4).1 = EEPROM_NO_ERROR ∧
    (EEPROM_readString (EEPROM_writeString erasedSys 0x40 (some APPDATA_DEFAULT_ITEM3_NAME)).2
      0x40 (some (fun _ => 0x5A)) 4).2.1.map
        (fun out => (List.range ((readString_expected
          (EEPROM_writeString erasedSys 0x40 (some APPDATA_DEFAULT_ITEM3_NAME)).2.mem
          0x40 4).length + 1)).map out)
      = some (readString_expected
          (EEPROM_writeString erasedSys 0x40 (some APPDATA_DEFAULT_ITEM3_NAME)).2.mem
          0x40 4 ++ [0]) :=
  have h := C18_readString_truncates
    (EEPROM_writeString erasedSys 0x40 (some APPDATA_DEFAULT_ITEM3_NAME)).2 0x40 4
    (fun _ => 0x5A) (by decide) (by decide) (by decide)
  ⟨by decide, by decide, by decide, h.1, h.2.2.1⟩

/-! ## C15: every save stays inside its own field -/

theorem savePassword_frame (s : Sys) (p : Option (List Nat)) :
    ChangesOnly s (AppData_savePassword s p).2 0x00 0x10 := by
  intro x hx
  cases p with
  | none => rfl
  | some p =>
    by_cases hp : p.length ≤ 15
    · rw [savePassword_eq s p hp]
      simp only
      rw [(writeString_ok s 0 p (by omega)).2.2 x, if_neg (by omega)]
    · have hlen : p.length > APPDATA_MAX_PASSWORD_LENGTH := by
        simp only [APPDATA_MAX_PASSWORD_LENGTH]; omega
      simp only [AppData_savePassword, if_pos hlen]

theorem saveItemPrice_frame (s : Sys) (i p : Nat) (h1 : 1 ≤ i) (h5 : i ≤ 5) :
    ChangesOnly s (AppData_saveItemPrice s i p).2 (0x10 + 4 * (i - 1)) (0x10 + 4 * i) := by
  intro x hx
  by_cases hchk : (f32_lt p APPDATA_MIN_PRICE || f32_lt APPDATA_MAX_PRICE p) = false
  · rw [(saveItemPrice_ok s i p h1 h5 hchk).2,
      (writeLE_loop_ok (16 + 4 * (i - 1)) (p % 2 ^ 32) 4 0 s (by omega)).2.2 x,
      if_neg (by omega)]
  · have hidx : ¬ (i < 1 ∨ i > APPDATA_NUM_ITEMS) := by
      simp only [APPDATA_NUM_ITEMS]; omega
    simp only [Bool.not_eq_false] at hchk
    simp only [AppData_saveItemPrice, if_neg hidx, hchk, if_true]

theorem saveTotalIncome_mem (s : Sys) (v : Nat) (h : f64_lt v 0 = false) :
    (AppData_saveTotalIncome s v).2.mem = (EEPROM_writeLE_loop 36 (v % 2 ^ 64) 8 0 s).2.mem := by
  have hw := (writeLE_loop_ok 36 (v % 2 ^ 64) 8 0 s (by omega)).1
  have e : AppData_saveTotalIncome s v =
      AppData_convertEepromError (EEPROM_writeLE_loop 36 (v % 2 ^ 64) 8 0 s).2
        (EEPROM_writeLE_loop 36 (v % 2 ^ 64) 8 0 s).1 := by
    simp only [AppData_saveTotalIncome, h, APPDATA_TOTAL_INCOME_ADDRESS,
      writeDouble_ok s 36 v (by omega)]
    simp
  rw [e, hw, convertEepromError_ok]

theorem saveTotalIncome_frame (s : Sys) (v : Nat) :
    ChangesOnly s (AppData_saveTotalIncome s v).2 0x24 0x2C := by
  intro x hx
  by_cases h : f64_lt v 0 = true
  · rw [saveTotalIncome_bad s v h]
  · simp only [Bool.not_eq_true] at h
    rw [saveTotalIncome_mem s v h, (writeLE_loop_ok 36 (v % 2 ^ 64) 8 0 s (by omega)).2.2 x,
      if_neg (by omega)]

theorem addToTotalIncome_frame (fadd : Nat → Nat → Nat) (s : Sys) (d : Nat) :
    ChangesOnly s (AppData_addToTotalIncome fadd s d).2 0x24 0x2C := by
  by_cases h : f64_lt (fadd (AppData_loadTotalIncome s).1 d) 0 = true
  · rw [addToTotalIncome_bad fadd s d h]
    intro x _
    rfl
  · simp only [Bool.not_eq_true] at h
    rw [addToTotalIncome_ok fadd s d h]
    exact saveTotalIncome_frame s _

theorem getItemNameAddress_eq (i : Nat) (h1 : 1 ≤ i) (h5 : i ≤ 5) :
    AppData_getItemNameAddress i = 44 + 16 * (i - 1) := by
  interval_cases i <;> rfl

theorem saveItemName_eq (s : Sys) (i : Nat) (name : List Nat) (h1 : 1 ≤ i) (h5 : i ≤ 5)
    (hn : name.length ≤ 15) :
    AppData_saveItemName s i (some name) =
      (APPDATA_NO_ERROR,
        { (EEPROM_writeString s (44 + 16 * (i - 1)) (some name)).2 with
          appErr := APPDATA_NO_ERROR }) := by
  have hidx : ¬ (i < 1 ∨ i > APPDATA_NUM_ITEMS) := by
    simp only [APPDATA_NUM_ITEMS]; omega
  have hlen : ¬ name.length > APPDATA_MAX_ITEM_NAME_LENGTH := by
    simp only [APPDATA_MAX_ITEM_NAME_LENGTH]; omega
  have haddr : ¬ (44 + 16 * (i - 1) = 0) := by omega
  have hw := (writeString_ok s (44 + 16 * (i - 1)) name (by omega)).1
  have e : AppData_saveItemName s i (some name) =
      AppData_convertEepromError (EEPROM_writeString s (44 + 16 * (i - 1)) (some name)).2
        (EEPROM_writeString s (44 + 16 * (i - 1)) (some name)).1 := by
    simp only [AppData_saveItemName, if_neg hidx, if_neg hlen, getItemNameAddress_eq i h1 h5,
      if_neg haddr]
  rw [e, hw, convertEepromError_ok]

theorem saveItemName_frame (s : Sys) (i : Nat) (name : Option (List Nat)) (h1 : 1 ≤ i)
    (h5 : i ≤ 5) :
    ChangesOnly s (AppData_saveItemName s i name).2 (0x2C + 16 * (i - 1)) (0x2C + 16 * i) := by
  intro x hx
  have hidx : ¬ (i < 1 ∨ i > APPDATA_NUM_ITEMS) := by
    simp only [APPDATA_NUM_ITEMS]; omega
  cases name with
  | none => simp only [AppData_saveItemName, if_neg hidx]
  | some n =>
    by_cases hn : n.length ≤ 15
    · rw [saveItemName_eq s i n h1 h5 hn]
      simp only
      rw [(writeString_ok s (44 + 16 * (i - 1)) n (by omega)).2.2 x, if_neg (by omega)]
    · have hlen : n.length > APPDATA_MAX_ITEM_NAME_LENGTH := by
        simp only [APPDATA_MAX_ITEM_NAME_LENGTH]; omega
      simp only [AppData_saveItemName, if_neg hidx, if_pos hlen]

theorem markAsInitialized_frame (s : Sys) :
    ChangesOnly s (AppData_markAsInitialized s).2 0x7C 0x7D := by
  intro x hx
  simp only [AppData_markAsInitialized, APPDATA_FIRST_TIME_FLAG_ADDRESS,
    APPDATA_INITIALIZED_VALUE, writeByte_ok s 0x7C 0xAA (by decide), convertEepromError_ok,
    setByte]
  rw [if_neg (by omega)]

theorem saveCalibration_frame (s : Sys) (scale : Nat) (offset : Int) :
    ChangesOnly s (AppData_saveCalibration s scale offset).2 0x7D 0x8A ∧
    (∀ j, j < 8 → (AppData_saveCalibration s scale offset).2.mem (0x7D + j)
      = (scale % 2 ^ 64) / 2 ^ (8 * j) % 256) ∧
    (∀ j, j < 4 → (AppData_saveCalibration s scale offset).2.mem (0x85 + j)
      = int32_to_uint32 offset / 2 ^ (8 * j) % 256) ∧
    (AppData_saveCalibration s scale offset).2.mem 0x89 = 0x55 := by
  obtain ⟨_, g⟩ := saveCalibration_ok s scale offset
  refine ⟨fun x hx => ?_, fun j hj => ?_, fun j hj => ?_, ?_⟩
  · rw [g x, if_neg (by omega), if_neg (by omega), if_neg (by omega)]
  · rw [g (0x7D + j), if_neg (by omega), if_neg (by omega), if_pos (by omega),
      Nat.shiftRight_eq_div_pow]
    have e : (0x7D + j - 0x7D) * 8 = 8 * j := by omega
    rw [e]
  · rw [g (0x85 + j), if_neg (by omega), if_pos (by omega), Nat.shiftRight_eq_div_pow]
    have e : (0x85 + j - 0x85) * 8 = 8 * j := by omega
    rw [e]
  · rw [g 0x89, if_pos rfl]

/-- The read loop of `EEPROM_readString` depends only on the cells it reads. -/
theorem readString_loop_congr (start : Nat) (s t : Sys) :
    ∀ (n i : Nat) (buf : Nat → Nat), start + i + n ≤ 1024 →
      (∀ j, i ≤ j → j < i + n → s.mem (start + j) = t.mem (start + j)) →
      (EEPROM_readString_loop start n i buf s).1 = (EEPROM_readString_loop start n i buf t).1 ∧
      (EEPROM_readString_loop start n i buf s).2.1
        = (EEPROM_readString_loop start n i buf t).2.1 := by
  intro n
  induction n with
  | zero => intro i buf _ _; exact ⟨rfl, rfl⟩
  | succ n ih =>
    intro i buf h hm
    have hmod : (start + i) % 65536 = start + i := Nat.mod_eq_of_lt (by omega)
    simp only [EEPROM_readString_loop, hmod, readByte_ok s (start + i) (by omega),
      readByte_ok t (start + i) (by omega), hm i (Nat.le_refl i) (by omega)]
    split_ifs
    · exact ⟨rfl, rfl⟩
    · exact ih (i + 1) _ (by omega) (fun j hj1 hj2 => hm j (by omega) (by omega))

/-- A read of a 16-byte string field depends only on the cells of the field. -/
theorem readString_field_congr (s t : Sys) (start : Nat) (buf : Nat → Nat)
    (hr : start + 16 ≤ 1024) (h : AgreeOn s t start (start + 16)) :
    (EEPROM_readString s start (some buf) 16).1 = (EEPROM_readString t start (some buf) 16).1 ∧
    (EEPROM_readString s start (some buf) 16).2.1
      = (EEPROM_readString t start (some buf) 16).2.1 := by
  have hv : EEPROM_validateAddress start = true := (validateAddress_iff start).2 (by omega)
  obtain ⟨g1, g2⟩ := readString_loop_congr start s t 15 0 buf (by omega)
    (fun j _ hj => h (start + j) (by omega) (by omega))
  simp only [EEPROM_readString, hv]
  simp only [Nat.reduceSub] at g1 g2 ⊢
  simp [g1, g2]

theorem convertEepromError_fst (s t : Sys) (e : EEPROM_Error_t) :
    (AppData_convertEepromError s e).1 = (AppData_convertEepromError t e).1 := by
  simp only [AppData_convertEepromError]
  split_ifs <;> rfl

theorem verifyPassword_congr (s t : Sys) (q : Option (List Nat)) (junk : Nat → Nat)
    (h : AgreeOn s t 0x00 0x10) :
    (AppData_verifyPassword s q junk).1 = (AppData_verifyPassword t q junk).1 := by
  obtain ⟨g1, g2⟩ := readString_field_congr s t 0 junk (by decide)
    (fun x hx1 hx2 => h x hx1 (by omega))
  cases q with
  | none => rfl
  | some q =>
    simp only [AppData_verifyPassword, AppData_loadPassword, APPDATA_PASSWORD_ADDRESS,
      APPDATA_PASSWORD_SIZE, g1, g2,
      convertEepromError_fst _ (EEPROM_readString t 0 (some junk) 16).2.2]
    split_ifs
    · rfl
    · split <;> rfl

theorem loadItemPrice_congr (s t : Sys) (j : Nat) (h1 : 1 ≤ j) (h5 : j ≤ 5)
    (h : AgreeOn s t (0x10 + 4 * (j - 1)) (0x10 + 4 * j)) :
    (AppData_loadItemPrice s j).1 = (AppData_loadItemPrice t j).1 := by
  rw [loadItemPrice_ok s j h1 h5, loadItemPrice_ok t j h1 h5]
  exact readLE_loop_congr (16 + 4 * (j - 1)) 32 4 0 0 s t (by omega)
    (fun k hk => h _ (by omega) (by omega))

theorem loadTotalIncome_field_congr (s t : Sys) (h : AgreeOn s t 0x24 0x2C) :
    (AppData_loadTotalIncome s).1 = (AppData_loadTotalIncome t).1 := by
  rw [loadTotalIncome_ok, loadTotalIncome_ok]
  exact readLE_loop_congr 36 64 8 0 0 s t (by omega) (fun k hk => h _ (by omega) (by omega))

theorem loadItemName_congr (s t : Sys) (j : Nat) (buf : Option (Nat → Nat)) (h1 : 1 ≤ j)
    (h5 : j ≤ 5) (h : AgreeOn s t (0x2C + 16 * (j - 1)) (0x2C + 16 * j)) :
    (AppData_loadItemName s j buf).1 = (AppData_loadItemName t j buf).1 ∧
    (AppData_loadItemName s j buf).2.1 = (AppData_loadItemName t j buf).2.1 := by
  have hidx : ¬ (j < 1 ∨ j > APPDATA_NUM_ITEMS) := by
    simp only [APPDATA_NUM_ITEMS]; omega
  have haddr : ¬ (44 + 16 * (j - 1) = 0) := by omega
  cases buf with
  | none => simp only [AppData_loadItemName, if_neg hidx, and_self]
  | some b =>
    obtain ⟨g1, g2⟩ := readString_field_congr s t (44 + 16 * (j - 1)) b (by omega)
      (fun x hx1 hx2 => h x (by omega) (by omega))
    simp only [AppData_loadItemName, if_neg hidx, getItemNameAddress_eq j h1 h5, if_neg haddr,
      APPDATA_ITEM_NAME_SIZE, g1, g2,
      convertEepromError_fst _ (EEPROM_readString t (44 + 16 * (j - 1)) (some b) 16).2.2,
      and_self]

theorem isFirstTime_congr (s t : Sys) (h : AgreeOn s t 0x7C 0x7D) :
    (AppData_isFirstTime s).1 = (AppData_isFirstTime t).1 := by
  rw [isFirstTime_eq, isFirstTime_eq, h 0x7C (by decide) (by decide)]

theorem isCalibrated_congr (s t : Sys) (h : AgreeOn s t 0x89 0x8A) :
    (AppData_isCalibrated s).1 = (AppData_isCalibrated t).1 := by
  rw [isCalibrated_eq, isCalibrated_eq, h 0x89 (by decide) (by decide)]

theorem loadCalibration_congr (s t : Sys) (p : Nat) (q : Int) (h : AgreeOn s t 0x7D 0x89) :
    (AppData_loadCalibration s (some p) (some q)).2.1
      = (AppData_loadCalibration t (some p) (some q)).2.1 ∧
    (AppData_loadCalibration s (some p) (some q)).2.2.1
      = (AppData_loadCalibration t (some p) (some q)).2.2.1 := by
  rw [loadCalibration_eq, loadCalibration_eq]
  simp only
  rw [readLE_loop_congr 0x7D 64 8 0 0 s t (by decide) (fun k hk => h _ (by omega) (by omega)),
    readLE_loop_congr 0x85 32 4 0 0 s t (by decide) (fun k hk => h _ (by omega) (by omega))]
  exact ⟨rfl, rfl⟩

/-- C15: every save writes only inside its own field of the documented
layout. For every store state and all arguments (an index in 1..5 where
there is one), `AppData_savePassword` changes only cells in [0x0000, 0x0010),
`AppData_saveItemPrice(i, .)` only cells in [0x0010 + 4(i-1), 0x0010 + 4i),
`AppData_saveTotalIncome` and `AppData_addToTotalIncome` only cells in
[0x0024, 0x002C), `AppData_saveItemName(i, .)` only cells in
[0x002C + 16(i-1), 0x002C + 16i), `AppData_markAsInitialized` only the cell
0x007C, `AppData_saveCalibration` only cells in [0x007D, 0x008A), with the
scale at 0x007D, the offset at 0x0085 and the calibrated flag at 0x0089. And
every load reads only the cells of its own field: on two stores that agree
on the field, it returns the same. Hence no save of one field alters what a
load of another field returns. -/
theorem C15_saves_stay_in_field (fadd : Nat → Nat → Nat) (s : Sys) :
    (∀ p, ChangesOnly s (AppData_savePassword s p).2 0x0000 0x0010) ∧
    (∀ i price, 1 ≤ i → i ≤ 5 →
      ChangesOnly s (AppData_saveItemPrice s i price).2
        (0x0010 + 4 * (i - 1)) (0x0010 + 4 * i)) ∧
    (∀ v, ChangesOnly s (AppData_saveTotalIncome s v).2 0x0024 0x002C) ∧
    (∀ d, ChangesOnly s (AppData_addToTotalIncome fadd s d).2 0x0024 0x002C) ∧
    (∀ i name, 1 ≤ i → i ≤ 5 →
      ChangesOnly s (AppData_saveItemName s i name).2
        (0x002C + 16 * (i - 1)) (0x002C + 16 * i)) ∧
    ChangesOnly s (AppData_markAsInitialized s).2 0x007C 0x007D ∧
    (∀ scale offset,
      ChangesOnly s (AppData_saveCalibration s scale offset).2 0x007D 0x008A ∧
      (∀ j, j < 8 → (AppData_saveCalibration s scale offset).2.mem (0x007D + j)
        = (scale % 2 ^ 64) / 2 ^ (8 * j) % 256) ∧
      (∀ j, j < 4 → (AppData_saveCalibration s scale offset).2.mem (0x0085 + j)
        = int32_to_uint32 offset / 2 ^ (8 * j) % 256) ∧
      (AppData_saveCalibration s scale offset).2.mem 0x0089 = 0x55) ∧
    (∀ t : Sys,
      (AgreeOn s t 0x0000 0x0010 → ∀ q junk,
        (AppData_verifyPassword s q junk).1 = (AppData_verifyPassword t q junk).1) ∧
      (∀ j, 1 ≤ j → j ≤ 5 → AgreeOn s t (0x0010 + 4 * (j - 1)) (0x0010 + 4 * j) →
        (AppData_loadItemPrice s j).1 = (AppData_loadItemPrice t j).1) ∧
      (AgreeOn s t 0x0024 0x002C →
        (AppData_loadTotalIncome s).1 = (AppData_loadTotalIncome t).1) ∧
      (∀ j buf, 1 ≤ j → j ≤ 5 → AgreeOn s t (0x002C + 16 * (j - 1)) (0x002C + 16 * j) →
        (AppData_loadItemName s j buf).1 = (AppData_loadItemName t j buf).1 ∧
        (AppData_loadItemName s j buf).2.1 = (AppData_loadItemName t j buf).2.1) ∧
      (AgreeOn s t 0x007C 0x007D → (AppData_isFirstTime s).1 = (AppData_isFirstTime t).1) ∧
      (AgreeOn s t 0x007D 0x0089 → ∀ p q,
        (AppData_loadCalibration s (some p) (some q)).2.1
          = (AppData_loadCalibration t (some p) (some q)).2.1 ∧
        (AppData_loadCalibration s (some p) (some q)).2.2.1
          = (AppData_loadCalibration t (some p) (some q)).2.2.1) ∧
      (AgreeOn s t 0x0089 0x008A →
        (AppData_isCalibrated s).1 = (AppData_isCalibrated t).1)) := by
  refine ⟨savePassword_frame s, fun i price h1 h5 => saveItemPrice_frame s i price h1 h5,
    saveTotalIncome_frame s, addToTotalIncome_frame fadd s,
    fun i name h1 h5 => saveItemName_frame s i name h1 h5, markAsInitialized_frame s,
    fun scale offset => saveCalibration_frame s scale offset, fun t => ?_⟩
  exact ⟨fun h q junk => verifyPassword_congr s t q junk h,
    fun j h1 h5 h => loadItemPrice_congr s t j h1 h5 h,
    loadTotalIncome_field_congr s t,
    fun j buf h1 h5 h => loadItemName_congr s t j buf h1 h5 h,
    isFirstTime_congr s t,
    fun h p q => loadCalibration_congr s t p q h,
    isCalibrated_congr s t⟩

/-- C15 for `AppData_saveItemName(2, "Orange")` on the erased store: the cells
0x3B and 0x4C next to the field [0x3C, 0x4C) are unchanged, and the price of
item 2 and the total income read as before. -/
theorem C15_saves_stay_in_field_witness :
    (AppData_saveItemName erasedSys 2 (some APPDATA_DEFAULT_ITEM2_NAME)).2.mem 0x3B
      = erasedSys.mem 0x3B ∧
    (AppData_saveItemName erasedSys 2 (some APPDATA_DEFAULT_ITEM2_NAME)).2.mem 0x4C
      = erasedSys.mem 0x4C ∧
    (AppData_loadItemPrice erasedSys 2).1
      = (AppData_loadItemPrice
          (AppData_saveItemName erasedSys 2 (some APPDATA_DEFAULT_ITEM2_NAME)).2 2).1 ∧
    (AppData_loadTotalIncome erasedSys).1
      = (AppData_loadTotalIncome
          (AppData_saveItemName erasedSys 2 (some APPDATA_DEFAULT_ITEM2_NAME)).2).1 :=
  have h := C15_saves_stay_in_field f64_add erasedSys
  have hf := h.2.2.2.2.1 2 (some APPDATA_DEFAULT_ITEM2_NAME) (by decide) (by decide)
  have hl := h.2.2.2.2.2.2.2
    (AppData_saveItemName erasedSys 2 (some APPDATA_DEFAULT_ITEM2_NAME)).2
  ⟨hf 0x3B (Or.inl (by decide)), hf 0x4C (Or.inr (by decide)),
   hl.2.1 2 (by decide) (by decide) (fun x _ hx => (hf x (Or.inl (by omega))).symm),
   hl.2.2.1 (fun x _ hx => (hf x (Or.inl (by omega))).symm)⟩

/-! ## C21: strings longer than the field -/

theorem savePassword_too_long (s : Sys) (p : List Nat) (hp : 15 < p.length) :
    AppData_savePassword s (some p) =
      (APPDATA_STRING_TOO_LONG, { s with appErr := APPDATA_STRING_TOO_LONG }) := by
  have hlen : p.length > APPDATA_MAX_PASSWORD_LENGTH := by
    simp only [APPDATA_MAX_PASSWORD_LENGTH]; omega
  simp only [AppData_savePassword, if_pos hlen]

theorem saveItemName_too_long (s : Sys) (i : Nat) (name : List Nat) (h1 : 1 ≤ i) (h5 : i ≤ 5)
    (hn : 15 < name.length) :
    AppData_saveItemName s i (some name) =
      (APPDATA_STRING_TOO_LONG, { s with appErr := APPDATA_STRING_TOO_LONG }) := by
  have hidx : ¬ (i < 1 ∨ i > APPDATA_NUM_ITEMS) := by
    simp only [APPDATA_NUM_ITEMS]; omega
  have hlen : name.length > APPDATA_MAX_ITEM_NAME_LENGTH := by
    simp only [APPDATA_MAX_ITEM_NAME_LENGTH]; omega
  simp only [AppData_saveItemName, if_neg hidx, if_pos hlen]

/-- C21: a string of more than 15 characters is refused by
`AppData_savePassword` and, for every index 1..5, by `AppData_saveItemName`, both
with `APPDATA_STRING_TOO_LONG` and with every stored byte unchanged; a string of
at most 15 characters is accepted by both with `APPDATA_NO_ERROR`. -/
theorem C21_string_length_check (s : Sys) (str : List Nat) (i : Nat) (h1 : 1 ≤ i) (h5 : i ≤ 5) :
    (15 < str.length →
      (AppData_savePassword s (some str)).1 = APPDATA_STRING_TOO_LONG ∧
      (AppData_savePassword s (some str)).2.mem = s.mem ∧
      (AppData_saveItemName s i (some str)).1 = APPDATA_STRING_TOO_LONG ∧
      (AppData_saveItemName s i (some str)).2.mem = s.mem) ∧
    (str.length ≤ 15 →
      (AppData_savePassword s (some str)).1 = APPDATA_NO_ERROR ∧
      (AppData_saveItemName s i (some str)).1 = APPDATA_NO_ERROR) := by
  constructor
  · intro h
    rw [savePassword_too_long s str h, saveItemName_too_long s i str h1 h5 h]
    exact ⟨rfl, rfl, rfl, rfl⟩
  · intro h
    rw [savePassword_eq s str h, saveItemName_eq s i str h1 h5 h]
    exact ⟨rfl, rfl⟩

/-- C21 at index 5 on the erased store, for the 16 characters
"0123456789ABCDEF" (refused) and for the 15 characters "0123456789ABCDE"
(accepted). -/
theorem C21_string_length_check_witness :
    ((AppData_savePassword erasedSys
        (some [48, 49, 50, 51, 52, 53, 54, 55, 56, 57, 65, 66, 67, 68, 69, 70])).1
      = APPDATA_STRING_TOO_LONG ∧
     (AppData_savePassword erasedSys
        (some [48, 49, 50, 51, 52, 53, 54, 55, 56, 57, 65, 66, 67, 68, 69, 70])).2.mem
      = erasedSys.mem ∧
     (AppData_saveItemName erasedSys 5
        (some [48, 49, 50, 51, 52, 53, 54, 55, 56, 57, 65, 66, 67, 68, 69, 70])).1
      = APPDATA_STRING_TOO_LONG ∧
     (AppData_saveItemName erasedSys 5
        (some [48, 49, 50, 51, 52, 53, 54, 55, 56, 57, 65, 66, 67, 68, 69, 70])).2.mem
      = erasedSys.mem) ∧
    ((AppData_savePassword erasedSys
        (some [48, 49, 50, 51, 52, 53, 54, 55, 56, 57, 65, 66, 67, 68, 69])).1
      = APPDATA_NO_ERROR ∧
     (AppData_saveItemName erasedSys 5
        (some [48, 49, 50, 51, 52, 53, 54, 55, 56, 57, 65, 66, 67, 68, 69])).1
      = APPDATA_NO_ERROR) :=
  ⟨(C21_string_length_check erasedSys
      [48, 49, 50, 51, 52, 53, 54, 55, 56, 57, 65, 66, 67, 68, 69, 70] 5
      (by decide) (by decide)).1 (by decide),
   (C21_string_length_check erasedSys
      [48, 49, 50, 51, 52, 53, 54, 55, 56, 57, 65, 66, 67, 68, 69] 5
      (by decide) (by decide)).2 (by decide)⟩

/-! ## C22: item-name round trip -/

/-- C22: for an index 1..5 and a name of at most 15 bytes, each in 1..255,
`AppData_saveItemName` returns `APPDATA_NO_ERROR`; `AppData_loadItemName` of the
same index then returns `APPDATA_NO_ERROR` with the buffer holding the name and
its terminator; no cell outside the field of that index changes, and a load of any
other index gives the status and the buffer it gave before the save. -/
theorem C22_item_name_round_trip (s : Sys) (i : Nat) (name : List Nat) (buf : Nat → Nat)
    (h1 : 1 ≤ i) (h5 : i ≤ 5) (hname : ∀ c ∈ name, c ≠ 0 ∧ c < 256)
    (hlen : name.length ≤ 15) :
    (AppData_saveItemName s i (some name)).1 = APPDATA_NO_ERROR ∧
    (AppData_loadItemName (AppData_saveItemName s i (some name)).2 i (some buf)).1
      = APPDATA_NO_ERROR ∧
    (AppData_loadItemName (AppData_saveItemName s i (some name)).2 i (some buf)).2.1.map
      (fun out => (List.range (name.length + 1)).map out) = some (name ++ [0]) ∧
    ChangesOnly s (AppData_saveItemName s i (some name)).2 (0x2C + 16 * (i - 1)) (0x2C + 16 * i) ∧
    ∀ j, 1 ≤ j → j ≤ 5 → j ≠ i → ∀ b : Option (Nat → Nat),
      (AppData_loadItemName (AppData_saveItemName s i (some name)).2 j b).1
        = (AppData_loadItemName s j b).1 ∧
      (AppData_loadItemName (AppData_saveItemName s i (some name)).2 j b).2.1
        = (AppData_loadItemName s j b).2.1 := by
  have hframe := saveItemName_frame s i (some name) h1 h5
  have hidx : ¬ (i < 1 ∨ i > APPDATA_NUM_ITEMS) := by
    simp only [APPDATA_NUM_ITEMS]; omega
  have haddr : ¬ (44 + 16 * (i - 1) = 0) := by omega
  have ha : 44 + 16 * (i - 1) + name.length + 1 ≤ 1024 := by omega
  refine ⟨by rw [saveItemName_eq s i name h1 h5 hlen], ?_, ?_, hframe, ?_⟩
  · rw [saveItemName_eq s i name h1 h5 hlen]
    obtain ⟨out, e, _, _⟩ := readString_ok (44 + 16 * (i - 1)) name
      { (EEPROM_writeString s (44 + 16 * (i - 1)) (some name)).2 with
        appErr := APPDATA_NO_ERROR } buf 16
      (writeString_cells s (44 + 16 * (i - 1)) name hname ha) (getD_ne_zero name hname) ha
      (by omega)
    simp only [AppData_loadItemName, if_neg hidx, getItemNameAddress_eq i h1 h5, if_neg haddr,
      APPDATA_ITEM_NAME_SIZE, e, convertEepromError_ok]
  · rw [saveItemName_eq s i name h1 h5 hlen]
    obtain ⟨out, e, g1, g2⟩ := readString_ok (44 + 16 * (i - 1)) name
      { (EEPROM_writeString s (44 + 16 * (i - 1)) (some name)).2 with
        appErr := APPDATA_NO_ERROR } buf 16
      (writeString_cells s (44 + 16 * (i - 1)) name hname ha) (getD_ne_zero name hname) ha
      (by omega)
    simp only [AppData_loadItemName, if_neg hidx, getItemNameAddress_eq i h1 h5, if_neg haddr,
      APPDATA_ITEM_NAME_SIZE, e, Option.map_some', map_range_eq_append_zero out name g1 g2]
  · intro j hj1 hj5 hji b
    refine loadItemName_congr _ s j b hj1 hj5 (fun x hx1 hx2 => hframe x ?_)
    rcases Nat.lt_or_gt_of_ne hji with h | h
    · left; omega
    · right; omega

/-- C22 on the erased store at index 3 with the three bytes 255, 1, 128, none
of them a printable character; index 4 reads as before. -/
theorem C22_item_name_round_trip_witness :
    (AppData_saveItemName erasedSys 3 (some [255, 1, 128])).1 = APPDATA_NO_ERROR ∧
    (AppData_loadItemName (AppData_saveItemName erasedSys 3 (some [255, 1, 128])).2 3
      (some (fun _ => 0x5A))).1 = APPDATA_NO_ERROR ∧
    (AppData_loadItemName (AppData_saveItemName erasedSys 3 (some [255, 1, 128])).2 3
      (some (fun _ => 0x5A))).2.1.map
        (fun out => (List.range ([255, 1, 128].length + 1)).map out)
      = some ([255, 1, 128] ++ [0]) ∧
    (AppData_loadItemName (AppData_saveItemName erasedSys 3 (some [255, 1, 128])).2 4
      (some (fun _ => 0x5A))).2.1
      = (AppData_loadItemName erasedSys 4 (some (fun _ => 0x5A))).2.1 :=
  have h := C22_item_name_round_trip erasedSys 3 [255, 1, 128] (fun _ => 0x5A)
    (by decide) (by decide) (by decide) (by decide)
  ⟨h.1, h.2.1, h.2.2.1,
   (h.2.2.2.2 4 (by decide) (by decide) (by decide) (some (fun _ => 0x5A))).2⟩

/-! ## C23: the error code of a negative income -/

/-- C23 (the code differs from its header): a total income `< 0.0` is refused by
`AppData_saveTotalIncome`, and a sum `< 0.0` by `AppData_addToTotalIncome`, with
the code `APPDATA_INVALID_PRICE`, which `AppData_getLastError` then reports; the
code `APPDATA_INVALID_INCOME` that the header documents for a negative income
is a different one and is not returned. -/
theorem C23_negative_income_code (fadd : Nat → Nat → Nat) (s : Sys) (v d : Nat) :
    (f64_lt v 0 = true →
      (AppData_saveTotalIncome s v).1 = APPDATA_INVALID_PRICE ∧
      AppData_getLastError (AppData_saveTotalIncome s v).2 = APPDATA_INVALID_PRICE ∧
      (AppData_saveTotalIncome s v).1 ≠ APPDATA_INVALID_INCOME) ∧
    (f64_lt (fadd (AppData_loadTotalIncome s).1 d) 0 = true →
      (AppData_addToTotalIncome fadd s d).1 = APPDATA_INVALID_PRICE ∧
      AppData_getLastError (AppData_addToTotalIncome fadd s d).2 = APPDATA_INVALID_PRICE ∧
      (AppData_addToTotalIncome fadd s d).1 ≠ APPDATA_INVALID_INCOME) := by
  constructor
  · intro h
    rw [saveTotalIncome_bad s v h]
    exact ⟨rfl, rfl, (by decide : APPDATA_INVALID_PRICE ≠ APPDATA_INVALID_INCOME)⟩
  · intro h
    rw [addToTotalIncome_bad fadd s d h]
    exact ⟨rfl, rfl, (by decide : APPDATA_INVALID_PRICE ≠ APPDATA_INVALID_INCOME)⟩

/-- C23 on the store with total income `30.0`: saving `-50.0`, and adding
`-50.0` to the stored `30.0`, both return `APPDATA_INVALID_PRICE`. -/
theorem C23_negative_income_code_witness :
    ((AppData_saveTotalIncome (AppData_saveTotalIncome erasedSys 0x403E000000000000).2
        0xC049000000000000).1 = APPDATA_INVALID_PRICE ∧
      AppData_getLastError (AppData_saveTotalIncome
        (AppData_saveTotalIncome erasedSys 0x403E000000000000).2 0xC049000000000000).2
        = APPDATA_INVALID_PRICE ∧
      (AppData_saveTotalIncome (AppData_saveTotalIncome erasedSys 0x403E000000000000).2
        0xC049000000000000).1 ≠ APPDATA_INVALID_INCOME) ∧
    ((AppData_addToTotalIncome f64_add (AppData_saveTotalIncome erasedSys 0x403E000000000000).2
        0xC049000000000000).1 = APPDATA_INVALID_PRICE ∧
      AppData_getLastError (AppData_addToTotalIncome f64_add
        (AppData_saveTotalIncome erasedSys 0x403E000000000000).2 0xC049000000000000).2
        = APPDATA_INVALID_PRICE ∧
      (AppData_addToTotalIncome f64_add (AppData_saveTotalIncome erasedSys 0x403E000000000000).2
        0xC049000000000000).1 ≠ APPDATA_INVALID_INCOME) :=
  have hload : (AppData_loadTotalIncome
      (AppData_saveTotalIncome erasedSys 0x403E000000000000).2).1 = 0x403E000000000000 :=
    (saveTotalIncome_ok erasedSys 0x403E000000000000 (by rw [f64_lt_zero]; decide)).2
  have hsum : f64_add 0x403E000000000000 0xC049000000000000 = 0xC034000000000000 := by decide
  ⟨(C23_negative_income_code f64_add (AppData_saveTotalIncome erasedSys 0x403E000000000000).2
      0xC049000000000000 0xC049000000000000).1 (by rw [f64_lt_zero]; decide),
   (C23_negative_income_code f64_add (AppData_saveTotalIncome erasedSys 0x403E000000000000).2
      0xC049000000000000 0xC049000000000000).2 (by rw [hload, hsum, f64_lt_zero]; decide)⟩

/-! ## C24: `EEPROM_erase` -/

/-- The erase loop over cells that are all in range succeeds, sets exactly
those cells to `0xFF`, and leaves the slot of `app_data.c` alone. -/
theorem erase_loop_ok : ∀ (n i : Nat) (s : Sys), i + n ≤ 1024 →
    (EEPROM_erase_loop n i s).1 = EEPROM_NO_ERROR ∧
    (EEPROM_erase_loop n i s).2.appErr = s.appErr ∧
    ∀ x, (EEPROM_erase_loop n i s).2.mem x = if i ≤ x ∧ x < i + n then 0xFF else s.mem x := by
  intro n
  induction n with
  | zero =>
    intro i s _
    refine ⟨rfl, rfl, fun x => ?_⟩
    rw [if_neg (by omega)]
    rfl
  | succ n ih =>
    intro i s h
    have hm : (i + 1) % 65536 = i + 1 := Nat.mod_eq_of_lt (by omega)
    have e : EEPROM_erase_loop (n + 1) i s =
        EEPROM_erase_loop n (i + 1)
          { s with mem := setByte s.mem i (0xFF % 256), eeErr := EEPROM_NO_ERROR } := by
      simp only [EEPROM_erase_loop, writeByte_ok s i 0xFF (by omega), hm, ne_eq,
        not_true_eq_false, if_false]
    rw [e]
    obtain ⟨g1, g2, g3⟩ := ih (i + 1)
      { s with mem := setByte s.mem i (0xFF % 256), eeErr := EEPROM_NO_ERROR } (by omega)
    refine ⟨g1, g2, fun x => ?_⟩
    rw [g3 x]
    simp only [setByte]
    by_cases hx : x = i
    · subst hx
      rw [if_neg (by omega), if_pos rfl, if_pos (by omega)]
    · by_cases hr : i + 1 ≤ x ∧ x < i + 1 + n
      · rw [if_pos hr, if_pos (by omega)]
      · rw [if_neg hr, if_neg hx, if_neg (by omega)]

/-- C24: from every store `EEPROM_erase` returns `EEPROM_NO_ERROR`; afterwards
`EEPROM_readByte` returns `0xFF` at every address below 1024,
`AppData_isFirstTime` returns 1 and `AppData_isCalibrated` returns 0. -/
theorem C24_erase (s : Sys) :
    (EEPROM_erase s).1 = EEPROM_NO_ERROR ∧
    (∀ a, a < 1024 → (EEPROM_readByte (EEPROM_erase s).2 a).1 = 0xFF) ∧
    (AppData_isFirstTime (EEPROM_erase s).2).1 = 1 ∧
    (AppData_isCalibrated (EEPROM_erase s).2).1 = 0 := by
  have e : EEPROM_erase s = EEPROM_erase_loop 1024 0 s := by
    simp only [EEPROM_erase, EEPROM_SIZE]
  rw [e]
  obtain ⟨g1, _, g3⟩ := erase_loop_ok 1024 0 s (by omega)
  have hcell : ∀ a, a < 1024 → (EEPROM_erase_loop 1024 0 s).2.mem a = 0xFF := by
    intro a ha
    rw [g3 a, if_pos (by omega)]
  refine ⟨g1, fun a ha => ?_, ?_, ?_⟩
  · rw [readByte_ok _ a (by omega), hcell a ha]
  · rw [isFirstTime_eq, hcell 0x7C (by decide)]
    rfl
  · rw [isCalibrated_eq, hcell 0x89 (by decide)]
    rfl

/-- C24 on the store that is marked initialised and calibrated: after the
erase the two flag cells read `0xFF`. -/
theorem C24_erase_witness :
    (EEPROM_readByte (EEPROM_erase
      (AppData_markAsCalibrated (AppData_markAsInitialized erasedSys).2).2).2 0x7C).1 = 0xFF ∧
    (EEPROM_readByte (EEPROM_erase
      (AppData_markAsCalibrated (AppData_markAsInitialized erasedSys).2).2).2 0x89).1 = 0xFF :=
  ⟨(C24_erase (AppData_markAsCalibrated (AppData_markAsInitialized erasedSys).2).2).2.1 0x7C
      (by decide),
   (C24_erase (AppData_markAsCalibrated (AppData_markAsInitialized erasedSys).2).2).2.1 0x89
      (by decide)⟩

/-! ## Lemmas on the conversion to `float32` -/

theorem float32_roundHalfEven_int (z : Int) : float32_roundHalfEven (z : ℚ) = z := by
  simp [float32_roundHalfEven]

theorem float32_roundHalfEven_bounds (q : ℚ) :
    ⌊q⌋ ≤ float32_roundHalfEven q ∧ float32_roundHalfEven q ≤ ⌊q⌋ + 1 := by
  unfold float32_roundHalfEven
  split_ifs <;> omega

theorem float32_roundHalfEven_mono (p q : ℚ) (h : p ≤ q) :
    float32_roundHalfEven p ≤ float32_roundHalfEven q := by
  have hf : ⌊p⌋ ≤ ⌊q⌋ := Int.floor_le_floor h
  rcases lt_or_eq_of_le hf with hlt | heq
  · have h1 := (float32_roundHalfEven_bounds p).2
    have h2 := (float32_roundHalfEven_bounds q).1
    omega
  · have hfr : Int.fract p ≤ Int.fract q := by
      unfold Int.fract
      rw [heq]
      linarith
    unfold float32_roundHalfEven
    rw [heq]
    split_ifs <;> first | omega | linarith

theorem float32_grid_mono (e : Int) (x y : ℚ) (h : x ≤ y) :
    float32_grid e x ≤ float32_grid e y := by
  have hu : (0 : ℚ) < 2 ^ (e - 23) := by positivity
  unfold float32_grid
  apply mul_le_mul_of_nonneg_right _ (le_of_lt hu)
  exact_mod_cast float32_roundHalfEven_mono _ _ (div_le_div_of_nonneg_right h (le_of_lt hu))

theorem float32_grid_fix (e : Int) (n : Int) :
    float32_grid e ((n : ℚ) * 2 ^ (e - 23)) = (n : ℚ) * 2 ^ (e - 23) := by
  have hu : (2 : ℚ) ^ (e - 23) ≠ 0 := by positivity
  unfold float32_grid
  rw [mul_div_assoc, div_self hu, mul_one, float32_roundHalfEven_int]

theorem float32_grid_zero (e : Int) : float32_grid e 0 = 0 := by
  have := float32_grid_fix e 0
  simpa using this

theorem float32_grid_pow (e k : Int) (hk : e - 23 ≤ k) :
    float32_grid e (2 ^ k) = 2 ^ k ∧ float32_grid e (-2 ^ k) = -2 ^ k := by
  have e1 : (2 : ℚ) ^ k = ((2 ^ (k - (e - 23)).toNat : Int) : ℚ) * 2 ^ (e - 23) := by
    have hn : ((k - (e - 23)).toNat : Int) = k - (e - 23) := Int.toNat_of_nonneg (by omega)
    push_cast
    rw [← zpow_natCast, hn, ← zpow_add₀ (by norm_num)]
    congr 1
    ring
  have e2 : -(2 : ℚ) ^ k = ((-(2 ^ (k - (e - 23)).toNat) : Int) : ℚ) * 2 ^ (e - 23) := by
    rw [e1]
    push_cast
    ring
  constructor
  · rw [e1]
    exact float32_grid_fix e _
  · rw [e2]
    exact float32_grid_fix e _

theorem float32_exponent_ge (x : ℚ) : -126 ≤ float32_exponent x := le_max_right _ _

theorem float32_exponent_eq (x : ℚ) (e : Int) (he : -126 ≤ e) (h1 : 2 ^ e ≤ |x|)
    (h2 : |x| < 2 ^ (e + 1)) : float32_exponent x = e := by
  have hpos : 0 < |x| := lt_of_lt_of_le (by positivity) h1
  have a1 : e ≤ Int.log 2 |x| := (Int.zpow_le_iff_le_log one_lt_two hpos).mp (by exact_mod_cast h1)
  have a2 : Int.log 2 |x| < e + 1 := (Int.lt_zpow_iff_log_lt one_lt_two hpos).mp (by exact_mod_cast h2)
  unfold float32_exponent
  rw [max_eq_left (by omega)]
  omega

theorem float32_exponent_lt (x : ℚ) : |x| < 2 ^ (float32_exponent x + 1) := by
  have a1 : |x| < ((2 : Nat) : ℚ) ^ (Int.log 2 |x| + 1) := Int.lt_zpow_succ_log_self one_lt_two _
  have a2 : ((2 : Nat) : ℚ) ^ (Int.log 2 |x| + 1) ≤ ((2 : Nat) : ℚ) ^ (float32_exponent x + 1) := by
    apply zpow_le_zpow_right₀ (by norm_num)
    have := le_max_left (Int.log 2 |x|) (-126)
    unfold float32_exponent
    omega
  exact_mod_cast lt_of_lt_of_le a1 a2

theorem float32_exponent_le (x : ℚ) (h : -126 < float32_exponent x) (hx : x ≠ 0) :
    2 ^ float32_exponent x ≤ |x| := by
  have hpos : 0 < |x| := abs_pos.mpr hx
  have e : float32_exponent x = Int.log 2 |x| := by
    unfold float32_exponent at h ⊢
    rcases max_cases (Int.log 2 |x|) (-126) with ⟨a, _⟩ | ⟨a, _⟩
    · exact a
    · rw [a] at h; omega
  rw [e]
  exact_mod_cast Int.zpow_log_le_self one_lt_two hpos

theorem float32_exponent_mono (x y : ℚ) (hx : x ≠ 0) (h : |x| ≤ |y|) :
    float32_exponent x ≤ float32_exponent y := by
  unfold float32_exponent
  exact max_le_max (Int.log_mono_right (abs_pos.mpr hx) h) (le_refl _)

theorem double_to_float32_zero : double_to_float32 0 = 0 := float32_grid_zero _

theorem double_to_float32_nonneg (x : ℚ) (h : 0 ≤ x) : 0 ≤ double_to_float32 x := by
  have := float32_grid_mono (float32_exponent x) 0 x h
  rw [float32_grid_zero] at this
  exact this

theorem double_to_float32_nonpos (x : ℚ) (h : x ≤ 0) : double_to_float32 x ≤ 0 := by
  have := float32_grid_mono (float32_exponent x) x 0 h
  rw [float32_grid_zero] at this
  exact this

theorem double_to_float32_mono_pos (x y : ℚ) (hx : 0 < x) (h : x ≤ y) :
    double_to_float32 x ≤ double_to_float32 y := by
  have hy : 0 < y := lt_of_lt_of_le hx h
  have hm : float32_exponent x ≤ float32_exponent y :=
    float32_exponent_mono x y (ne_of_gt hx) (by rw [abs_of_pos hx, abs_of_pos hy]; exact h)
  unfold double_to_float32
  rcases lt_or_eq_of_le hm with hlt | heq
  · have b1 : x ≤ 2 ^ (float32_exponent x + 1) := by
      have := float32_exponent_lt x
      rw [abs_of_pos hx] at this
      exact le_of_lt this
    have b2 : (2 : ℚ) ^ float32_exponent y ≤ y := by
      have := float32_exponent_le y (by have := float32_exponent_ge x; omega) (ne_of_gt hy)
      rw [abs_of_pos hy] at this
      exact this
    have c1 := float32_grid_mono (float32_exponent x) _ _ b1
    rw [(float32_grid_pow (float32_exponent x) (float32_exponent x + 1) (by omega)).1] at c1
    have c2 := float32_grid_mono (float32_exponent y) _ _ b2
    rw [(float32_grid_pow (float32_exponent y) (float32_exponent y) (by omega)).1] at c2
    have c3 : (2 : ℚ) ^ (float32_exponent x + 1) ≤ 2 ^ float32_exponent y :=
      zpow_le_zpow_right₀ (by norm_num) (by omega)
    linarith
  · rw [heq]
    exact float32_grid_mono _ _ _ h

theorem double_to_float32_mono_neg (x y : ℚ) (hy : y < 0) (h : x ≤ y) :
    double_to_float32 x ≤ double_to_float32 y := by
  have hx : x < 0 := lt_of_le_of_lt h hy
  have hm : float32_exponent y ≤ float32_exponent x :=
    float32_exponent_mono y x (ne_of_lt hy) (by rw [abs_of_neg hx, abs_of_neg hy]; linarith)
  unfold double_to_float32
  rcases lt_or_eq_of_le hm with hlt | heq
  · have b1 : -2 ^ (float32_exponent y + 1) ≤ y := by
      have := float32_exponent_lt y
      rw [abs_of_neg hy] at this
      linarith
    have b2 : x ≤ -(2 : ℚ) ^ float32_exponent x := by
      have := float32_exponent_le x (by have := float32_exponent_ge y; omega) (ne_of_lt hx)
      rw [abs_of_neg hx] at this
      linarith
    have c1 := float32_grid_mono (float32_exponent y) _ _ b1
    rw [(float32_grid_pow (float32_exponent y) (float32_exponent y + 1) (by omega)).2] at c1
    have c2 := float32_grid_mono (float32_exponent x) _ _ b2
    rw [(float32_grid_pow (float32_exponent x) (float32_exponent x) (by omega)).2] at c2
    have c3 : (2 : ℚ) ^ (float32_exponent y + 1) ≤ 2 ^ float32_exponent x :=
      zpow_le_zpow_right₀ (by norm_num) (by omega)
    linarith
  · rw [← heq]
    exact float32_grid_mono _ _ _ h

/-- The conversion to `float32` keeps the order. -/
theorem double_to_float32_mono (x y : ℚ) (h : x ≤ y) :
    double_to_float32 x ≤ double_to_float32 y := by
  rcases lt_trichotomy 0 x with hx | hx | hx
  · exact double_to_float32_mono_pos x y hx h
  · rw [← hx, double_to_float32_zero]
    exact double_to_float32_nonneg y (by rw [hx]; exact h)
  · rcases lt_or_le y 0 with hy | hy
    · exact double_to_float32_mono_neg x y hy h
    · exact le_trans (double_to_float32_nonpos x (le_of_lt hx)) (double_to_float32_nonneg y hy)

/-- A value `m * 2^j` with `|m| < 2^24` and `j >= -149` is a `float32`. -/
theorem double_to_float32_fix_lt (m j : Int) (hm : |m| < 2 ^ 24) (hj : -149 ≤ j) :
    double_to_float32 ((m : ℚ) * 2 ^ j) = (m : ℚ) * 2 ^ j := by
  by_cases hz : (m : ℚ) * 2 ^ j = 0
  · rw [hz]
    exact double_to_float32_zero
  have hE : float32_exponent ((m : ℚ) * 2 ^ j) - 23 ≤ j := by
    have hlt : |(m : ℚ) * 2 ^ j| < 2 ^ (j + 23 + 1) := by
      have hj0 : (0 : ℚ) < 2 ^ j := by positivity
      rw [abs_mul, abs_of_pos hj0]
      have hmq : |(m : ℚ)| < 2 ^ 24 := by exact_mod_cast hm
      have e : (2 : ℚ) ^ (j + 23 + 1) = 2 ^ 24 * 2 ^ j := by
        rw [show j + 23 + 1 = 24 + j by ring, zpow_add₀ (by norm_num)]
        norm_num
      rw [e]
      exact mul_lt_mul_of_pos_right hmq hj0
    have hpos : 0 < |(m : ℚ) * 2 ^ j| := abs_pos.mpr hz
    have a2 : Int.log 2 |(m : ℚ) * 2 ^ j| < j + 23 + 1 :=
      (Int.lt_zpow_iff_log_lt one_lt_two hpos).mp (by exact_mod_cast hlt)
    unfold float32_exponent
    have := max_le (show Int.log 2 |(m : ℚ) * 2 ^ j| ≤ j + 23 by omega)
      (show (-126 : Int) ≤ j + 23 by omega)
    omega
  have key : (m : ℚ) * 2 ^ j =
      ((m * 2 ^ (j - (float32_exponent ((m : ℚ) * 2 ^ j) - 23)).toNat : Int) : ℚ) *
        2 ^ (float32_exponent ((m : ℚ) * 2 ^ j) - 23) := by
    have hn : ((j - (float32_exponent ((m : ℚ) * 2 ^ j) - 23)).toNat : Int) =
        j - (float32_exponent ((m : ℚ) * 2 ^ j) - 23) := Int.toNat_of_nonneg (by omega)
    push_cast
    rw [mul_assoc, ← zpow_natCast, hn, ← zpow_add₀ (by norm_num)]
    congr 2
    ring
  have h := float32_grid_fix (float32_exponent ((m : ℚ) * 2 ^ j))
    (m * 2 ^ (j - (float32_exponent ((m : ℚ) * 2 ^ j) - 23)).toNat)
  rw [← key] at h
  exact h

/-- A value `m * 2^j` with `|m| <= 2^24` and `j >= -149` is a `float32`. -/
theorem double_to_float32_fix (m j : Int) (hm : |m| ≤ 2 ^ 24) (hj : -149 ≤ j) :
    double_to_float32 ((m : ℚ) * 2 ^ j) = (m : ℚ) * 2 ^ j := by
  rcases lt_or_eq_of_le hm with hlt | heq
  · exact double_to_float32_fix_lt m j hlt hj
  · have hm2 : m = 2 * (m / 2) ∧ |m / 2| < 2 ^ 24 := by
      rcases (abs_eq (by norm_num)).mp heq with a | a
      · rw [a]
        exact ⟨by norm_num, by norm_num [abs_of_pos]⟩
      · rw [a]
        exact ⟨by norm_num, by norm_num [abs_of_neg]⟩
    have e : (m : ℚ) * 2 ^ j = ((m / 2 : Int) : ℚ) * 2 ^ (j + 1) := by
      rw [zpow_add₀ (by norm_num), zpow_one]
      nth_rewrite 1 [hm2.1]
      push_cast
      ring
    rw [e]
    exact double_to_float32_fix_lt (m / 2) (j + 1) hm2.2 (by omega)

/-- An integer of magnitude at most `2^24` is a `float32`. -/
theorem double_to_float32_int (z : Int) (h1 : -16777216 ≤ z) (h2 : z ≤ 16777216) :
    double_to_float32 (z : ℚ) = (z : ℚ) := by
  have := double_to_float32_fix z 0 (abs_le.mpr ⟨by omega, by omega⟩) (by norm_num)
  simpa using this

/-- The significand that the conversion leaves has at most 24 bits. -/
theorem float32_significand_le (x : ℚ) :
    |float32_roundHalfEven (x / 2 ^ (float32_exponent x - 23))| ≤ 2 ^ 24 := by
  have hu : (0 : ℚ) < 2 ^ (float32_exponent x - 23) := by positivity
  have hlt := float32_exponent_lt x
  have e : (2 : ℚ) ^ (float32_exponent x + 1) = 2 ^ 24 * 2 ^ (float32_exponent x - 23) := by
    rw [show float32_exponent x + 1 = 24 + (float32_exponent x - 23) by ring,
      zpow_add₀ (by norm_num)]
    norm_num
  rw [e] at hlt
  obtain ⟨l1, l2⟩ := abs_lt.mp hlt
  have b1 : x / 2 ^ (float32_exponent x - 23) ≤ ((2 ^ 24 : Int) : ℚ) := by
    rw [div_le_iff₀ hu]
    push_cast
    linarith
  have b2 : ((-(2 ^ 24) : Int) : ℚ) ≤ x / 2 ^ (float32_exponent x - 23) := by
    rw [le_div_iff₀ hu]
    push_cast
    linarith
  have c1 := float32_roundHalfEven_mono _ _ b1
  have c2 := float32_roundHalfEven_mono _ _ b2
  rw [float32_roundHalfEven_int] at c1 c2
  rw [abs_le]
  constructor <;> omega

/-- Converting twice is converting once: the result of a conversion is a
`float32`. -/
theorem double_to_float32_idem (x : ℚ) :
    double_to_float32 (double_to_float32 x) = double_to_float32 x := by
  have h := double_to_float32_fix (float32_roundHalfEven (x / 2 ^ (float32_exponent x - 23)))
    (float32_exponent x - 23) (float32_significand_le x)
    (by have := float32_exponent_ge x; omega)
  exact h

/-- The conversion of a value of the binade `[2^e, 2^(e+1))`, `e >= -126`. -/
theorem double_to_float32_eq (x : ℚ) (e : Int) (he : -126 ≤ e) (h1 : 2 ^ e ≤ |x|)
    (h2 : |x| < 2 ^ (e + 1)) :
    double_to_float32 x = (float32_roundHalfEven (x / 2 ^ (e - 23)) : ℚ) * 2 ^ (e - 23) := by
  unfold double_to_float32
  rw [float32_exponent_eq x e he h1 h2]
  rfl

set_option maxRecDepth 100000

/-! ## Lemmas on the sampled word -/

theorem hx711_bitsValue_lt : ∀ bs : List Bool, hx711_bitsValue bs < 2 ^ bs.length := by
  intro bs
  induction bs with
  | nil => simp [hx711_bitsValue]
  | cons b bs ih =>
    simp only [hx711_bitsValue, List.length_cons, pow_succ]
    split_ifs <;> omega

theorem hx711_bitsValue_append : ∀ xs ys : List Bool,
    hx711_bitsValue (xs ++ ys) = hx711_bitsValue xs * 2 ^ ys.length + hx711_bitsValue ys := by
  intro xs ys
  induction xs with
  | nil => simp [hx711_bitsValue]
  | cons b xs ih =>
    have e : hx711_bitsValue (b :: xs ++ ys)
        = (if b then 1 else 0) * 2 ^ (xs ++ ys).length + hx711_bitsValue (xs ++ ys) := rfl
    have e' : hx711_bitsValue (b :: xs)
        = (if b then 1 else 0) * 2 ^ xs.length + hx711_bitsValue xs := rfl
    rw [e, e', ih, List.length_append, pow_add]
    ring

/-- The shift loop on `n` samples that fill the low `n` bits of a byte whose
low `n` bits are clear: the samples are added in, the first one highest. -/
theorem shiftIn_MSB_loop_spec : ∀ (n i value : Nat) (bs rest : List Bool),
    bs.length = n → i + n = 8 → value < 256 → value % 2 ^ n = 0 →
    shiftIn_MSB_loop n i value (bs ++ rest) = some (value + hx711_bitsValue bs, rest) := by
  intro n
  induction n with
  | zero =>
    intro i value bs rest hl _ _ _
    have : bs = [] := List.length_eq_zero.mp hl
    subst this
    simp [shiftIn_MSB_loop, hx711_bitsValue]
  | succ n ih =>
    intro i value bs rest hl hi hv hm
    cases bs with
    | nil => simp at hl
    | cons b bs =>
      have hl' : bs.length = n := by simpa using hl
      have h7 : 7 - i = n := by omega
      obtain ⟨q, hq⟩ : ∃ q, value = 2 ^ (n + 1) * q := ⟨value / 2 ^ (n + 1), by
        have := Nat.div_add_mod value (2 ^ (n + 1))
        omega⟩
      have hb : (if b then 1 else 0) * 2 ^ n < 2 ^ (n + 1) := by
        rw [pow_succ]
        split_ifs <;> omega
      have hor : value ||| ((if b then 1 else 0) <<< (7 - i))
          = value + (if b then 1 else 0) * 2 ^ n := by
        rw [h7, Nat.shiftLeft_eq, hq]
        exact (Nat.mul_add_lt_is_or hb q).symm
      have hpn : 0 < 2 ^ n := Nat.two_pow_pos n
      have hlt : value + (if b then 1 else 0) * 2 ^ n < 256 := by
        have h8 : (256 : Nat) = 2 ^ (n + 1) * 2 ^ (7 - n) := by
          rw [← pow_add]
          have : n + 1 + (7 - n) = 8 := by omega
          rw [this]
          norm_num
        have hqlt : q < 2 ^ (7 - n) := by
          by_contra hc
          have : 2 ^ (n + 1) * 2 ^ (7 - n) ≤ 2 ^ (n + 1) * q :=
            Nat.mul_le_mul_left _ (not_lt.mp hc)
          omega
        have : 2 ^ (n + 1) * (q + 1) ≤ 2 ^ (n + 1) * 2 ^ (7 - n) :=
          Nat.mul_le_mul_left _ hqlt
        rw [Nat.mul_add, Nat.mul_one] at this
        omega
      have hmod : (value + (if b then 1 else 0) * 2 ^ n) % 2 ^ n = 0 := by
        rw [hq, pow_succ]
        have : 2 ^ n * 2 * q + (if b then 1 else 0) * 2 ^ n
            = 2 ^ n * (2 * q + (if b then 1 else 0)) := by ring
        rw [this]
        exact Nat.mul_mod_right _ _
      simp only [List.cons_append, shiftIn_MSB_loop, HX711_DOUT_READ, hor,
        Nat.mod_eq_of_lt hlt]
      rw [ih (i + 1) _ bs rest hl' (by omega) hlt hmod]
      simp only [hx711_bitsValue, hl', add_assoc]

/-- Function `shiftIn_MSB()` on eight samples: the byte they spell. -/
theorem shiftIn_MSB_spec (bs rest : List Bool) (hl : bs.length = 8) :
    shiftIn_MSB (bs ++ rest) = some (hx711_bitsValue bs, rest) := by
  rw [shiftIn_MSB, shiftIn_MSB_loop_spec 8 0 0 bs rest hl (by decide) (by decide) (by decide)]
  simp

/-- The byte that `shiftIn_MSB` returns is below 256. -/
theorem shiftIn_MSB_loop_lt : ∀ (n i value : Nat) (pin rest : List Bool) (d : Nat),
    value < 256 → shiftIn_MSB_loop n i value pin = some (d, rest) → d < 256 := by
  intro n
  induction n with
  | zero =>
    intro i value pin rest d hv h
    simp only [shiftIn_MSB_loop, Option.some.injEq, Prod.mk.injEq] at h
    omega
  | succ n ih =>
    intro i value pin rest d hv h
    simp only [shiftIn_MSB_loop] at h
    split at h
    · cases h
    · exact ih _ _ _ _ _ (Nat.mod_lt _ (by decide)) h

/-- The test `d2 & 0x80` of the sign extension on a byte. -/
theorem sign_bit_test : ∀ d, d < 256 → (d &&& 0x80 ≠ 0 ↔ 128 ≤ d) := by
  decide

/-- The word that `hx711_read` builds from three bytes, as a `sint32`. -/
theorem hx711_word_spec (d2 d1 d0 : Nat) (h2 : d2 < 256) (h1 : d1 < 256) (h0 : d0 < 256) :
    uint32_to_int32
      ((((if d2 &&& 0x80 ≠ 0 then 0xFF else 0x00) <<< 24) ||| (d2 <<< 16) ||| (d1 <<< 8) ||| d0)
        % 2 ^ 32)
      = if d2 * 65536 + d1 * 256 + d0 < 8388608 then ((d2 * 65536 + d1 * 256 + d0 : Nat) : Int)
        else ((d2 * 65536 + d1 * 256 + d0 : Nat) : Int) - 16777216 := by
  have hs := sign_bit_test d2 h2
  have key : ∀ f : Nat, ((f <<< 24) ||| (d2 <<< 16) ||| (d1 <<< 8) ||| d0)
      = f * 16777216 + d2 * 65536 + d1 * 256 + d0 := by
    intro f
    have a1 : 2 ^ 24 * f + d2 * 65536 = 2 ^ 24 * f ||| d2 * 65536 :=
      Nat.mul_add_lt_is_or (by omega) f
    have a2 : 2 ^ 16 * (f * 256 + d2) + d1 * 256 = 2 ^ 16 * (f * 256 + d2) ||| d1 * 256 :=
      Nat.mul_add_lt_is_or (by omega) _
    have a3 : 2 ^ 8 * (f * 65536 + d2 * 256 + d1) + d0
        = 2 ^ 8 * (f * 65536 + d2 * 256 + d1) ||| d0 :=
      Nat.mul_add_lt_is_or (by omega) _
    have b1 : f <<< 24 = 2 ^ 24 * f := by rw [Nat.shiftLeft_eq, Nat.mul_comm]
    have b2 : d2 <<< 16 = d2 * 65536 := by rw [Nat.shiftLeft_eq]
    have b3 : d1 <<< 8 = d1 * 256 := by rw [Nat.shiftLeft_eq]
    rw [b1, b2, b3, ← a1]
    have c1 : 2 ^ 24 * f + d2 * 65536 = 2 ^ 16 * (f * 256 + d2) := by ring
    rw [c1, ← a2]
    have c2 : 2 ^ 16 * (f * 256 + d2) + d1 * 256 = 2 ^ 8 * (f * 65536 + d2 * 256 + d1) := by ring
    rw [c2, ← a3]
    ring
  rw [key]
  unfold uint32_to_int32
  by_cases hneg : 128 ≤ d2
  · rw [if_pos (hs.mpr hneg)]
    split_ifs <;> omega
  · rw [if_neg (fun hc => hneg (hs.mp hc))]
    split_ifs <;> omega

/-- The wait loop of `hx711_read` on a line that is high for some samples and
then low: it ends after the low sample. -/
theorem hx711_read_wait_spec : ∀ (wait rest : List Bool) (fuel : Nat),
    (∀ b ∈ wait, b = true) → wait.length < fuel →
    hx711_read_wait fuel (wait ++ false :: rest) = some rest := by
  intro wait
  induction wait with
  | nil =>
    intro rest fuel _ hf
    cases fuel with
    | zero => simp at hf
    | succ n => simp [hx711_read_wait, hx711_isready, HX711_DOUT_READ]
  | cons b wait ih =>
    intro rest fuel hw hf
    have hb : b = true := hw b (List.mem_cons_self b wait)
    subst hb
    cases fuel with
    | zero => simp at hf
    | succ n =>
      have hf' : wait.length < n := by simpa using hf
      simp only [List.cons_append, hx711_read_wait, hx711_isready, HX711_DOUT_READ, if_true]
      simp only [one_ne_zero, if_false, if_true]
      exact ih rest n (fun x hx => hw x (List.mem_cons_of_mem true hx)) hf'

/-- Every result of the real-hardware branch lies in the 24-bit range. -/
theorem hx711_read_hardware_range24 (pin rest : List Bool) (v : Int)
    (hh : hx711_read_hardware pin = some (v, rest)) :
    -8388608 ≤ v ∧ v ≤ 8388607 := by
  unfold hx711_read_hardware at hh
  split at hh
  · cases hh
  · split at hh
    · cases hh
    · rename_i d2 p1 e2
      split at hh
      · cases hh
      · rename_i d1 p2 e1
        split at hh
        · cases hh
        · rename_i d0 p3 e0
          have h2 : d2 < 256 := shiftIn_MSB_loop_lt 8 0 0 _ _ _ (by decide) e2
          have h1 : d1 < 256 := shiftIn_MSB_loop_lt 8 0 0 _ _ _ (by decide) e1
          have h0 : d0 < 256 := shiftIn_MSB_loop_lt 8 0 0 _ _ _ (by decide) e0
          simp only [Option.some.injEq, Prod.mk.injEq] at hh
          rw [← hh.1, hx711_word_spec d2 d1 d0 h2 h1 h0]
          split_ifs <;> omega

/-! ## Lemmas on the HX711 driver -/

theorem uint32_to_int32_range (u : Nat) :
    -2147483648 ≤ uint32_to_int32 u ∧ uint32_to_int32 u ≤ 2147483647 := by
  have hlt : u % 2 ^ 32 < 2 ^ 32 := Nat.mod_lt _ (by norm_num)
  unfold uint32_to_int32
  split_ifs with h
  · omega
  · omega

theorem hx711_read_hardware_range (pin rest : List Bool) (v : Int)
    (hh : hx711_read_hardware pin = some (v, rest)) :
    -2147483648 ≤ v ∧ v ≤ 2147483647 := by
  unfold hx711_read_hardware at hh
  split at hh
  · cases hh
  · split at hh
    · cases hh
    · split at hh
      · cases hh
      · split at hh
        · cases hh
        · simp only [Option.some.injEq, Prod.mk.injEq] at hh
          rw [← hh.1]
          exact uint32_to_int32_range _

/-- The two ends of the `sint32` range, the upper one rounded up, are
`float32` values. -/
theorem double_to_float32_two_pow_31 :
    double_to_float32 2147483648 = 2147483648 ∧
    double_to_float32 (-2147483648) = -2147483648 := by
  have a := double_to_float32_fix (2 ^ 23) 8 (by norm_num) (by norm_num)
  have b := double_to_float32_fix (-(2 ^ 23)) 8 (by norm_num) (by norm_num)
  norm_num at a b
  exact ⟨a, b⟩

/-- The conversion keeps a value between `-2^31` and `2^31` there. -/
theorem double_to_float32_range (x : ℚ) (h1 : -2147483648 ≤ x) (h2 : x ≤ 2147483648) :
    -2147483648 ≤ double_to_float32 x ∧ double_to_float32 x ≤ 2147483648 := by
  obtain ⟨p, n⟩ := double_to_float32_two_pow_31
  have a := double_to_float32_mono _ _ h1
  have b := double_to_float32_mono _ _ h2
  rw [n] at a
  rw [p] at b
  exact ⟨a, b⟩

/-- Function `sim_weight_to_raw(kg)`: the sum clamped and then converted. -/
theorem sim_weight_to_raw_eq (h : Hx) (kg : ℚ) :
    sim_weight_to_raw h kg =
      double_to_float32
        (max (-2147483648) (min 2147483647 ((h.g_offset : ℚ) + h.g_scale * kg))) := by
  simp only [sim_weight_to_raw, gt_iff_lt]
  split_ifs with h1 h2
  · rw [min_eq_left (le_of_lt h1), max_eq_right (by norm_num)]
  · rw [min_eq_right (not_lt.mp h1), max_eq_left (le_of_lt h2)]
  · rw [min_eq_right (not_lt.mp h1), max_eq_right (not_lt.mp h2)]

theorem sim_weight_to_raw_range (h : Hx) (kg : ℚ) :
    -2147483648 ≤ sim_weight_to_raw h kg ∧ sim_weight_to_raw h kg ≤ 2147483648 := by
  rw [sim_weight_to_raw_eq]
  apply double_to_float32_range
  · exact le_max_left _ _
  · exact max_le (by norm_num) (le_trans (min_le_left _ _) (by norm_num))

/-- The simulated raw count is a `float32`. -/
theorem sim_weight_to_raw_float32 (h : Hx) (kg : ℚ) :
    double_to_float32 (sim_weight_to_raw h kg) = sim_weight_to_raw h kg := by
  rw [sim_weight_to_raw_eq]
  exact double_to_float32_idem _

/-- A simulated read writes the two simulation variables only. -/
theorem hx711_read_simulated_fields (h : Hx) :
    (hx711_read_simulated h).2.g_scale = h.g_scale ∧
    (hx711_read_simulated h).2.g_offset = h.g_offset ∧
    (hx711_read_simulated h).2.g_gain = h.g_gain ∧
    (hx711_read_simulated h).2.g_gainValue = h.g_gainValue ∧
    (hx711_read_simulated h).2.g_simulationEnabled = h.g_simulationEnabled ∧
    (hx711_read_simulated h).2.dout = h.dout := by
  simp only [hx711_read_simulated]
  split_ifs <;> exact ⟨rfl, rfl, rfl, rfl, rfl, rfl⟩

/-- A read leaves the scale, the offset, the gain and the simulation switch
as they were. -/
theorem hx711_read_fields (h h1 : Hx) (r : ℚ) (hr : hx711_read h = some (r, h1)) :
    h1.g_scale = h.g_scale ∧ h1.g_offset = h.g_offset ∧ h1.g_gain = h.g_gain ∧
    h1.g_gainValue = h.g_gainValue ∧ h1.g_simulationEnabled = h.g_simulationEnabled := by
  unfold hx711_read at hr
  split_ifs at hr with hsim
  · simp only [Option.some.injEq] at hr
    obtain ⟨g1, g2, g3, g4, g5, _⟩ := hx711_read_simulated_fields h
    rw [hr] at g1 g2 g3 g4 g5
    exact ⟨g1, g2, g3, g4, g5⟩
  · split at hr
    · cases hr
    · simp only [Option.some.injEq, Prod.mk.injEq] at hr
      rw [← hr.2]
      exact ⟨rfl, rfl, rfl, rfl, rfl⟩

/-- Every reading lies between `-2^31` and `2^31`. -/
theorem hx711_read_range (h h1 : Hx) (r : ℚ) (hr : hx711_read h = some (r, h1)) :
    -2147483648 ≤ r ∧ r ≤ 2147483648 := by
  unfold hx711_read at hr
  split_ifs at hr with hsim
  · simp only [Option.some.injEq] at hr
    have e : r = (hx711_read_simulated h).1 := by rw [hr]
    rw [e]
    simp only [hx711_read_simulated]
    exact sim_weight_to_raw_range _ _
  · split at hr
    · cases hr
    · rename_i v rest hh
      simp only [Option.some.injEq, Prod.mk.injEq] at hr
      obtain ⟨g1, g2⟩ := hx711_read_hardware_range _ _ _ hh
      rw [← hr.1]
      constructor
      · exact_mod_cast g1
      · have : v ≤ 2147483648 := by omega
        exact_mod_cast this

/-- Every reading is a `float32`. -/
theorem hx711_read_float32 (h h1 : Hx) (r : ℚ) (hr : hx711_read h = some (r, h1)) :
    double_to_float32 r = r := by
  unfold hx711_read at hr
  split_ifs at hr with hsim
  · simp only [Option.some.injEq] at hr
    have e : r = (hx711_read_simulated h).1 := by rw [hr]
    rw [e]
    simp only [hx711_read_simulated]
    exact sim_weight_to_raw_float32 _ _
  · split at hr
    · cases hr
    · rename_i v rest hh
      simp only [Option.some.injEq, Prod.mk.injEq] at hr
      obtain ⟨g1, g2⟩ := hx711_read_hardware_range24 _ _ _ hh
      rw [← hr.1]
      exact double_to_float32_int v (by omega) (by omega)

/-- With the simulation enabled a read always has a result. -/
theorem hx711_read_sim (h : Hx) (hsim : h.g_simulationEnabled ≠ 0) :
    hx711_read h = some (hx711_read_simulated h) := by
  simp only [hx711_read, if_pos hsim]

/-- With the simulation disabled a read is the real-hardware branch. -/
theorem hx711_read_hw (h : Hx) (hsim : h.g_simulationEnabled = 0) (v : Int) (rest : List Bool)
    (hh : hx711_read_hardware h.dout = some (v, rest)) :
    hx711_read h = some ((v : ℚ), { h with dout := rest }) := by
  simp only [hx711_read, hsim, ne_eq, not_true_eq_false, if_false, hh]

/-- Consecutive reads leave the scale, the offset, the gain and the
simulation switch as they were, give as many readings as calls, each a
`float32` between `-2^31` and `2^31`. -/
theorem hx711_reads_fields : ∀ (n : Nat) (h h1 : Hx) (rs : List ℚ),
    hx711_reads n h = some (rs, h1) →
    (h1.g_scale = h.g_scale ∧ h1.g_offset = h.g_offset ∧ h1.g_gain = h.g_gain ∧
      h1.g_gainValue = h.g_gainValue ∧ h1.g_simulationEnabled = h.g_simulationEnabled) ∧
    rs.length = n ∧
    ∀ r ∈ rs, (-2147483648 ≤ r ∧ r ≤ 2147483648) ∧ double_to_float32 r = r := by
  intro n
  induction n with
  | zero =>
    intro h h1 rs hr
    simp only [hx711_reads, Option.some.injEq, Prod.mk.injEq] at hr
    rw [← hr.1, ← hr.2]
    exact ⟨⟨rfl, rfl, rfl, rfl, rfl⟩, rfl, by simp⟩
  | succ n ih =>
    intro h h1 rs hr
    simp only [hx711_reads] at hr
    split at hr
    · cases hr
    · rename_i r ha hread
      split at hr
      · cases hr
      · rename_i rs1 hb hreads
        simp only [Option.some.injEq, Prod.mk.injEq] at hr
        obtain ⟨⟨a1, a2, a3, a4, a5⟩, a6, a7⟩ := ih ha hb rs1 hreads
        obtain ⟨b1, b2, b3, b4, b5⟩ := hx711_read_fields h ha r hread
        rw [← hr.1, ← hr.2]
        refine ⟨⟨a1.trans b1, a2.trans b2, a3.trans b3, a4.trans b4, a5.trans b5⟩, ?_, ?_⟩
        · simp [a6]
        · intro x hx
          rcases List.mem_cons.mp hx with hx | hx
          · rw [hx]
            exact ⟨hx711_read_range h ha r hread, hx711_read_float32 h ha r hread⟩
          · exact a7 x hx

/-- The averaging loop adds up the readings of its reads. -/
theorem hx711_readaverage_loop_of_reads : ∀ (n : Nat) (sum : ℚ) (h h1 : Hx) (rs : List ℚ),
    hx711_reads n h = some (rs, h1) →
    hx711_readaverage_loop n sum h = some (sum + rs.sum, h1) := by
  intro n
  induction n with
  | zero =>
    intro sum h h1 rs hr
    simp only [hx711_reads, Option.some.injEq, Prod.mk.injEq] at hr
    rw [← hr.1, ← hr.2]
    simp [hx711_readaverage_loop]
  | succ n ih =>
    intro sum h h1 rs hr
    simp only [hx711_reads] at hr
    split at hr
    · cases hr
    · rename_i r ha hread
      split at hr
      · cases hr
      · rename_i rs1 hb hreads
        simp only [Option.some.injEq, Prod.mk.injEq] at hr
        rw [← hr.1, ← hr.2]
        simp only [hx711_readaverage_loop, hread, ih (sum + r) ha hb rs1 hreads, List.sum_cons,
          add_assoc]

/-- The averaging loop has a result only when its reads have. -/
theorem hx711_reads_of_readaverage_loop : ∀ (n : Nat) (sum : ℚ) (h h1 : Hx) (t : ℚ),
    hx711_readaverage_loop n sum h = some (t, h1) →
    ∃ rs, hx711_reads n h = some (rs, h1) := by
  intro n
  induction n with
  | zero =>
    intro sum h h1 t hr
    simp only [hx711_readaverage_loop, Option.some.injEq, Prod.mk.injEq] at hr
    exact ⟨[], by simp [hx711_reads, hr.2]⟩
  | succ n ih =>
    intro sum h h1 t hr
    simp only [hx711_readaverage_loop] at hr
    split at hr
    · cases hr
    · rename_i r ha hread
      obtain ⟨rs, hrs⟩ := ih (sum + r) ha h1 t hr
      exact ⟨r :: rs, by simp [hx711_reads, hread, hrs]⟩

/-- Function `hx711_readaverage(times)` for `times >= 1`: the sum of the
readings divided by `times`, as a `float32`. -/
theorem hx711_readaverage_of_reads (n : Nat) (h h1 : Hx) (rs : List ℚ) (hn : n ≠ 0)
    (hr : hx711_reads n h = some (rs, h1)) :
    hx711_readaverage h n = some (double_to_float32 (rs.sum / (n : ℚ)), h1) := by
  simp only [hx711_readaverage, if_neg hn, hx711_readaverage_loop_of_reads n 0 h h1 rs hr,
    zero_add]

/-- A single read seen as one-element sequence of reads. -/
theorem hx711_reads_one (h h1 : Hx) (r : ℚ) (hr : hx711_read h = some (r, h1)) :
    hx711_reads 1 h = some ([r], h1) := by
  simp [hx711_reads, hr]

theorem float32_to_sint32_of_range (x : ℚ) (h1 : -2147483648 ≤ x) (h2 : x ≤ 2147483647) :
    float32_to_sint32 x = if 0 ≤ x then ⌊x⌋ else -⌊-x⌋ := by
  unfold float32_to_sint32
  apply int32_round_trip
  · split_ifs with h0
    · have : (0 : ℤ) ≤ ⌊x⌋ := Int.floor_nonneg.mpr h0
      omega
    · have hx : -x ≤ 2147483648 := by linarith
      have : ⌊-x⌋ ≤ 2147483648 := by
        have hf : ⌊-x⌋ ≤ ⌊(2147483648 : ℚ)⌋ := Int.floor_le_floor hx
        simpa using hf
      omega
  · split_ifs with h0
    · have : ⌊x⌋ ≤ 2147483647 := by
        have hf : ⌊x⌋ ≤ ⌊(2147483647 : ℚ)⌋ := Int.floor_le_floor h2
        simpa using hf
      omega
    · have h0' : x < 0 := not_le.mp h0
      have : (0 : ℤ) ≤ ⌊-x⌋ := Int.floor_nonneg.mpr (by linarith)
      omega

/-- With the simulation disabled, consecutive reads are consecutive runs of
the real-hardware branch on the DOUT trace. -/
theorem hx711_reads_hw : ∀ (n : Nat) (h : Hx) (vs : List Int) (rest : List Bool),
    h.g_simulationEnabled = 0 → hx711_reads_hardware n h.dout = some (vs, rest) →
    hx711_reads n h = some (List.map (fun v : Int => (v : ℚ)) vs, { h with dout := rest }) := by
  intro n
  induction n with
  | zero =>
    intro h vs rest _ hr
    simp only [hx711_reads_hardware, Option.some.injEq, Prod.mk.injEq] at hr
    rw [← hr.1, ← hr.2]
    rfl
  | succ n ih =>
    intro h vs rest hsim hr
    simp only [hx711_reads_hardware] at hr
    split at hr
    · cases hr
    · rename_i v p1 hread
      split at hr
      · cases hr
      · rename_i vs1 p2 hreads
        simp only [Option.some.injEq, Prod.mk.injEq] at hr
        rw [← hr.1, ← hr.2]
        have e := ih { h with dout := p1 } vs1 p2 hsim hreads
        simp only [hx711_reads, hx711_read_hw h hsim v p1 hread, e, List.map_cons]

/-- A call of `hx711_readaverage` with a result leaves the scale, the offset,
the gain and the simulation switch as they were. -/
theorem hx711_readaverage_fields (h h1 : Hx) (n : Nat) (avg : ℚ)
    (hr : hx711_readaverage h n = some (avg, h1)) :
    h1.g_scale = h.g_scale ∧ h1.g_offset = h.g_offset ∧ h1.g_gain = h.g_gain ∧
    h1.g_gainValue = h.g_gainValue ∧ h1.g_simulationEnabled = h.g_simulationEnabled := by
  simp only [hx711_readaverage] at hr
  split at hr
  · cases hr
  · rename_i sum h2 hloop
    simp only [Option.some.injEq, Prod.mk.injEq] at hr
    obtain ⟨rs, hrs⟩ := hx711_reads_of_readaverage_loop _ 0 h h2 sum hloop
    rw [← hr.2]
    exact (hx711_reads_fields _ h h2 rs hrs).1

/-- Function `hx711_calibrate1setoffset()` on ten reads with a result. -/
theorem calibrate1setoffset_of_reads (h h1 : Hx) (rs : List ℚ)
    (hr : hx711_reads 10 h = some (rs, h1)) :
    hx711_calibrate1setoffset h =
      some { h1 with g_offset := float32_to_sint32 (double_to_float32 (rs.sum / 10)) } := by
  simp only [hx711_calibrate1setoffset, hx711_readaverage_of_reads 10 h h1 rs (by decide) hr,
    Nat.cast_ofNat]

/-- Function `hx711_calibrate2setscale(knownWeight)` for a positive weight on
ten reads with a result. -/
theorem calibrate2setscale_of_reads (h h1 : Hx) (rs : List ℚ) (w : ℚ) (hw : 0 < w)
    (hr : hx711_reads 10 h = some (rs, h1)) :
    hx711_calibrate2setscale h w =
      some { h1 with g_scale :=
        if ((uint32_to_int32 (int32_to_uint32
            (float32_to_sint32 (double_to_float32 (rs.sum / 10)) - h.g_offset)) : Int) : ℚ) / w
            = 0 then 1
        else ((uint32_to_int32 (int32_to_uint32
            (float32_to_sint32 (double_to_float32 (rs.sum / 10)) - h.g_offset)) : Int) : ℚ)
              / w } := by
  have ho : h1.g_offset = h.g_offset := (hx711_reads_fields 10 h h1 rs hr).1.2.1
  simp only [hx711_calibrate2setscale, if_neg (not_le.mpr hw),
    hx711_readaverage_of_reads 10 h h1 rs (by decide) hr, Nat.cast_ofNat, ho]
  split_ifs <;> rfl

/-- A rejected span call: a weight `<= 0` leaves the driver as it is. -/
theorem calibrate2setscale_rejects (h : Hx) (w : ℚ) (hw : w ≤ 0) :
    hx711_calibrate2setscale h w = some h := by
  simp only [hx711_calibrate2setscale, if_pos hw]

/-- Function `hx711_readaverage(1)` returns the reading of its read. -/
theorem hx711_readaverage_one (h h1 : Hx) (r : ℚ) (hr : hx711_read h = some (r, h1)) :
    hx711_readaverage h 1 = some (r, h1) := by
  have e := hx711_readaverage_of_reads 1 h h1 [r] (by decide) (hx711_reads_one h h1 r hr)
  simp only [List.sum_cons, List.sum_nil, add_zero, Nat.cast_one, div_one] at e
  rw [e, hx711_read_float32 h h1 r hr]

/-- Function `hx711_getweight()` on a read with a result: the `float32`
difference of the reading and the offset, divided by the scale, not below 0. -/
theorem getweight_of_read (h h1 : Hx) (r : ℚ) (hr : hx711_read h = some (r, h1)) :
    hx711_getweight h =
      some ((if h.g_scale ≠ 0 then
          max 0 (double_to_float32 (r - double_to_float32 (h.g_offset : ℚ)) / h.g_scale)
        else 0), h1) := by
  obtain ⟨g1, g2, _⟩ := hx711_read_fields h h1 r hr
  simp only [hx711_getweight, hx711_readaverage_one h h1 r hr, g1, g2]
  by_cases hs : h.g_scale = 0
  · simp [hs]
  · simp only [ne_eq, hs, not_false_eq_true, if_true]
    by_cases hneg : double_to_float32 (r - double_to_float32 (h.g_offset : ℚ)) / h.g_scale < 0
    · rw [if_pos hneg, max_eq_left (le_of_lt hneg)]
    · rw [if_neg hneg, max_eq_right (not_lt.mp hneg)]

/-- One call leaves a non-zero scale non-zero. -/
theorem runHx711Call_scale (h h1 : Hx) (c : Hx711Call) (hs : h.g_scale ≠ 0)
    (hr : runHx711Call h c = some h1) : h1.g_scale ≠ 0 := by
  cases c with
  | init gain scale offset =>
    simp only [runHx711Call, Option.some.injEq] at hr
    rw [← hr]
    simp only [hx711_init]
    split_ifs <;> simp_all
  | setscale scale =>
    simp only [runHx711Call, Option.some.injEq] at hr
    rw [← hr]
    simp only [hx711_setscale]
    split_ifs <;> simp_all
  | setoffset offset =>
    simp only [runHx711Call, Option.some.injEq] at hr
    rw [← hr]
    exact hs
  | calibrate1setoffset =>
    simp only [runHx711Call, hx711_calibrate1setoffset] at hr
    split at hr
    · cases hr
    · rename_i avg h2 hav
      simp only [Option.some.injEq] at hr
      rw [← hr]
      simp only
      rw [(hx711_readaverage_fields h h2 10 avg hav).1]
      exact hs
  | calibrate2setscale knownWeight =>
    simp only [runHx711Call, hx711_calibrate2setscale] at hr
    split_ifs at hr with hw
    · simp only [Option.some.injEq] at hr
      rw [← hr]
      exact hs
    · split at hr
      · cases hr
      · split_ifs at hr with hz
        · simp only [Option.some.injEq] at hr
          rw [← hr]
          simp
        · simp only [Option.some.injEq] at hr
          rw [← hr]
          exact hz
  | taretozero =>
    simp only [runHx711Call, hx711_taretozero, hx711_calibrate1setoffset] at hr
    split at hr
    · cases hr
    · rename_i avg h2 hav
      simp only [Option.some.injEq] at hr
      rw [← hr]
      simp only
      rw [(hx711_readaverage_fields h h2 10 avg hav).1]
      exact hs
  | enableSimulation =>
    simp only [runHx711Call, Option.some.injEq] at hr
    rw [← hr]
    exact hs
  | disableSimulation =>
    simp only [runHx711Call, Option.some.injEq] at hr
    rw [← hr]
    exact hs

/-- A sequence of calls leaves a non-zero scale non-zero. -/
theorem runHx711Calls_scale : ∀ (calls : List Hx711Call) (h h1 : Hx), h.g_scale ≠ 0 →
    runHx711Calls calls h = some h1 → h1.g_scale ≠ 0 := by
  intro calls
  induction calls with
  | nil =>
    intro h h1 hs hr
    simp only [runHx711Calls, Option.some.injEq] at hr
    rw [← hr]
    exact hs
  | cons c cs ih =>
    intro h h1 hs hr
    simp only [runHx711Calls] at hr
    split at hr
    · cases hr
    · rename_i h2 hc
      exact ih h2 h1 (runHx711Call_scale h h2 c hs hc) hr

/-- The span step with a positive weight, on ten reads with a result and a
difference `A - o` that fits a `sint32`, `A` being the integer that the average
of `hx711_readaverage` converts to: the scale becomes the one the specification
describes, the offset and the gain stay. -/
theorem calibrate2setscale_in_range (h h1 : Hx) (rs : List ℚ) (w : ℚ) (hw : 0 < w)
    (hr : hx711_reads 10 h = some (rs, h1))
    (hlo : -2 ^ 31 ≤ float32_to_sint32 (double_to_float32 (rs.sum / 10)) - hx711_getoffset h)
    (hhi : float32_to_sint32 (double_to_float32 (rs.sum / 10)) - hx711_getoffset h < 2 ^ 31) :
    hx711_calibrate2setscale h w =
      some { h1 with g_scale :=
        hx711_span_scale_spec (float32_to_sint32 (double_to_float32 (rs.sum / 10))) (hx711_getoffset h) w } ∧
    h1.g_offset = h.g_offset ∧ h1.g_gain = h.g_gain ∧ h1.g_gainValue = h.g_gainValue := by
  obtain ⟨⟨_, g2, g3, g4, _⟩, _, _⟩ := hx711_reads_fields 10 h h1 rs hr
  refine ⟨?_, g2, g3, g4⟩
  simp only [hx711_getoffset] at hlo hhi ⊢
  rw [calibrate2setscale_of_reads h h1 rs w hw hr, int32_round_trip _ hlo hhi]
  simp only [hx711_span_scale_spec, Int.cast_sub]

/-- With the simulation enabled every sequence of reads has a result. -/
theorem hx711_reads_sim_total : ∀ (n : Nat) (h : Hx), h.g_simulationEnabled ≠ 0 →
    ∃ rs h1, hx711_reads n h = some (rs, h1) := by
  intro n
  induction n with
  | zero => intro h _; exact ⟨[], h, rfl⟩
  | succ n ih =>
    intro h hsim
    have hs : (hx711_read_simulated h).2.g_simulationEnabled ≠ 0 := by
      rw [(hx711_read_simulated_fields h).2.2.2.2.1]
      exact hsim
    obtain ⟨rs, h1, e⟩ := ih (hx711_read_simulated h).2 hs
    exact ⟨(hx711_read_simulated h).1 :: rs, h1, by
      simp only [hx711_reads, hx711_read_sim h hsim, e]⟩

/-- With the simulation enabled `hx711_getweight`, `hx711_calibrate1setoffset` and
`hx711_calibrate2setscale` always have a result. -/
theorem hx711_sim_total (h : Hx) (w : ℚ) (hsim : h.g_simulationEnabled ≠ 0) :
    (∃ x h1, hx711_getweight h = some (x, h1)) ∧
    (∃ h1, hx711_calibrate1setoffset h = some h1) ∧
    (∃ h1, hx711_calibrate2setscale h w = some h1) := by
  obtain ⟨rs1, g1, e1⟩ := hx711_reads_sim_total 1 h hsim
  obtain ⟨rs, g, e⟩ := hx711_reads_sim_total 10 h hsim
  refine ⟨?_, ⟨_, calibrate1setoffset_of_reads h g rs e⟩, ?_⟩
  · simp only [hx711_getweight, hx711_readaverage_of_reads 1 h g1 rs1 (by decide) e1]
    exact ⟨_, _, rfl⟩
  · by_cases hw : w ≤ 0
    · exact ⟨h, calibrate2setscale_rejects h w hw⟩
    · exact ⟨_, calibrate2setscale_of_reads h g rs w (not_le.mp hw) e⟩

/-- The conversion to `sint32` of an integer of the `sint32` range. -/
theorem float32_to_sint32_int (z : Int) (h1 : -2147483648 ≤ z) (h2 : z ≤ 2147483647) :
    float32_to_sint32 (z : ℚ) = z := by
  rw [float32_to_sint32_of_range _ (by exact_mod_cast h1) (by exact_mod_cast h2)]
  split_ifs
  · exact Int.floor_intCast z
  · rw [← Int.cast_neg, Int.floor_intCast, neg_neg]

/-- A sequence of calls runs its first call and then the rest. -/
theorem runHx711Calls_cons (c : Hx711Call) (cs : List Hx711Call) (h h1 : Hx)
    (hc : runHx711Call h c = some h1) :
    runHx711Calls (c :: cs) h = runHx711Calls cs h1 := by
  simp only [runHx711Calls, hc]

/-! ## Lemmas on the simulation -/

/-- C25: the scale of the driver starts at `1.0`, and after every sequence of
`hx711_init`, `hx711_setscale`, `hx711_setoffset`, `hx711_calibrate1setoffset`,
`hx711_calibrate2setscale`, `hx711_taretozero` and simulation on/off calls, with
any arguments and on any DOUT trace, `hx711_getscale` is not `0.0`. -/
theorem C25_scale_never_zero (dout : List Bool) (calls : List Hx711Call) (h : Hx)
    (hrun : runHx711Calls calls (hx711_startup dout) = some h) :
    hx711_getscale (hx711_startup dout) = 1 ∧ hx711_getscale h ≠ 0 :=
  ⟨rfl, runHx711Calls_scale calls (hx711_startup dout) h
    (by simp only [hx711_startup, ne_eq, one_ne_zero, not_false_eq_true]) hrun⟩

/-- C25 on the real hardware: after `hx711_init(64, 0.0, 5)`, a tare on ten
readings of 1000, a span with 2 kg on ten more readings of 1000, whose quotient
is zero, and `hx711_setscale(0.0)`, the scale is 1. -/
theorem C25_scale_never_zero_witness :
    runHx711Calls
        [Hx711Call.init 64 0 5, Hx711Call.calibrate1setoffset,
          Hx711Call.calibrate2setscale 2, Hx711Call.setscale 0]
        (hx711_startup (List.replicate 20 (hx711_frame 1000)).flatten)
      = some { hx711_startup [] with g_gain := 3, g_offset := 1000, g_gainValue := 64 } ∧
    hx711_getscale (hx711_startup (List.replicate 20 (hx711_frame 1000)).flatten) = 1 ∧
    hx711_getscale
      { hx711_startup [] with g_gain := 3, g_offset := 1000, g_gainValue := 64 } ≠ 0 :=
  have h1 : hx711_calibrate1setoffset
      (hx711_init (hx711_startup (List.replicate 20 (hx711_frame 1000)).flatten) 64 0 5) =
      some { hx711_startup (List.replicate 10 (hx711_frame 1000)).flatten with
        g_gain := 3, g_offset := 1000, g_gainValue := 64 } := by
    rw [calibrate1setoffset_of_reads _ _ _
      (hx711_reads_hw 10 _ (List.replicate 10 1000)
        (List.replicate 10 (hx711_frame 1000)).flatten rfl (by decide))]
    have e : float32_to_sint32 (double_to_float32
        ((List.map (fun v : Int => (v : ℚ)) (List.replicate 10 1000)).sum / 10)) = 1000 := by
      have es : (List.map (fun v : Int => (v : ℚ)) (List.replicate 10 1000)).sum / 10
          = ((1000 : Int) : ℚ) := by norm_num
      rw [es, double_to_float32_int 1000 (by norm_num) (by norm_num)]
      exact float32_to_sint32_int 1000 (by norm_num) (by norm_num)
    rw [e]
    simp [hx711_init, hx711_startup, HX711_GAINCHANNELA128, HX711_GAINCHANNELA64]
  have h2 : hx711_calibrate2setscale
      { hx711_startup (List.replicate 10 (hx711_frame 1000)).flatten with
        g_gain := 3, g_offset := 1000, g_gainValue := 64 } 2 =
      some { hx711_startup [] with g_gain := 3, g_offset := 1000, g_gainValue := 64 } := by
    have e : float32_to_sint32 (double_to_float32
        ((List.map (fun v : Int => (v : ℚ)) (List.replicate 10 1000)).sum / 10)) = 1000 := by
      have es : (List.map (fun v : Int => (v : ℚ)) (List.replicate 10 1000)).sum / 10
          = ((1000 : Int) : ℚ) := by norm_num
      rw [es, double_to_float32_int 1000 (by norm_num) (by norm_num)]
      exact float32_to_sint32_int 1000 (by norm_num) (by norm_num)
    rw [(calibrate2setscale_in_range _ _ _ 2 (by norm_num)
      (hx711_reads_hw 10 _ (List.replicate 10 1000) [] rfl (by decide))
      (by rw [e]; simp [hx711_getoffset]) (by rw [e]; simp [hx711_getoffset])).1, e]
    simp [hx711_span_scale_spec, hx711_getoffset, hx711_startup]
  have hrun : runHx711Calls
      [Hx711Call.init 64 0 5, Hx711Call.calibrate1setoffset,
        Hx711Call.calibrate2setscale 2, Hx711Call.setscale 0]
      (hx711_startup (List.replicate 20 (hx711_frame 1000)).flatten)
      = some { hx711_startup [] with g_gain := 3, g_offset := 1000, g_gainValue := 64 } := by
    have r1 : runHx711Call
        (hx711_init (hx711_startup (List.replicate 20 (hx711_frame 1000)).flatten) 64 0 5)
        Hx711Call.calibrate1setoffset = _ := h1
    have r2 : runHx711Call
        { hx711_startup (List.replicate 10 (hx711_frame 1000)).flatten with
          g_gain := 3, g_offset := 1000, g_gainValue := 64 }
        (Hx711Call.calibrate2setscale 2) = _ := h2
    rw [runHx711Calls_cons (Hx711Call.init 64 0 5) _ _ _ rfl,
      runHx711Calls_cons Hx711Call.calibrate1setoffset _ _ _ r1,
      runHx711Calls_cons (Hx711Call.calibrate2setscale 2) _ _ _ r2,
      runHx711Calls_cons (Hx711Call.setscale 0) _ _ _ rfl]
    simp [runHx711Calls, hx711_setscale]
  ⟨hrun, C25_scale_never_zero _ _ _ hrun⟩

/-! ## C26: a request for the scale `0.0` -/

/-- C26 (fails on the code): from the driver with scale `2.0`,
`hx711_init(128, 0.0, 0)` leaves the scale `1.0`, not the previous `2.0`. -/
theorem C26_init_zero_scale_counterexample :
    hx711_getscale (hx711_setscale (hx711_startup []) 2) = 2 ∧
    hx711_getscale
      (hx711_init (hx711_setscale (hx711_startup []) 2) HX711_GAINCHANNELA128 0 0) = 1 ∧
    hx711_getscale
      (hx711_init (hx711_setscale (hx711_startup []) 2) HX711_GAINCHANNELA128 0 0) ≠
        hx711_getscale (hx711_setscale (hx711_startup []) 2) := by
  have e1 : hx711_getscale (hx711_setscale (hx711_startup []) 2) = 2 := by
    simp [hx711_getscale, hx711_setscale]
  have e2 : hx711_getscale
      (hx711_init (hx711_setscale (hx711_startup []) 2) HX711_GAINCHANNELA128 0 0) = 1 := by
    simp [hx711_getscale, hx711_init, HX711_GAINCHANNELA128]
  refine ⟨e1, e2, ?_⟩
  rw [e1, e2]
  norm_num

/-- C26 (amended): for every driver state with scale `s`, `hx711_setscale(0.0)`
leaves `hx711_getscale()` equal to `s`, and `hx711_init(gain, 0.0, offset)` sets it
to the default `1.0` for every gain and offset. -/
theorem C26_zero_scale_request (h : Hx) (gain : Nat) (offset : Int) :
    hx711_getscale (hx711_setscale h 0) = hx711_getscale h ∧
    hx711_getscale (hx711_init h gain 0 offset) = 1 := by
  constructor
  · simp [hx711_getscale, hx711_setscale]
  · simp only [hx711_getscale, hx711_init]
    split_ifs <;> rfl

/-! ## C27: the calibrated weight -/

/-- C27 (fails on the code): with the scale `-1`, the offset `16777217` and a
reading of 1, `hx711_getweight` converts the offset to the `float32`
`16777216`, subtracts in `float32` and returns `16777215`; the quotient
`(r - o) / s` is `16777216`. -/
theorem C27_float32_subtraction_counterexample :
    hx711_getweight (hx711_init (hx711_startup (hx711_frame 1)) 128 (-1) 16777217) =
      some (16777215,
        { hx711_init (hx711_startup (hx711_frame 1)) 128 (-1) 16777217 with dout := [] }) ∧
    hx711_read (hx711_init (hx711_startup (hx711_frame 1)) 128 (-1) 16777217) =
      some (1, { hx711_init (hx711_startup (hx711_frame 1)) 128 (-1) 16777217 with dout := [] }) ∧
    max 0 ((1 - (hx711_getoffset
        (hx711_init (hx711_startup (hx711_frame 1)) 128 (-1) 16777217) : ℚ)) /
      hx711_getscale (hx711_init (hx711_startup (hx711_frame 1)) 128 (-1) 16777217))
      = 16777216 := by
  have hr : hx711_read (hx711_init (hx711_startup (hx711_frame 1)) 128 (-1) 16777217) =
      some (((1 : Int) : ℚ),
        { hx711_init (hx711_startup (hx711_frame 1)) 128 (-1) 16777217 with dout := [] }) :=
    hx711_read_hw _ rfl 1 [] (by decide)
  have e1 : double_to_float32 (16777217 : ℚ) = 16777216 := by
    rw [double_to_float32_eq _ 24 (by norm_num) (by norm_num [abs_of_pos])
      (by norm_num [abs_of_pos])]
    norm_num [float32_roundHalfEven, Int.fract]
  have e2 : double_to_float32 (-16777215 : ℚ) = -16777215 := by
    have := double_to_float32_int (-16777215) (by norm_num) (by norm_num)
    exact_mod_cast this
  refine ⟨?_, by exact_mod_cast hr, ?_⟩
  · rw [getweight_of_read _ _ _ hr]
    simp only [hx711_init, hx711_startup, HX711_GAINCHANNELA128, if_true, Int.cast_one,
      Int.cast_ofNat, e1]
    norm_num [e2]
  · simp [hx711_getoffset, hx711_getscale, hx711_init, HX711_GAINCHANNELA128]
    norm_num

/-- C27 (amended): when the single read of `hx711_getweight` returns `r`, the
offset is `o` and the scale `s` is not zero, the result is `max(0, d / s)`, with
`d` the `float32` difference of `r` and `o`: `o` converted to `float32`, and the
difference rounded to `float32`. When `o` and `r - o` are `float32` values, as
for integers with `|o| <= 2^24` and `|r - o| <= 2^24`, the result is
`max(0, (r - o) / s)`. Whatever the state, a result of `hx711_getweight` is
never negative; and the result is 0 when `r - o` and `s` have opposite
signs. -/
theorem C27_getweight (h h1 : Hx) (r : ℚ) (hr : hx711_read h = some (r, h1))
    (hs : hx711_getscale h ≠ 0) :
    hx711_getweight h =
      some (max 0 (double_to_float32 (r - double_to_float32 (hx711_getoffset h : ℚ)) /
        hx711_getscale h), h1) ∧
    (double_to_float32 (hx711_getoffset h : ℚ) = (hx711_getoffset h : ℚ) →
      double_to_float32 (r - (hx711_getoffset h : ℚ)) = r - (hx711_getoffset h : ℚ) →
      hx711_getweight h =
        some (max 0 ((r - (hx711_getoffset h : ℚ)) / hx711_getscale h), h1)) ∧
    (∀ z : Int, r = (z : ℚ) → -16777216 ≤ hx711_getoffset h → hx711_getoffset h ≤ 16777216 →
      -16777216 ≤ z - hx711_getoffset h → z - hx711_getoffset h ≤ 16777216 →
      hx711_getweight h =
        some (max 0 ((r - (hx711_getoffset h : ℚ)) / hx711_getscale h), h1)) ∧
    (∀ g w g1, hx711_getweight g = some (w, g1) → 0 ≤ w) ∧
    ((0 < r - (hx711_getoffset h : ℚ) ∧ hx711_getscale h < 0) ∨
      (r - (hx711_getoffset h : ℚ) < 0 ∧ 0 < hx711_getscale h) →
      hx711_getweight h = some (0, h1)) := by
  have e := getweight_of_read h h1 r hr
  have hf := hx711_read_float32 h h1 r hr
  simp only [hx711_getscale, hx711_getoffset] at hs ⊢
  rw [if_pos hs] at e
  have hexact : double_to_float32 (h.g_offset : ℚ) = (h.g_offset : ℚ) →
      double_to_float32 (r - (h.g_offset : ℚ)) = r - (h.g_offset : ℚ) →
      hx711_getweight h = some (max 0 ((r - (h.g_offset : ℚ)) / h.g_scale), h1) := by
    intro a b
    rw [e, a, b]
  refine ⟨e, hexact, ?_, ?_, ?_⟩
  · intro z hz o1 o2 d1 d2
    apply hexact
    · exact double_to_float32_int _ o1 o2
    · have := double_to_float32_int (z - h.g_offset) d1 d2
      rw [hz]
      exact_mod_cast this
  · intro g w g1 hg
    simp only [hx711_getweight] at hg
    split at hg
    · cases hg
    · simp only [Option.some.injEq, Prod.mk.injEq] at hg
      rw [← hg.1]
      split_ifs with h1 h2 h3
      · exact le_refl 0
      · exact not_lt.mp h2
      · exact le_refl 0
      · exact le_refl 0
  · intro hsign
    rw [e]
    have hneg : double_to_float32 (r - double_to_float32 (h.g_offset : ℚ)) / h.g_scale ≤ 0 := by
      rcases hsign with ⟨a, b⟩ | ⟨a, b⟩
      · have m := double_to_float32_mono (h.g_offset : ℚ) r (by linarith)
        rw [hf] at m
        exact div_nonpos_of_nonneg_of_nonpos
          (double_to_float32_nonneg _ (by linarith)) (le_of_lt b)
      · have m := double_to_float32_mono r (h.g_offset : ℚ) (by linarith)
        rw [hf] at m
        exact div_nonpos_of_nonpos_of_nonneg
          (double_to_float32_nonpos _ (by linarith)) (le_of_lt b)
    rw [max_eq_left hneg]

/-- C27 on the real hardware with offset 1000 and scale 2000: a reading of
3000 weighs `(3000 - 1000) / 2000 = 1`, and a reading of 500, below the
offset, weighs 0. -/
theorem C27_getweight_witness :
    hx711_getweight (hx711_init (hx711_startup (hx711_frame 3000)) 128 2000 1000) =
      some (1, { hx711_init (hx711_startup (hx711_frame 3000)) 128 2000 1000 with dout := [] }) ∧
    hx711_getweight (hx711_init (hx711_startup (hx711_frame 500)) 128 2000 1000) =
      some (0, { hx711_init (hx711_startup (hx711_frame 500)) 128 2000 1000 with dout := [] }) :=
  ⟨by
    rw [(C27_getweight (hx711_init (hx711_startup (hx711_frame 3000)) 128 2000 1000) _ _
      (hx711_read_hw _ rfl 3000 [] (by decide))
      (by simp [hx711_getscale, hx711_init, HX711_GAINCHANNELA128])).2.2.1 3000 rfl
      (by simp [hx711_getoffset, hx711_init, HX711_GAINCHANNELA128])
      (by simp [hx711_getoffset, hx711_init, HX711_GAINCHANNELA128])
      (by simp [hx711_getoffset, hx711_init, HX711_GAINCHANNELA128])
      (by simp [hx711_getoffset, hx711_init, HX711_GAINCHANNELA128])]
    simp [hx711_getscale, hx711_getoffset, hx711_init, HX711_GAINCHANNELA128]
    norm_num,
   (C27_getweight (hx711_init (hx711_startup (hx711_frame 500)) 128 2000 1000) _ _
      (hx711_read_hw _ rfl 500 [] (by decide))
      (by simp [hx711_getscale, hx711_init, HX711_GAINCHANNELA128])).2.2.2.2
      (Or.inr (by simp [hx711_getscale, hx711_getoffset, hx711_init, HX711_GAINCHANNELA128];
                  norm_num))⟩

/-! ## C28: tare -/

/-- C29 (fails on the code): with the offset `-2147483648` and ten readings of
1, whose integer average is 1, `hx711_calibrate2setscale(1.0)` computes `1 - o` in
32 bits, where it is `-2147483647`, and sets the scale to `-2147483647`; the
quotient `(A - o) / w` of the specification is `2147483649`. -/
theorem C29_span_sint32_overflow :
    hx711_calibrate2setscale
        (hx711_setoffset (hx711_startup (List.replicate 10 (hx711_frame 1)).flatten)
          (-2147483648)) 1
      = some { hx711_startup [] with g_offset := -2147483648, g_scale := -2147483647 } ∧
    float32_to_sint32 ((List.map (fun v : Int => (v : ℚ)) (List.replicate 10 1)).sum / 10) = 1 ∧
    hx711_span_scale_spec 1 (-2147483648) 1 = 2147483649 := by
  have es : (List.map (fun v : Int => (v : ℚ)) (List.replicate 10 1)).sum / 10
      = ((1 : Int) : ℚ) := by norm_num
  have e : float32_to_sint32
      ((List.map (fun v : Int => (v : ℚ)) (List.replicate 10 1)).sum / 10) = 1 := by
    rw [es]
    exact float32_to_sint32_int 1 (by norm_num) (by norm_num)
  have e' : float32_to_sint32 (double_to_float32
      ((List.map (fun v : Int => (v : ℚ)) (List.replicate 10 1)).sum / 10)) = 1 := by
    rw [es, double_to_float32_int 1 (by norm_num) (by norm_num)]
    exact float32_to_sint32_int 1 (by norm_num) (by norm_num)
  have ew : uint32_to_int32 (int32_to_uint32 (1 - (-2147483648))) = -2147483647 := by decide
  refine ⟨?_, e, ?_⟩
  · rw [calibrate2setscale_of_reads _ _ _ 1 (by norm_num)
      (hx711_reads_hw 10 _ (List.replicate 10 1) [] rfl (by decide)), e']
    simp only [hx711_setoffset, ew]
    norm_num [hx711_startup]
  · norm_num [hx711_span_scale_spec]

/-! ## C30: tare, span, weigh -/

/-- C31: after `hx711_init(g, scale, offset)` the pulse count `g_gain`, the
bound of the pulse loop that ends a read, and `hx711_getgain()` are `(1, 128)` for `g = 128`, `(3, 64)` for `g = 64`, `(2, 32)`
for `g = 32` and `(1, 128)` for every other `g`; the three pulse counts of the
valid gains differ from one another. -/
theorem C31_gain_mapping (h : Hx) (g : Nat) (scale : ℚ) (offset : Int) :
    ((hx711_init h HX711_GAINCHANNELA128 scale offset).g_gain = 1 ∧
      hx711_getgain (hx711_init h HX711_GAINCHANNELA128 scale offset) = 128) ∧
    ((hx711_init h HX711_GAINCHANNELA64 scale offset).g_gain = 3 ∧
      hx711_getgain (hx711_init h HX711_GAINCHANNELA64 scale offset) = 64) ∧
    ((hx711_init h HX711_GAINCHANNELB32 scale offset).g_gain = 2 ∧
      hx711_getgain (hx711_init h HX711_GAINCHANNELB32 scale offset) = 32) ∧
    (g ≠ 128 → g ≠ 64 → g ≠ 32 →
      (hx711_init h g scale offset).g_gain = 1 ∧
      hx711_getgain (hx711_init h g scale offset) = 128) ∧
    (hx711_init h HX711_GAINCHANNELA128 scale offset).g_gain ≠
      (hx711_init h HX711_GAINCHANNELA64 scale offset).g_gain ∧
    (hx711_init h HX711_GAINCHANNELA128 scale offset).g_gain ≠
      (hx711_init h HX711_GAINCHANNELB32 scale offset).g_gain ∧
    (hx711_init h HX711_GAINCHANNELA64 scale offset).g_gain ≠
      (hx711_init h HX711_GAINCHANNELB32 scale offset).g_gain := by
  have e1 : (hx711_init h HX711_GAINCHANNELA128 scale offset).g_gain = 1 ∧
      hx711_getgain (hx711_init h HX711_GAINCHANNELA128 scale offset) = 128 := by
    simp [hx711_init, hx711_getgain]
  have e2 : (hx711_init h HX711_GAINCHANNELA64 scale offset).g_gain = 3 ∧
      hx711_getgain (hx711_init h HX711_GAINCHANNELA64 scale offset) = 64 := by
    simp [hx711_init, hx711_getgain, HX711_GAINCHANNELA64, HX711_GAINCHANNELA128]
  have e3 : (hx711_init h HX711_GAINCHANNELB32 scale offset).g_gain = 2 ∧
      hx711_getgain (hx711_init h HX711_GAINCHANNELB32 scale offset) = 32 := by
    simp [hx711_init, hx711_getgain, HX711_GAINCHANNELA64, HX711_GAINCHANNELA128,
      HX711_GAINCHANNELB32]
  refine ⟨e1, e2, e3, ?_, ?_, ?_, ?_⟩
  · intro h128 h64 h32
    simp [hx711_init, hx711_getgain, HX711_GAINCHANNELA64, HX711_GAINCHANNELA128,
      HX711_GAINCHANNELB32, h128, h64, h32]
  · rw [e1.1, e2.1]; decide
  · rw [e1.1, e3.1]; decide
  · rw [e2.1, e3.1]; decide

/-- C31 for the gains 0 and 255, neither of them valid. -/
theorem C31_gain_mapping_witness :
    ((hx711_init (hx711_startup []) 0 1 0).g_gain = 1 ∧
      hx711_getgain (hx711_init (hx711_startup []) 0 1 0) = 128) ∧
    ((hx711_init (hx711_init (hx711_startup []) 64 1 0) 255 1 0).g_gain = 1 ∧
      hx711_getgain (hx711_init (hx711_init (hx711_startup []) 64 1 0) 255 1 0) = 128) :=
  ⟨(C31_gain_mapping (hx711_startup []) 0 1 0).2.2.2.1 (by decide) (by decide) (by decide),
   (C31_gain_mapping (hx711_init (hx711_startup []) 64 1 0) 255 1 0).2.2.2.1
     (by decide) (by decide) (by decide)⟩

/-! ## C32: the sampled word and its sign -/

/-- C32: on a DOUT line that is high for any number of samples, then low, and
then shows the 24 levels `bits`, the real-hardware branch of `hx711_read`
shifts in the three bytes that the first, the middle and the last eight
levels spell, and returns the two's-complement value of the 24-bit number `N`
that `bits` spell, most significant bit first: `N` below `2^23`, else
`N - 2^24`; `N` is `d2 * 65536 + d1 * 256 + d0`; and every result of the
branch, on every line, lies in `[-8388608, 8388607]`. -/
theorem C32_sign_extension (wait bits rest : List Bool) (hw : ∀ b ∈ wait, b = true)
    (hl : bits.length = 24) :
    hx711_read_hardware (wait ++ false :: (bits ++ rest)) =
      some ((if hx711_bitsValue bits < 8388608 then (hx711_bitsValue bits : Int)
        else (hx711_bitsValue bits : Int) - 16777216), rest) ∧
    shiftIn_MSB (bits ++ rest) = some (hx711_bitsValue (bits.take 8), bits.drop 8 ++ rest) ∧
    shiftIn_MSB (bits.drop 8 ++ rest)
      = some (hx711_bitsValue ((bits.drop 8).take 8), bits.drop 16 ++ rest) ∧
    shiftIn_MSB (bits.drop 16 ++ rest) = some (hx711_bitsValue (bits.drop 16), rest) ∧
    hx711_bitsValue bits = hx711_bitsValue (bits.take 8) * 65536 +
      hx711_bitsValue ((bits.drop 8).take 8) * 256 + hx711_bitsValue (bits.drop 16) ∧
    (∀ h : Hx, h.g_simulationEnabled = 0 → h.dout = wait ++ false :: (bits ++ rest) →
      hx711_read h = some
        ((((if hx711_bitsValue bits < 8388608 then (hx711_bitsValue bits : Int)
          else (hx711_bitsValue bits : Int) - 16777216) : Int) : ℚ), { h with dout := rest })) ∧
    (∀ pin v r, hx711_read_hardware pin = some (v, r) → -8388608 ≤ v ∧ v ≤ 8388607) := by
  have s1 : bits = bits.take 8 ++ ((bits.drop 8).take 8 ++ bits.drop 16) := by
    have a := (List.take_append_drop 8 bits).symm
    have b := (List.take_append_drop 8 (bits.drop 8)).symm
    rw [List.drop_drop] at b
    rw [← b]
    exact a
  have l2 : (bits.take 8).length = 8 := by simp [hl]
  have l1 : ((bits.drop 8).take 8).length = 8 := by simp [hl]
  have l0 : (bits.drop 16).length = 8 := by simp [hl]
  have s8 : bits.drop 8 = (bits.drop 8).take 8 ++ bits.drop 16 := by
    have b := (List.take_append_drop 8 (bits.drop 8)).symm
    rw [List.drop_drop] at b
    exact b
  have e2 : shiftIn_MSB (bits ++ rest)
      = some (hx711_bitsValue (bits.take 8), bits.drop 8 ++ rest) := by
    have := shiftIn_MSB_spec (bits.take 8) (bits.drop 8 ++ rest) l2
    rwa [← List.append_assoc, List.take_append_drop] at this
  have e1 : shiftIn_MSB (bits.drop 8 ++ rest)
      = some (hx711_bitsValue ((bits.drop 8).take 8), bits.drop 16 ++ rest) := by
    have := shiftIn_MSB_spec ((bits.drop 8).take 8) (bits.drop 16 ++ rest) l1
    rwa [← List.append_assoc, ← s8] at this
  have e0 : shiftIn_MSB (bits.drop 16 ++ rest) = some (hx711_bitsValue (bits.drop 16), rest) :=
    shiftIn_MSB_spec (bits.drop 16) rest l0
  have hN : hx711_bitsValue bits = hx711_bitsValue (bits.take 8) * 65536 +
      hx711_bitsValue ((bits.drop 8).take 8) * 256 + hx711_bitsValue (bits.drop 16) := by
    conv_lhs => rw [s1]
    rw [hx711_bitsValue_append, hx711_bitsValue_append, List.length_append, l1, l0]
    ring
  have b2 := hx711_bitsValue_lt (bits.take 8)
  have b1 := hx711_bitsValue_lt ((bits.drop 8).take 8)
  have b0 := hx711_bitsValue_lt (bits.drop 16)
  rw [l2] at b2
  rw [l1] at b1
  rw [l0] at b0
  have hread : hx711_read_hardware (wait ++ false :: (bits ++ rest)) =
      some ((if hx711_bitsValue bits < 8388608 then (hx711_bitsValue bits : Int)
        else (hx711_bitsValue bits : Int) - 16777216), rest) := by
    have hwait := hx711_read_wait_spec wait (bits ++ rest)
      (wait ++ false :: (bits ++ rest)).length hw (by simp)
    simp only [hx711_read_hardware, hwait, e2, e1, e0]
    rw [hx711_word_spec _ _ _ (by omega) (by omega) (by omega), ← hN]
  refine ⟨hread, e2, e1, e0, hN, ?_,
    fun pin v r hh => hx711_read_hardware_range24 pin r v hh⟩
  intro h hsim hd
  exact hx711_read_hw h hsim _ rest (by rw [hd]; exact hread)

/-- C32 for a line that is high twice, then low, then shows the word
`0x800001`: the branch returns `0x800001 - 2^24 = -8388607`. -/
theorem C32_sign_extension_witness :
    hx711_read_hardware
        ([true, true] ++ false :: ((true :: List.replicate 22 false ++ [true]) ++ [true]))
      = some (-8388607, [true]) :=
  (C32_sign_extension [true, true] (true :: List.replicate 22 false ++ [true]) [true]
    (by decide) (by decide)).1.trans (by decide)

/-! ## C33: averaging -/

/-- C35 (fails on the code): on the start-up state, whose simulation flag is
0, `hx711_startSimulationPattern` leaves the flag 1; after
`hx711_enableSimulation`, `hx711_stopSimulationPattern` leaves it 0. -/
theorem C35_start_stop_write_flag_counterexample :
    (hx711_startup []).g_simulationEnabled = 0 ∧
    (hx711_startSimulationPattern (hx711_startup [])).g_simulationEnabled = 1 ∧
    (hx711_enableSimulation (hx711_startup [])).g_simulationEnabled = 1 ∧
    (hx711_stopSimulationPattern
      (hx711_enableSimulation (hx711_startup []))).g_simulationEnabled = 0 :=
  ⟨rfl, rfl, rfl, rfl⟩

/-- C35 (amended): `hx711_startSimulationPattern` and
`hx711_stopSimulationPattern` set the counter to 0, clear the latch and set the
simulation flag, to 1 and to 0: they do what `hx711_enableSimulation` and
`hx711_disableSimulation` do, and like them leave the scale, the offset and
the gain alone; `hx711_init` also resets the counter and the latch, and leaves
the flag as it was. -/
theorem C35_pattern_control (h : Hx) (gain : Nat) (scale : ℚ) (offset : Int) :
    ((hx711_startSimulationPattern h).g_simTicksMs = 0 ∧
      (hx711_startSimulationPattern h).g_simPatternActive = 0 ∧
      (hx711_startSimulationPattern h).g_simulationEnabled = 1) ∧
    ((hx711_stopSimulationPattern h).g_simTicksMs = 0 ∧
      (hx711_stopSimulationPattern h).g_simPatternActive = 0 ∧
      (hx711_stopSimulationPattern h).g_simulationEnabled = 0) ∧
    hx711_startSimulationPattern h = hx711_enableSimulation h ∧
    hx711_stopSimulationPattern h = hx711_disableSimulation h ∧
    (hx711_getscale (hx711_startSimulationPattern h) = hx711_getscale h ∧
      hx711_getoffset (hx711_startSimulationPattern h) = hx711_getoffset h ∧
      hx711_getgain (hx711_startSimulationPattern h) = hx711_getgain h) ∧
    (hx711_getscale (hx711_stopSimulationPattern h) = hx711_getscale h ∧
      hx711_getoffset (hx711_stopSimulationPattern h) = hx711_getoffset h ∧
      hx711_getgain (hx711_stopSimulationPattern h) = hx711_getgain h) ∧
    ((hx711_init h gain scale offset).g_simTicksMs = 0 ∧
      (hx711_init h gain scale offset).g_simPatternActive = 0 ∧
      (hx711_init h gain scale offset).g_simulationEnabled = h.g_simulationEnabled) := by
  refine ⟨⟨rfl, rfl, rfl⟩, ⟨rfl, rfl, rfl⟩, rfl, rfl, ⟨rfl, rfl, rfl⟩, ⟨rfl, rfl, rfl⟩, ?_⟩
  unfold hx711_init
  split_ifs <;> exact ⟨rfl, rfl, rfl⟩

/-! ## C36: the simulated raw count -/

/-- C37: on every store whose first-time flag cell is not `0xAA`,
`AppData_init` changes the cells 0..4 to "0000" and its terminator and no other
cell, because `AppData_saveItemPrice` with the index 0 of the first loop pass
returns `APPDATA_INVALID_INDEX`, with which `AppData_initializeDefaults` returns;
`AppData_isFirstTime` still returns 1 and the error slot holds
`APPDATA_INVALID_INDEX`. -/
theorem C37_init_writes_password_only (s : Sys) (h : s.mem 0x7C % 256 ≠ 0xAA) :
    (∀ x, (AppData_init s).mem x = if x < 5 then [48, 48, 48, 48, 0].getD x 0 else s.mem x) ∧
    (∀ t p, (AppData_saveItemPrice t 0 p).1 = APPDATA_INVALID_INDEX) ∧
    (∀ t, (AppData_initializeDefaults t).1 = APPDATA_INVALID_INDEX) ∧
    (AppData_isFirstTime (AppData_init s)).1 = 1 ∧
    AppData_getLastError (AppData_init s) = APPDATA_INVALID_INDEX := by
  obtain ⟨g1, g2⟩ := init_first_time s h
  have hl : APPDATA_DEFAULT_PASSWORD.length = 4 := rfl
  have hcell : ∀ x, (AppData_init s).mem x =
      if x < 5 then [48, 48, 48, 48, 0].getD x 0 else s.mem x := by
    intro x
    rw [g1, (writeString_ok s 0 APPDATA_DEFAULT_PASSWORD (by decide)).2.2 x, hl]
    by_cases hx : x < 5
    · rw [if_pos hx, if_pos (by omega)]
      interval_cases x <;> rfl
    · rw [if_neg hx, if_neg (by omega)]
  refine ⟨hcell, ?_, ?_, ?_, g2⟩
  · intro t p
    simp [AppData_saveItemPrice]
  · intro t
    rw [initializeDefaults_eq]
  · have hflag : (AppData_init s).mem 0x7C = s.mem 0x7C := by
      rw [hcell 0x7C, if_neg (by omega)]
    rw [isFirstTime_eq, hflag, if_pos h]

/-- C37 on the erased store after `EEPROM_writeByte(0x7C, 0x00)`: the flag cell
holds 0, the cell 3 becomes the character 0 (48), the cell 4 the terminator,
the cell 5 stays erased. -/
theorem C37_init_writes_password_only_witness :
    (AppData_init (EEPROM_writeByte erasedSys 0x7C 0x00).2).mem 3 = 48 ∧
    (AppData_init (EEPROM_writeByte erasedSys 0x7C 0x00).2).mem 4 = 0 ∧
    (AppData_init (EEPROM_writeByte erasedSys 0x7C 0x00).2).mem 5 = 0xFF ∧
    (AppData_isFirstTime (AppData_init (EEPROM_writeByte erasedSys 0x7C 0x00).2)).1 = 1 :=
  have h := C37_init_writes_password_only (EEPROM_writeByte erasedSys 0x7C 0x00).2 (by decide)
  ⟨h.1 3, h.1 4, h.1 5, h.2.2.2.1⟩

/-! ## C38: a successful load and the error slot -/

/-- A load of a price at a valid index returns the store as it was, error
slots included. -/
theorem loadItemPrice_state (s : Sys) (i : Nat) (h1 : 1 ≤ i) (h5 : i ≤ 5) :
    (AppData_loadItemPrice s i).2 = s := by
  rw [loadItemPrice_ok s i h1 h5]
  exact readLE_loop_state (16 + 4 * (i - 1)) 32 4 0 0 s (by omega)

/-- A load of a price at an index outside 1..5 returns `0.0` and records
`APPDATA_INVALID_INDEX`. -/
theorem loadItemPrice_bad (s : Sys) (j : Nat) (hj : j < 1 ∨ 5 < j) :
    AppData_loadItemPrice s j = (0, { s with appErr := APPDATA_INVALID_INDEX }) := by
  have hidx : j < 1 ∨ j > APPDATA_NUM_ITEMS := by
    simp only [APPDATA_NUM_ITEMS]; omega
  simp only [AppData_loadItemPrice, if_pos hidx]

/-- C38: for every index 1..5, `AppData_loadItemPrice` leaves
`AppData_getLastError` as it found it. After a load with an index outside 1..5,
which returns `0.0` and records `APPDATA_INVALID_INDEX`, a load of a valid index
whose stored price is `0.0` returns the same value with the same error slot as
the failed load; with `AppData_clearError` called in between, the slot reads
`APPDATA_NO_ERROR` after the successful load. -/
theorem C38_load_keeps_error_slot (s : Sys) (i j : Nat) (h1 : 1 ≤ i) (h5 : i ≤ 5)
    (hj : j < 1 ∨ 5 < j) :
    AppData_getLastError (AppData_loadItemPrice s i).2 = AppData_getLastError s ∧
    (AppData_loadItemPrice s j).1 = 0 ∧
    AppData_getLastError (AppData_loadItemPrice s j).2 = APPDATA_INVALID_INDEX ∧
    ((AppData_loadItemPrice s i).1 = 0 →
      (AppData_loadItemPrice (AppData_loadItemPrice s j).2 i).1 = (AppData_loadItemPrice s j).1 ∧
      AppData_getLastError (AppData_loadItemPrice (AppData_loadItemPrice s j).2 i).2
        = AppData_getLastError (AppData_loadItemPrice s j).2) ∧
    AppData_getLastError
      (AppData_loadItemPrice (AppData_clearError (AppData_loadItemPrice s j).2) i).2
        = APPDATA_NO_ERROR := by
  refine ⟨by rw [loadItemPrice_state s i h1 h5], ?_, ?_, ?_, ?_⟩
  · rw [loadItemPrice_bad s j hj]
  · rw [loadItemPrice_bad s j hj]
    rfl
  · intro hz
    rw [loadItemPrice_bad s j hj, loadItemPrice_state _ i h1 h5]
    refine ⟨?_, rfl⟩
    rw [loadItemPrice_ok _ i h1 h5,
      readLE_loop_congr (16 + 4 * (i - 1)) 32 4 0 0
        { s with appErr := APPDATA_INVALID_INDEX } s (by omega) (fun k _ => rfl),
      ← loadItemPrice_ok s i h1 h5]
    exact hz
  · rw [loadItemPrice_state _ i h1 h5]
    rfl

/-- C38 on the erased store after `AppData_saveItemPrice(2, 0.0)`: the failed
load of index 0 and the successful load of index 2 after it both return `0.0`
with `APPDATA_INVALID_INDEX` in the slot. -/
theorem C38_load_keeps_error_slot_witness :
    (AppData_loadItemPrice (AppData_saveItemPrice erasedSys 2 0).2 2).1 = 0 ∧
    (AppData_loadItemPrice (AppData_saveItemPrice erasedSys 2 0).2 0).1 = 0 ∧
    AppData_getLastError (AppData_loadItemPrice (AppData_saveItemPrice erasedSys 2 0).2 0).2
      = APPDATA_INVALID_INDEX ∧
    (AppData_loadItemPrice
      (AppData_loadItemPrice (AppData_saveItemPrice erasedSys 2 0).2 0).2 2).1
        = (AppData_loadItemPrice (AppData_saveItemPrice erasedSys 2 0).2 0).1 ∧
    AppData_getLastError (AppData_loadItemPrice
      (AppData_loadItemPrice (AppData_saveItemPrice erasedSys 2 0).2 0).2 2).2
        = AppData_getLastError (AppData_loadItemPrice (AppData_saveItemPrice erasedSys 2 0).2 0).2 :=
  have hz : (AppData_loadItemPrice (AppData_saveItemPrice erasedSys 2 0).2 2).1 = 0 := by decide
  have h := C38_load_keeps_error_slot (AppData_saveItemPrice erasedSys 2 0).2 2 0
    (by decide) (by decide) (by decide)
  ⟨hz, h.2.1, h.2.2.1, (h.2.2.2.1 hz).1, (h.2.2.2.1 hz).2⟩

/-! ## C39: block round trip -/

/-- The read loop of `EEPROM_readBlock` over cells that are all in range
leaves the store as it is and fills the buffer elements `i .. i + n - 1` with
the cells `startAddress + i ..`. -/
theorem readBlock_loop_ok (startAddress : Nat) :
    ∀ (n i : Nat) (buf : Nat → Nat) (s : Sys), startAddress + i + n ≤ 1024 →
      (EEPROM_readBlock_loop startAddress n i buf s).2 = s ∧
      ∀ k, (EEPROM_readBlock_loop startAddress n i buf s).1 k =
        if i ≤ k ∧ k < i + n then s.mem (startAddress + k) % 256 else buf k := by
  intro n
  induction n with
  | zero =>
    intro i buf s _
    refine ⟨rfl, fun k => ?_⟩
    rw [if_neg (by omega)]
    rfl
  | succ n ih =>
    intro i buf s h
    have hmod : (startAddress + i) % 65536 = startAddress + i := Nat.mod_eq_of_lt (by omega)
    have e : EEPROM_readBlock_loop startAddress (n + 1) i buf s =
        EEPROM_readBlock_loop startAddress n (i + 1)
          (setByte buf i (s.mem (startAddress + i) % 256)) s := by
      simp only [EEPROM_readBlock_loop, hmod, readByte_ok s (startAddress + i) (by omega)]
    rw [e]
    obtain ⟨g1, g2⟩ := ih (i + 1) (setByte buf i (s.mem (startAddress + i) % 256)) s (by omega)
    refine ⟨g1, fun k => ?_⟩
    rw [g2 k]
    simp only [setByte]
    by_cases hk : k = i
    · subst hk
      rw [if_neg (by omega), if_pos rfl, if_pos (by omega)]
    · by_cases hr : i + 1 ≤ k ∧ k < i + 1 + n
      · rw [if_pos hr, if_pos (by omega)]
      · rw [if_neg hr, if_neg hk, if_neg (by omega)]

/-- A block read whose span lies in the store. -/
theorem readBlock_ok (s : Sys) (startAddress : Nat) (buf : Nat → Nat) (length : Nat)
    (h0 : 0 < length) (h : startAddress + length ≤ 1024) :
    EEPROM_readBlock s startAddress (some buf) length =
      (EEPROM_NO_ERROR, some (EEPROM_readBlock_loop startAddress length 0 buf s).1, s) := by
  have hv : (!EEPROM_validateAddress startAddress ||
      !EEPROM_validateAddress ((startAddress + length + 65536 - 1) % 65536)) = false := by
    simp only [EEPROM_validateAddress, EEPROM_END_ADDRESS, EEPROM_SIZE, Bool.or_eq_false_iff,
      Bool.not_eq_false', decide_eq_true_eq]
    omega
  simp only [EEPROM_readBlock, hv]
  simp [(readBlock_loop_ok startAddress length 0 buf s (by omega)).1]

/-- C39: for a span `[startAddress, startAddress + length)` inside the store
with `length >= 1` and a buffer `data` of `length` bytes, `EEPROM_writeBlock`
returns `EEPROM_NO_ERROR`, `EEPROM_readBlock` of the same span then returns
`EEPROM_NO_ERROR` with the first `length` elements of its buffer equal to `data`
and the other elements as they were, and no cell outside the span changes. -/
theorem C39_block_round_trip (s : Sys) (startAddress length : Nat) (data : List Nat)
    (buf : Nat → Nat) (h0 : 1 ≤ length) (h : startAddress + length ≤ 1024)
    (hd : data.length = length) (hb : ∀ b ∈ data, b < 256) :
    (EEPROM_writeBlock s startAddress (some data) length).1 = EEPROM_NO_ERROR ∧
    (EEPROM_readBlock (EEPROM_writeBlock s startAddress (some data) length).2 startAddress
      (some buf) length).1 = EEPROM_NO_ERROR ∧
    (EEPROM_readBlock (EEPROM_writeBlock s startAddress (some data) length).2 startAddress
      (some buf) length).2.1.map (fun out => (List.range length).map out) = some data ∧
    (∀ k, length ≤ k →
      (EEPROM_readBlock (EEPROM_writeBlock s startAddress (some data) length).2 startAddress
        (some buf) length).2.1.map (fun out => out k) = some (buf k)) ∧
    ChangesOnly s (EEPROM_writeBlock s startAddress (some data) length).2
      startAddress (startAddress + length) := by
  obtain ⟨w1, _, w3⟩ := writeBlock_loop_ok startAddress data length 0 s (by omega)
  have hw := writeBlock_ok s startAddress data length (by omega) h
  rw [hw, readBlock_ok _ startAddress buf length (by omega) h]
  obtain ⟨_, r2⟩ := readBlock_loop_ok startAddress length 0 buf
    (EEPROM_writeBlock_loop startAddress data length 0 s).2 (by omega)
  refine ⟨w1, rfl, ?_, ?_, ?_⟩
  · simp only [Option.map_some', Option.some.injEq]
    apply List.ext_getElem
    · simp [hd]
    · intro k hk1 hk2
      have hk : k < length := by simpa using hk1
      simp only [List.getElem_map, List.getElem_range]
      rw [r2 k, if_pos (by omega), w3 (startAddress + k), if_pos (by omega),
        Nat.add_sub_cancel_left, Nat.mod_mod, List.getD_eq_getElem _ _ hk2]
      exact Nat.mod_eq_of_lt (hb _ (List.getElem_mem hk2))
  · intro k hk
    simp only [Option.map_some', Option.some.injEq]
    rw [r2 k, if_neg (by omega)]
  · intro x hx
    rw [w3 x, if_neg (by omega)]

/-- C39 for the four bytes 1, 2, 255, 0 at the last four addresses of the
erased store. -/
theorem C39_block_round_trip_witness :
    (EEPROM_writeBlock erasedSys 1020 (some [1, 2, 255, 0]) 4).1 = EEPROM_NO_ERROR ∧
    (EEPROM_readBlock (EEPROM_writeBlock erasedSys 1020 (some [1, 2, 255, 0]) 4).2 1020
      (some (fun _ => 0x5A)) 4).1 = EEPROM_NO_ERROR ∧
    (EEPROM_readBlock (EEPROM_writeBlock erasedSys 1020 (some [1, 2, 255, 0]) 4).2 1020
      (some (fun _ => 0x5A)) 4).2.1.map (fun out => (List.range 4).map out)
        = some [1, 2, 255, 0] :=
  have h := C39_block_round_trip erasedSys 1020 4 [1, 2, 255, 0] (fun _ => 0x5A)
    (by decide) (by decide) (by decide) (by decide)
  ⟨h.1, h.2.1, h.2.2.1⟩

/-! ## C40: no storage error for validated arguments -/

theorem markAsInitialized_ok (s : Sys) :
    (AppData_markAsInitialized s).1 = APPDATA_NO_ERROR := by
  simp only [AppData_markAsInitialized, APPDATA_FIRST_TIME_FLAG_ADDRESS,
    APPDATA_INITIALIZED_VALUE, writeByte_ok s 0x7C 0xAA (by decide), convertEepromError_ok]

/-- C40: for an index in 1..5 the two address functions return a non-zero
address whose field lies inside the store, as do the six fixed fields; and for
arguments that pass the checks (index 1..5, price passing the range check,
string of at most 15 characters, income not `< 0.0`, any scale and offset) the
six save functions return `APPDATA_NO_ERROR` and change no cell outside their
own field. -/
theorem C40_no_storage_error (s : Sys) (i price : Nat) (str : List Nat) (income scale : Nat)
    (offset : Int) (h1 : 1 ≤ i) (h5 : i ≤ 5)
    (hprice : (f32_lt price APPDATA_MIN_PRICE || f32_lt APPDATA_MAX_PRICE price) = false)
    (hstr : str.length ≤ 15) (hinc : f64_lt income 0 = false) :
    (AppData_getItemAddress i ≠ 0 ∧ AppData_getItemAddress i + 4 ≤ 1024) ∧
    (AppData_getItemNameAddress i ≠ 0 ∧
      AppData_getItemNameAddress i + APPDATA_ITEM_NAME_SIZE ≤ 1024) ∧
    (APPDATA_PASSWORD_ADDRESS + APPDATA_PASSWORD_SIZE ≤ 1024 ∧
      APPDATA_TOTAL_INCOME_ADDRESS + 8 ≤ 1024 ∧ APPDATA_FIRST_TIME_FLAG_ADDRESS + 1 ≤ 1024 ∧
      APPDATA_HX711_SCALE_ADDRESS + 8 ≤ 1024 ∧
      APPDATA_HX711_OFFSET_ADDRESS + APPDATA_HX711_OFFSET_SIZE ≤ 1024 ∧
      APPDATA_HX711_CALIBRATED_FLAG_ADDRESS + 1 ≤ 1024) ∧
    ((AppData_savePassword s (some str)).1 = APPDATA_NO_ERROR ∧
      ChangesOnly s (AppData_savePassword s (some str)).2 0x00 0x10) ∧
    ((AppData_saveItemPrice s i price).1 = APPDATA_NO_ERROR ∧
      ChangesOnly s (AppData_saveItemPrice s i price).2 (0x10 + 4 * (i - 1)) (0x10 + 4 * i)) ∧
    ((AppData_saveItemName s i (some str)).1 = APPDATA_NO_ERROR ∧
      ChangesOnly s (AppData_saveItemName s i (some str)).2
        (0x2C + 16 * (i - 1)) (0x2C + 16 * i)) ∧
    ((AppData_saveTotalIncome s income).1 = APPDATA_NO_ERROR ∧
      ChangesOnly s (AppData_saveTotalIncome s income).2 0x24 0x2C) ∧
    ((AppData_markAsInitialized s).1 = APPDATA_NO_ERROR ∧
      ChangesOnly s (AppData_markAsInitialized s).2 0x7C 0x7D) ∧
    ((AppData_saveCalibration s scale offset).1 = APPDATA_NO_ERROR ∧
      ChangesOnly s (AppData_saveCalibration s scale offset).2 0x7D 0x8A) := by
  refine ⟨?_, ?_, by decide, ?_, ?_, ?_, ?_, ?_, ?_⟩
  · rw [getItemAddress_eq i h1 h5]
    omega
  · rw [getItemNameAddress_eq i h1 h5, APPDATA_ITEM_NAME_SIZE]
    omega
  · exact ⟨(savePassword_ok s str hstr).1, savePassword_frame s (some str)⟩
  · exact ⟨(saveItemPrice_ok s i price h1 h5 hprice).1, saveItemPrice_frame s i price h1 h5⟩
  · refine ⟨?_, saveItemName_frame s i (some str) h1 h5⟩
    rw [saveItemName_eq s i str h1 h5 hstr]
  · exact ⟨(saveTotalIncome_ok s income hinc).1, saveTotalIncome_frame s income⟩
  · exact ⟨markAsInitialized_ok s, markAsInitialized_frame s⟩
  · exact ⟨(saveCalibration_ok s scale offset).1, (saveCalibration_frame s scale offset).1⟩

/-- C40 on the erased store for index 5, the price 42.5, the 15 characters
"0123456789ABCDE", the income `0.0`, and the all-ones scale pattern with the
offset `-2147483648`. -/
theorem C40_no_storage_error_witness :
    (AppData_getItemAddress 5 ≠ 0 ∧ AppData_getItemNameAddress 5 ≠ 0) ∧
    (AppData_savePassword erasedSys
      (some [48, 49, 50, 51, 52, 53, 54, 55, 56, 57, 65, 66, 67, 68, 69])).1 = APPDATA_NO_ERROR ∧
    (AppData_saveItemPrice erasedSys 5 0x422A0000).1 = APPDATA_NO_ERROR ∧
    (AppData_saveItemName erasedSys 5
      (some [48, 49, 50, 51, 52, 53, 54, 55, 56, 57, 65, 66, 67, 68, 69])).1 = APPDATA_NO_ERROR ∧
    (AppData_saveTotalIncome erasedSys 0).1 = APPDATA_NO_ERROR ∧
    (AppData_markAsInitialized erasedSys).1 = APPDATA_NO_ERROR ∧
    (AppData_saveCalibration erasedSys 0xFFFFFFFFFFFFFFFF (-2147483648)).1 = APPDATA_NO_ERROR :=
  have hv : f32_toRat 0x422A0000 = 42.5 := by
    have h0 : f32_scaled 0x422A0000 = 85 * 2 ^ 148 := by
      rw [f32_scaled_of_mag 0x422A0000 (85 * 2 ^ 148) (by decide) (by decide)]
      norm_num
    rw [f32_toRat, h0]; push_cast; norm_num
  have h := C40_no_storage_error erasedSys 5 0x422A0000
    [48, 49, 50, 51, 52, 53, 54, 55, 56, 57, 65, 66, 67, 68, 69] 0 0xFFFFFFFFFFFFFFFF
    (-2147483648) (by decide) (by decide)
    (price_check_passes 0x422A0000 (by rw [hv]; norm_num) (by rw [hv]; norm_num))
    (by decide) (by rw [f64_lt_zero]; decide)
  ⟨⟨h.1.1, h.2.1.1⟩, h.2.2.2.1.1, h.2.2.2.2.1.1, h.2.2.2.2.2.1.1, h.2.2.2.2.2.2.1.1,
    h.2.2.2.2.2.2.2.1.1, h.2.2.2.2.2.2.2.2.1⟩
